import Mathlib

/-!
# QModbusTool: poll request scheduler

A shallow embedding of `scheduler.cpp` (class `Scheduler`), of the mailbox of
`modbusthread.cpp` (class `ModbusThread`) that the scheduler drives, and of the
two collaborators the scheduler calls into: the metadata plugin wrapper
(`metadata_wrapper.cpp`) and the polling windows (`register_display.cpp`).

Conventions of the embedding:

* a `BaseDialog*` is an `Option Nat` (`none` is `nullptr`, `some k` is the address of
  window `k`);
* Qt signals emitted by the scheduler, the calls it makes on a requester and
  the calls it makes on the transport are recorded, in program order, in a list of
  `Effect`s;
* a C++ exception leaving a handler, or an operation without defined behaviour
  (`front()` / `pop_front()` of an empty `std::deque`, a call through `nullptr`), ends
  the handler with a `Fault`; the state and the effects at that point are kept;
* `quint8`, `quint16`, `quint64` are naturals, reduced modulo `2^8`, `2^16`, `2^64`
  wherever the source does arithmetic on them.
-/

namespace QModbusTool

/-! ## Data model -/

/-- Enumeration `PollAction` of `scheduler.h`. -/
inductive PollAction
  | POLLING_INACTIVE
  | POLLING_WRITE
  | POLLING_METADATA
  | POLLING_READ
  | POLLING_DEVID
deriving DecidableEq, Repr

/-- Enumerators of `SystemRegister` (`scheduler.h`), values of the system register 0. -/
def DEVICE_ID_POLL_COMPLETE : Nat := 0

/-- Second enumerator of `SystemRegister`. -/
def CUSTOM_POLL_COMPLETE : Nat := 1

/-- Third enumerator of `SystemRegister`. -/
def POLL_METADATA_COMPLETE : Nat := 2

/-- Fourth enumerator of `SystemRegister`. -/
def WRITE_REQUEST_COMPLETE : Nat := 3

/-- Fifth enumerator of `SystemRegister`. -/
def SYSTEM_CONNECTED : Nat := 4

/-- Sixth enumerator of `SystemRegister`. -/
def SYSTEM_DISCONNECTED : Nat := 5

/-- Enumerator `ENCODING_UNKNOWN` of `RegisterEncoding` (`metadata_structs.h`). -/
def ENCODING_UNKNOWN : Int := 7

/-- Struct `WriteRequest` of `write_event.h`. -/
structure WriteRequest where
  requester : Option Nat
  node : Nat
  first_register : Nat
  values : List Nat
deriving DecidableEq, Repr

/-- Public fields of class `Metadata` (`metadata_structs.h`). -/
structure Metadata where
  register_number : Nat
  label : String
  encoding : Int
  min : Option Int
  max : Option Int
  dflt : Option Int
  function_code : Int
deriving DecidableEq, Repr

/-- Struct `WindowMetadataRequest` of `metadata_structs.h`. -/
structure WindowMetadataRequest where
  current_register : Nat
  last_register : Nat
  node : Nat
  requester : Option Nat
  request : Option Metadata
deriving DecidableEq, Repr

/-- The request mailbox of class `ModbusThread` (`modbusthread.h`): the fields the
control thread writes with `modbus_request` and reads back on completion. -/
structure ModbusThread where
  m_write_request : Bool
  m_raw_request : Option (List Nat)
  m_regs : List Nat
  m_reg_number : Nat
  m_count : Nat
  m_node : Nat
deriving DecidableEq, Repr

/-- The part of `QTimer` the scheduler uses for `m_modbus_timer`. -/
structure QTimer where
  interval : Int
  active : Bool
deriving DecidableEq, Repr

/-- A call on the transport: the three overloads of `ModbusThread::modbus_request`. -/
inductive Request
  | read (first_reg num_regs uid : Nat)
  | write (first_reg : Nat) (regs_to_write : List Nat) (uid : Nat)
  | raw (pdu : List Nat) (length : Nat) (fc : Int) (uid : Nat)
deriving DecidableEq, Repr

/-- What a handler of the scheduler does to the outside, in program order: the
three signals of `Scheduler`, the two virtual calls on a requester, and the
call on the transport. `poll_exception` carries the error code whose text
`tr(modbus_strerror(error_code))` is the reason sent. -/
inductive Effect
  | new_register_data (regnumber value device_id : Nat)
  | polling_complete
  | poll_exception (requester : Option Nat) (error_code : Int)
  | modbus_request (req : Request)
  | poll_register_set (requester : Nat)
  | set_metadata (requester : Nat) (metadata : Metadata) (node : Nat)
deriving DecidableEq, Repr

/-- How a handler can end other than by returning. -/
inductive Fault
  | app_exception
  | undefined_behaviour
  | assertion_failed
  | out_of_fuel
  | length_error
deriving DecidableEq, Repr

/-- Member variables of class `Scheduler` (`scheduler.h`). `m_polling_thread`
holds the mailbox of the thread it points to, `none` when it is `nullptr`. -/
structure Scheduler where
  m_write_requests : List WriteRequest
  m_meta_requests : List WindowMetadataRequest
  m_standard_requests : List (Option Nat)
  m_polling_thread : Option ModbusThread
  m_current_action : PollAction
  m_poll_count : Nat
  m_error_count : Nat
  m_modbus_timer : QTimer
  m_active : Bool
  m_current_request : Option Nat
deriving DecidableEq, Repr

/-- State, effects and fault with which a handler ends. -/
structure Outcome where
  state : Scheduler
  effects : List Effect
  fault : Option Fault
deriving DecidableEq, Repr

/-- The fields of a `RegisterDisplay` window that `poll_register_set` reads. -/
structure RegisterDisplay where
  m_starting_register : Nat
  m_count : Nat
  m_node_select : Int
deriving DecidableEq, Repr

/-- What the plugin reports after a successful `decode_response`: the label when
its length is positive, the default, the encoding when it is not negative, and
the limits (`metadata_wrapper.cpp`, `decode_labels` and the three after it). -/
structure DecodedFields where
  label : Option String
  dflt : Option Int
  encoding : Option Int
  limits : Option (Int × Int)
deriving DecidableEq, Repr

/-- The collaborators of the scheduler that are not part of it: the metadata
plugin behind `MetadataWrapper` and the windows behind the requester handles.
`create r` is the function code byte the plugin stores for register `r`, `none`
when the plugin returns `NULL`; `encode r` is the PDU it writes; `decode r rsp` is
`none` when its `decode_response` returns non-zero; `dialog k` is `none` when window
`k` does not override `poll_register_set` and `set_metadata`. -/
structure Env where
  loaded : Bool
  create : Nat → Option Nat
  encode : Nat → List Nat
  decode : Nat → List Nat → Option DecodedFields
  dialog : Nat → Option RegisterDisplay

/-! ## ModbusThread mailbox -/

/-- Overload `ModbusThread::modbus_request(first_reg, num_regs, uid)`. -/
def ModbusThread.modbus_request_read (t : ModbusThread) (first_reg num_regs uid : Nat) :
    ModbusThread :=
  { t with m_reg_number := first_reg, m_count := num_regs, m_node := uid,
           m_write_request := false, m_raw_request := none }

/-- Overload `ModbusThread::modbus_request(first_reg, regs_to_write, uid)`. -/
def ModbusThread.modbus_request_write (t : ModbusThread) (first_reg : Nat)
    (regs_to_write : List Nat) (uid : Nat) : ModbusThread :=
  { t with m_regs := regs_to_write, m_reg_number := first_reg,
           m_count := regs_to_write.length % 65536, m_node := uid,
           m_write_request := true, m_raw_request := none }

/-- Overload `ModbusThread::modbus_request(pdu, length, fc, uid)`; `quint16(fc)` of a
`qint8` is its residue modulo `2^16`. -/
def ModbusThread.modbus_request_raw (t : ModbusThread) (pdu : List Nat) (length : Nat)
    (fc : Int) (uid : Nat) : ModbusThread :=
  { t with m_regs := [], m_node := uid, m_count := length, m_raw_request := some pdu,
           m_write_request := false, m_reg_number := (fc % 65536).toNat }

/-- The function `ModbusThread::modbus_result`: the stored values, and the mailbox
with its storage emptied. -/
def ModbusThread.modbus_result (t : ModbusThread) : List Nat × ModbusThread :=
  (t.m_regs, { t with m_regs := [] })

/-- The function `ModbusThread::get_start_reg`. -/
def ModbusThread.get_start_reg (t : ModbusThread) : Nat := t.m_reg_number

/-- The function `ModbusThread::get_unit_id`. -/
def ModbusThread.get_unit_id (t : ModbusThread) : Nat := t.m_node

/-! ## Collaborators -/

/-- Constructor of `Metadata` as called by `MetadataWrapper::create_request`: the
three optionals are built from `false`, so they hold 0; `function_code` is the
byte `fc` read as `qint8`. -/
def Metadata.create (reg_num fc : Nat) : Metadata :=
  { register_number := reg_num, label := "", encoding := ENCODING_UNKNOWN,
    min := some 0, max := some 0, dflt := some 0,
    function_code := if fc % 256 < 128 then ((fc % 256 : Nat) : Int)
                     else ((fc % 256 : Nat) : Int) - 256 }

/-- The function `MetadataWrapper::decode_response`: on success of the plugin each
reported field overwrites the one of the request. -/
def decode_response (env : Env) (request : Metadata) (data : List Nat) : Metadata :=
  match env.decode request.register_number data with
  | none => request
  | some d =>
    { request with
      label := d.label.getD request.label,
      dflt := if d.dflt.isSome then d.dflt else request.dflt,
      encoding := d.encoding.getD request.encoding,
      min := match d.limits with
        | some l => some l.1
        | none => request.min,
      max := match d.limits with
        | some l => some l.2
        | none => request.max }

/-! ## Scheduler -/

/-- State after the constructor `Scheduler::Scheduler`. -/
def Scheduler.init : Scheduler :=
  { m_write_requests := [], m_meta_requests := [], m_standard_requests := [],
    m_polling_thread := none, m_current_action := PollAction.POLLING_INACTIVE,
    m_poll_count := 0, m_error_count := 0, m_modbus_timer := { interval := 0, active := false },
    m_active := false, m_current_request := none }

/-- The function `QTimer::stop`. -/
def QTimer.stop (t : QTimer) : QTimer := { t with active := false }

/-- The function `Scheduler::poll_write_request`. -/
def poll_write_request (s : Scheduler) : Outcome :=
  match s.m_write_requests, s.m_polling_thread with
  | write :: rest, some t =>
    { state := { s with
        m_write_requests := rest,
        m_current_request := write.requester,
        m_polling_thread :=
          some (t.modbus_request_write write.first_register write.values write.node) },
      effects := [Effect.modbus_request
        (Request.write write.first_register write.values write.node)],
      fault := none }
  | _, _ => { state := s, effects := [], fault := some Fault.undefined_behaviour }

/-- The function `Scheduler::poll_meta_request`, with its return value. -/
def poll_meta_request (env : Env) (s : Scheduler) : Outcome × Bool :=
  match s.m_meta_requests with
  | [] => ({ state := s, effects := [], fault := some Fault.undefined_behaviour }, false)
  | cur :: rest =>
    if env.loaded = true ∧ cur.current_register ≤ cur.last_register ∧ cur.requester ≠ none then
      match env.create cur.current_register with
      | none => ({ state := s, effects := [], fault := some Fault.app_exception }, false)
      | some fc =>
        let request := Metadata.create cur.current_register fc
        let pdu := env.encode cur.current_register
        match s.m_polling_thread with
        | none =>
          ({ state := { s with m_meta_requests := { cur with request := some request } :: rest },
             effects := [], fault := some Fault.undefined_behaviour }, false)
        | some t =>
          ({ state := { s with
               m_meta_requests := { cur with request := some request } :: rest,
               m_polling_thread := some (t.modbus_request_raw pdu (pdu.length % 256)
                 request.function_code cur.node),
               m_current_request := cur.requester },
             effects := [Effect.modbus_request
               (Request.raw pdu (pdu.length % 256) request.function_code cur.node)],
             fault := none }, true)
    else
      ({ state := { s with m_meta_requests := rest }, effects := [], fault := none }, false)

/-- The function `Scheduler::poll_read_request`, with its return value; the call
`poll_register_set` is `RegisterDisplay::poll_register_set` on a polling window
and the throwing `BaseDialog::poll_register_set` on any other. -/
def poll_read_request (env : Env) (s : Scheduler) : Outcome × Bool :=
  match s.m_standard_requests with
  | [] => ({ state := s, effects := [], fault := some Fault.undefined_behaviour }, false)
  | front :: rest =>
    let s1 := { s with m_current_request := front, m_standard_requests := rest }
    match front with
    | none => ({ state := s1, effects := [], fault := some Fault.undefined_behaviour }, false)
    | some k =>
      match env.dialog k, s1.m_polling_thread with
      | some d, some t =>
        ({ state := { s1 with m_polling_thread := some (t.modbus_request_read
             d.m_starting_register d.m_count (d.m_node_select % 256).toNat) },
           effects := [Effect.poll_register_set k, Effect.modbus_request
             (Request.read d.m_starting_register d.m_count (d.m_node_select % 256).toNat)],
           fault := none }, decide (rest.length = 0))
      | some _, none =>
        ({ state := s1, effects := [Effect.poll_register_set k],
           fault := some Fault.undefined_behaviour }, false)
      | none, _ =>
        ({ state := s1, effects := [Effect.poll_register_set k],
           fault := some Fault.app_exception }, false)

/-- The function `Scheduler::poll_devid_request`. -/
def poll_devid_request (s : Scheduler) : Outcome :=
  match s.m_polling_thread with
  | some t =>
    { state := { s with m_current_request := none,
                        m_polling_thread := some (t.modbus_request_read 0 0 0) },
      effects := [Effect.modbus_request (Request.read 0 0 0)], fault := none }
  | none =>
    { state := { s with m_current_request := none }, effects := [],
      fault := some Fault.undefined_behaviour }

/-- The three priority tests at the head of the loop body of
`Scheduler::figure_next` (the default, then the two overrides), applied to the value
`next_action` has on entry to the body. -/
def select_action (next_action : PollAction) (s : Scheduler) : PollAction :=
  let a1 := if s.m_standard_requests.length = 0 then PollAction.POLLING_INACTIVE
            else next_action
  let a2 := if s.m_meta_requests.length > 0 then PollAction.POLLING_METADATA else a1
  if s.m_write_requests.length > 0 then PollAction.POLLING_WRITE else a2

/-- Locals of `Scheduler::figure_next` when its loop is left, with the outcome so far
and the number of times the loop body ran. -/
structure LoopResult where
  out : Outcome
  next_action : PollAction
  emit_poll_complete : Bool
  iterations : Nat
deriving DecidableEq, Repr

/-- The `do ... while (loop)` of `Scheduler::figure_next`; the first argument bounds
the number of times the body may run. -/
def figure_next_loop (env : Env) : Nat → Scheduler → PollAction → Bool → LoopResult
  | 0, s, next_action, emit_poll_complete =>
    { out := { state := s, effects := [], fault := some Fault.out_of_fuel },
      next_action := next_action, emit_poll_complete := emit_poll_complete, iterations := 0 }
  | fuel + 1, s, next_action, emit_poll_complete =>
    match select_action next_action s with
    | PollAction.POLLING_WRITE =>
      { out := poll_write_request s, next_action := PollAction.POLLING_WRITE,
        emit_poll_complete := emit_poll_complete, iterations := 1 }
    | PollAction.POLLING_METADATA =>
      let r := poll_meta_request env s
      if r.1.fault ≠ none ∨ r.2 = true then
        { out := r.1, next_action := PollAction.POLLING_METADATA,
          emit_poll_complete := emit_poll_complete, iterations := 1 }
      else if r.1.state.m_standard_requests.length > 0 then
        let rr := poll_read_request env r.1.state
        { out := { state := rr.1.state, effects := r.1.effects ++ rr.1.effects,
                   fault := rr.1.fault },
          next_action := PollAction.POLLING_READ, emit_poll_complete := rr.2,
          iterations := 1 }
      else
        let l := figure_next_loop env fuel r.1.state PollAction.POLLING_METADATA
          emit_poll_complete
        { out := { state := l.out.state, effects := r.1.effects ++ l.out.effects,
                   fault := l.out.fault },
          next_action := l.next_action, emit_poll_complete := l.emit_poll_complete,
          iterations := l.iterations + 1 }
    | PollAction.POLLING_READ =>
      let rr := poll_read_request env s
      { out := rr.1, next_action := PollAction.POLLING_READ, emit_poll_complete := rr.2,
        iterations := 1 }
    | PollAction.POLLING_DEVID =>
      { out := poll_devid_request s, next_action := PollAction.POLLING_DEVID,
        emit_poll_complete := emit_poll_complete, iterations := 1 }
    | PollAction.POLLING_INACTIVE =>
      { out := { state := { s with m_active := false }, effects := [], fault := none },
        next_action := PollAction.POLLING_INACTIVE,
        emit_poll_complete := emit_poll_complete, iterations := 1 }

/-- The function `Scheduler::figure_next`. The loop is given one more turn than
there are metadata sequences queued. -/
def figure_next (env : Env) (s : Scheduler) : Outcome :=
  if s.m_active = true ∨ s.m_polling_thread = none then
    { state := s, effects := [], fault := none }
  else
    let s1 := { s with m_active := true, m_current_request := none }
    let l := figure_next_loop env (s1.m_meta_requests.length + 1) s1
      PollAction.POLLING_READ false
    match l.out.fault with
    | some f => { state := l.out.state, effects := l.out.effects, fault := some f }
    | none =>
      { state := { l.out.state with m_current_action := l.next_action },
        effects := l.out.effects ++
          (if l.emit_poll_complete = true then [Effect.polling_complete] else []),
        fault := none }

/-- Run `k` on the state `o` ended in, unless `o` ended in a fault; the effects of
both are kept in order. -/
def Outcome.andThen (o : Outcome) (k : Scheduler → Outcome) : Outcome :=
  match o.fault with
  | some _ => o
  | none =>
    let o2 := k o.state
    { state := o2.state, effects := o.effects ++ o2.effects, fault := o2.fault }

/-- The function `Scheduler::start_modbus`. -/
def start_modbus (s : Scheduler) (engine : ModbusThread) (timeout : Int) : Outcome :=
  if s.m_polling_thread ≠ none then
    { state := s, effects := [], fault := some Fault.assertion_failed }
  else
    { state := { s with
        m_polling_thread := some engine,
        m_modbus_timer := { s.m_modbus_timer with interval := timeout },
        m_write_requests := [], m_meta_requests := [], m_standard_requests := [],
        m_current_request := none, m_active := false,
        m_poll_count := 0, m_error_count := 0 },
      effects := [Effect.new_register_data 0 SYSTEM_CONNECTED 255],
      fault := none }

/-- The function `Scheduler::stop_modbus`. -/
def stop_modbus (s : Scheduler) : Outcome :=
  if s.m_polling_thread ≠ none then
    { state := { s with
        m_current_request := none, m_active := false,
        m_write_requests := [], m_meta_requests := [],
        m_polling_thread := none, m_standard_requests := [] },
      effects := (if s.m_standard_requests.length > 0 then [Effect.polling_complete] else [])
        ++ [Effect.new_register_data 0 SYSTEM_DISCONNECTED 255],
      fault := none }
  else
    { state := s, effects := [], fault := none }

/-- The function `Scheduler::enqueue_request`. -/
def enqueue_request (env : Env) (s : Scheduler) (source : Option Nat) : Outcome :=
  if s.m_polling_thread ≠ none then
    figure_next env { s with m_standard_requests := s.m_standard_requests ++ [source] }
  else
    { state := s, effects := [], fault := none }

/-- The function `Scheduler::modbus_on_write_request`. -/
def modbus_on_write_request (env : Env) (s : Scheduler) (request : WriteRequest) : Outcome :=
  if s.m_polling_thread ≠ none then
    figure_next env { s with m_write_requests := s.m_write_requests ++ [request] }
  else
    { state := s, effects := [], fault := none }

/-- The function `Scheduler::modbus_on_poll_meta`. -/
def modbus_on_poll_meta (env : Env) (s : Scheduler)
    (request_sequence : WindowMetadataRequest) : Outcome :=
  if s.m_polling_thread ≠ none then
    figure_next env { s with m_meta_requests := s.m_meta_requests ++ [request_sequence] }
  else
    { state := s, effects := [], fault := none }

/-- The function `Scheduler::remove_reference`. -/
def remove_reference (s : Scheduler) (screen : Option Nat) : Outcome :=
  let writes := s.m_write_requests.map
    (fun i => if screen = i.requester then { i with requester := none } else i)
  let metas := s.m_meta_requests.map
    (fun i => if screen = i.requester then { i with requester := none } else i)
  let request_list := s.m_standard_requests.filter (fun i => decide (i ≠ screen))
  let start_count := s.m_standard_requests.length
  { state := { s with
      m_write_requests := writes, m_meta_requests := metas,
      m_standard_requests := request_list,
      m_current_request := if s.m_current_request = screen then none else s.m_current_request },
    effects := if request_list.length = 0 ∧ 0 ≠ start_count then [Effect.polling_complete]
               else [],
    fault := none }

/-- The function `Scheduler::modbus_on_error`. -/
def modbus_on_error (env : Env) (s : Scheduler) (error_code : Int) : Outcome :=
  let s1 := { s with
    m_modbus_timer := s.m_modbus_timer.stop,
    m_error_count := (s.m_error_count + 1) % 2 ^ 64,
    m_active := false }
  let ev := [Effect.poll_exception s1.m_current_request error_code]
  if s1.m_current_action = PollAction.POLLING_METADATA then
    match s1.m_meta_requests with
    | [] => { state := s1, effects := ev, fault := some Fault.undefined_behaviour }
    | _ :: rest =>
      Outcome.andThen { state := { s1 with m_meta_requests := rest }, effects := ev,
                        fault := none } (figure_next env)
  else
    Outcome.andThen { state := s1, effects := ev, fault := none } (figure_next env)

/-- The range-for of the read branch of `Scheduler::modbus_on_data`: one event per
value, `register_number` being a `quint16` that is incremented after each. -/
def emit_register_set (node : Nat) : Nat → List Nat → List Effect
  | _, [] => []
  | register_number, i :: rest =>
    Effect.new_register_data register_number i node ::
      emit_register_set node ((register_number + 1) % 65536) rest

/-- The function `Scheduler::poll_response_metadata`. -/
def poll_response_metadata (env : Env) (s : Scheduler) : Outcome :=
  match s.m_meta_requests, s.m_polling_thread with
  | cur :: rest, some t =>
    let cur1 := { cur with current_register := (cur.current_register + 1) % 65536 }
    let register_set := t.modbus_result.1
    let node := t.get_unit_id
    let rsp := register_set.map (fun i => i % 256)
    let s1 := { s with m_meta_requests := cur1 :: rest,
                       m_polling_thread := some t.modbus_result.2 }
    match cur1.request with
    | none => { state := s1, effects := [], fault := some Fault.undefined_behaviour }
    | some request =>
      let decoded := decode_response env request rsp
      let s2 := { s1 with m_meta_requests := { cur1 with request := some decoded } :: rest }
      match cur1.requester with
      | none => { state := s2, effects := [], fault := none }
      | some k =>
        match env.dialog k with
        | some _ => { state := s2, effects := [Effect.set_metadata k decoded node],
                      fault := none }
        | none => { state := s2, effects := [Effect.set_metadata k decoded node],
                    fault := some Fault.app_exception }
  | _, _ => { state := s, effects := [], fault := some Fault.undefined_behaviour }

/-- The function `Scheduler::modbus_on_data`. -/
def modbus_on_data (env : Env) (s : Scheduler) : Outcome :=
  let s1 := { s with
    m_modbus_timer := s.m_modbus_timer.stop,
    m_poll_count := (s.m_poll_count + 1) % 2 ^ 64,
    m_active := false }
  match s1.m_polling_thread with
  | none => Outcome.andThen { state := s1, effects := [], fault := none } (figure_next env)
  | some t =>
    if s1.m_current_action = PollAction.POLLING_METADATA then
      let r := poll_response_metadata env s1
      Outcome.andThen
        { state := r.state,
          effects := Effect.new_register_data 0 POLL_METADATA_COMPLETE t.get_unit_id
            :: r.effects,
          fault := r.fault } (figure_next env)
    else if s1.m_current_action = PollAction.POLLING_READ then
      let register_set := t.modbus_result.1
      Outcome.andThen
        { state := { s1 with m_polling_thread := some t.modbus_result.2 },
          effects := emit_register_set t.get_unit_id t.get_start_reg register_set,
          fault := none } (figure_next env)
    else
      Outcome.andThen
        { state := s1,
          effects := [Effect.new_register_data 0 WRITE_REQUEST_COMPLETE t.get_unit_id],
          fault := none } (figure_next env)

/-- The function `Scheduler::modbus_on_timer_expired`. -/
def modbus_on_timer_expired (env : Env) (s : Scheduler) : Outcome :=
  if s.m_active = true then modbus_on_error env s 11
  else { state := s, effects := [], fault := none }

/-- The function `Scheduler::get_counts`. -/
def get_counts (s : Scheduler) : Nat × Nat := (s.m_poll_count, s.m_error_count)

/-- The function `Scheduler::get_active`: the return value and the out-parameter. -/
def get_active (s : Scheduler) : Bool × Option Nat := (s.m_active, s.m_current_request)

/-! ## Operations on the scheduler, as a trace -/

/-- What can happen to a scheduler: a call of its public interface, a signal of the
worker thread (`complete` after the worker stored `regs` as its result, or
`modbus_error`), or the expiry of `m_modbus_timer`. -/
inductive Op
  | start_modbus (engine : ModbusThread) (timeout : Int)
  | stop_modbus
  | enqueue_request (source : Option Nat)
  | modbus_on_write_request (request : WriteRequest)
  | modbus_on_poll_meta (request_sequence : WindowMetadataRequest)
  | remove_reference (screen : Option Nat)
  | complete (regs : List Nat)
  | modbus_error (error_code : Int)
  | timer_expired
deriving DecidableEq, Repr

/-- The worker thread leaves `regs` in the result storage of the mailbox. -/
def worker_store (s : Scheduler) (regs : List Nat) : Scheduler :=
  match s.m_polling_thread with
  | some t => { s with m_polling_thread := some { t with m_regs := regs } }
  | none => s

/-- The handler an operation runs. -/
def step (env : Env) (s : Scheduler) : Op → Outcome
  | Op.start_modbus engine timeout => start_modbus s engine timeout
  | Op.stop_modbus => stop_modbus s
  | Op.enqueue_request source => enqueue_request env s source
  | Op.modbus_on_write_request request => modbus_on_write_request env s request
  | Op.modbus_on_poll_meta request_sequence => modbus_on_poll_meta env s request_sequence
  | Op.remove_reference screen => remove_reference s screen
  | Op.complete regs => modbus_on_data env (worker_store s regs)
  | Op.modbus_error error_code => modbus_on_error env s error_code
  | Op.timer_expired => modbus_on_timer_expired env s

/-- The operations of a list one after the other, up to the first fault. -/
def run (env : Env) (s : Scheduler) : List Op → Outcome
  | [] => { state := s, effects := [], fault := none }
  | op :: ops => Outcome.andThen (step env s op) (fun s1 => run env s1 ops)

/-- Whether an effect is a call of `ModbusThread::modbus_request`. -/
def is_modbus_request : Effect → Bool
  | Effect.modbus_request _ => true
  | _ => false

/-- Number of transactions a list of effects hands to the transport. -/
def submissions (es : List Effect) : Nat := es.countP is_modbus_request

/-- Whether an operation is a signal of the worker thread. -/
def is_worker_signal : Op → Bool
  | Op.complete _ => true
  | Op.modbus_error _ => true
  | _ => false

/-- Whether an operation is one of the three submission calls. -/
def is_enqueue : Op → Bool
  | Op.enqueue_request _ => true
  | Op.modbus_on_write_request _ => true
  | Op.modbus_on_poll_meta _ => true
  | _ => false

/-- Number of transactions the worker holds after an operation, when it held `n`
before: a worker signal ends one, every submission adds one. -/
def outstanding_after (n : Nat) (op : Op) (effects : List Effect) : Nat :=
  (if is_worker_signal op = true then n - 1 else n) + submissions effects

/-- The numbers of transactions the worker holds after each operation of a
list, from a scheduler in state `s` whose worker holds `n`; the list ends at the
first fault. -/
def outstanding_trace (env : Env) (s : Scheduler) (n : Nat) : List Op → List Nat
  | [] => []
  | op :: ops =>
    let o := step env s op
    let n1 := outstanding_after n op o.effects
    n1 :: (if o.fault = none then outstanding_trace env o.state n1 ops else [])

/-- A list of submission calls and worker signals in which every worker signal is
delivered while the worker holds exactly one transaction. -/
def signals_delivered_once (env : Env) (s : Scheduler) (n : Nat) : List Op → Prop
  | [] => True
  | op :: ops =>
    (is_enqueue op = true ∨ (is_worker_signal op = true ∧ n = 1)) ∧
    ((step env s op).fault = none →
      signals_delivered_once env (step env s op).state
        (outstanding_after n op (step env s op).effects) ops)

/-- An environment for examples: the plugin is loaded and accepts every
register with function code 65, window 1 polls holding registers 40001..40004
on node 3, and no other window polls. -/
def demo_env : Env :=
  { loaded := true,
    create := fun _ => some 65,
    encode := fun r => [r / 256, r % 256],
    decode := fun _ _ => none,
    dialog := fun k => if k = 1 then some { m_starting_register := 40001, m_count := 4,
                                            m_node_select := 3 } else none }

/-- A mailbox nothing was requested of yet. -/
def demo_thread : ModbusThread :=
  { m_write_request := false, m_raw_request := none, m_regs := [], m_reg_number := 0,
    m_count := 0, m_node := 0 }

/-- A connected idle scheduler with one entry in each queue. -/
def demo_state : Scheduler :=
  { Scheduler.init with
    m_polling_thread := some demo_thread,
    m_write_requests := [{ requester := some 2, node := 5, first_register := 1, values := [1] }],
    m_meta_requests := [{ current_register := 40001, last_register := 40002, node := 3,
                          requester := some 1, request := none }],
    m_standard_requests := [some 1] }

/-- A scheduler just connected to `demo_thread`, every queue empty. -/
def demo_connected : Scheduler :=
  { Scheduler.init with m_polling_thread := some demo_thread }

/-- A read demand and a write submitted back to back, then the completion of the
first transaction and an error for the second. -/
def demo_ops : List Op :=
  [Op.enqueue_request (some 1),
   Op.modbus_on_write_request { requester := some 2, node := 5, first_register := 1,
                                values := [1] },
   Op.complete [10, 20, 30, 40],
   Op.modbus_error 2]

/-- Whether an effect is a call on window `r` or an exception event carrying `r`. -/
def mentions (r : Nat) : Effect → Bool
  | Effect.poll_exception (some k) _ => decide (k = r)
  | Effect.poll_register_set k => decide (k = r)
  | Effect.set_metadata k _ _ => decide (k = r)
  | _ => false

/-- Whether an operation hands the scheduler a reference to window `r`. -/
def names (r : Nat) : Op → Bool
  | Op.enqueue_request source => decide (source = some r)
  | Op.modbus_on_write_request request => decide (request.requester = some r)
  | Op.modbus_on_poll_meta request_sequence => decide (request_sequence.requester = some r)
  | _ => false

/-- No queue entry refers to window `r` and `r` is not the in-flight requester. -/
def free_of (r : Nat) (s : Scheduler) : Prop :=
  (∀ w ∈ s.m_write_requests, w.requester ≠ some r) ∧
  (∀ m ∈ s.m_meta_requests, m.requester ≠ some r) ∧
  (∀ q ∈ s.m_standard_requests, q ≠ some r) ∧
  s.m_current_request ≠ some r

/-- No effect of the list is a call on window `r` or an exception event for `r`. -/
def clean (r : Nat) (es : List Effect) : Prop := ∀ e ∈ es, mentions r e = false

/-- A scheduler with a metadata step of window 1 in flight, and read demand of
windows 1 and 3 queued behind it. -/
def demo_inflight : Scheduler :=
  { Scheduler.init with
    m_polling_thread := some demo_thread,
    m_meta_requests := [{ current_register := 40001, last_register := 40002, node := 3,
                          requester := some 1,
                          request := some (Metadata.create 40001 65) }],
    m_standard_requests := [some 1, some 3, some 1],
    m_current_action := PollAction.POLLING_METADATA,
    m_active := true,
    m_current_request := some 1 }

/-- Whether an effect is the signal `new_register_data`. -/
def is_new_register_data : Effect → Bool
  | Effect.new_register_data _ _ _ => true
  | _ => false

/-- Whether an effect is the signal `poll_exception`. -/
def is_poll_exception : Effect → Bool
  | Effect.poll_exception _ _ => true
  | _ => false

/-- Whether an effect is one an arbitration pass can have: a call on the
transport, the `poll_register_set` call on a requester, or `polling_complete`. -/
def is_dispatch_effect : Effect → Bool
  | Effect.modbus_request _ => true
  | Effect.poll_register_set _ => true
  | Effect.polling_complete => true
  | _ => false

/-- A scheduler whose read of holding registers 40001..40004 on node 3 is in
flight, the worker having stored the values 10, 20, 30, 40. -/
def demo_read_done : Scheduler :=
  { Scheduler.init with
    m_polling_thread := some { m_write_request := false, m_raw_request := none,
                               m_regs := [10, 20, 30, 40], m_reg_number := 40001,
                               m_count := 4, m_node := 3 },
    m_current_action := PollAction.POLLING_READ,
    m_active := true,
    m_current_request := some 1 }

/-- Connect, one read demand of window `a`, and the completion of its read with
the values 10, 20, 30, 40. -/
def read_scenario (engine : ModbusThread) (timeout : Int) (a : Nat) : List Op :=
  [Op.start_modbus engine timeout, Op.enqueue_request (some a), Op.complete [10, 20, 30, 40]]

/-- A scheduler with a metadata step of window 1 in flight and a metadata
sequence of window 3 queued behind it. -/
def demo_meta_inflight : Scheduler :=
  { Scheduler.init with
    m_polling_thread := some demo_thread,
    m_meta_requests := [{ current_register := 40001, last_register := 40002, node := 3,
                          requester := some 1,
                          request := some (Metadata.create 40001 65) },
                        { current_register := 30001, last_register := 30001, node := 4,
                          requester := some 3, request := none }],
    m_current_action := PollAction.POLLING_METADATA,
    m_active := true,
    m_current_request := some 1 }

/-- An environment whose plugin is loaded and returns `NULL` from `create_request`
for every register. -/
def rejecting_env : Env :=
  { demo_env with create := fun _ => none }

/-- A connected idle scheduler whose only demand is a metadata sequence of
window 1 for registers 40001..40002. -/
def demo_meta_queued : Scheduler :=
  { Scheduler.init with
    m_polling_thread := some demo_thread,
    m_meta_requests := [{ current_register := 40001, last_register := 40002, node := 3,
                          requester := some 1, request := none }] }

/-- The metadata sequence of window 1 for the single register 65535 on node 3. -/
def last_register_sequence : WindowMetadataRequest :=
  { current_register := 65535, last_register := 65535, node := 3, requester := some 1,
    request := none }

/-- The transaction `poll_meta_request` submits for register `r` of a sequence on
`node`. -/
def meta_request (env : Env) (node r : Nat) : Request :=
  Request.raw (env.encode r) ((env.encode r).length % 256)
    (Metadata.create r ((env.create r).getD 0)).function_code node

/-- A step of the one queued metadata sequence (of window `k`, on `node`, up to
`last`) is in flight for register `c`, and nothing else is queued. -/
def step_in_flight (k node last c : Nat) (s : Scheduler) : Prop :=
  s.m_active = true ∧ s.m_current_action = PollAction.POLLING_METADATA ∧
  s.m_write_requests = [] ∧ s.m_standard_requests = [] ∧
  (∃ t, s.m_polling_thread = some t) ∧
  ∃ m, s.m_meta_requests =
    [{ current_register := c, last_register := last, node := node,
       requester := some k, request := some m }]

/-- Whether an effect is a `set_metadata` call on a requester. -/
def is_set_metadata : Effect → Bool
  | Effect.set_metadata _ _ _ => true
  | _ => false

/-- The write of the scenario: the value 1 to register 1 of node 5. -/
def scenario_write (requester : Option Nat) : WriteRequest :=
  { requester := requester, node := 5, first_register := 1, values := [1] }

/-- A scheduler whose read is in flight with the read demand of window 1 queued
behind it. -/
def demo_write_scenario : Scheduler :=
  { demo_read_done with m_standard_requests := [some 1] }

/-! ## Worker thread -/

/-- A call the worker makes on libmodbus or on the socket, with its `int` and
buffer arguments. -/
inductive LibCall
  | modbus_set_slave (slave : Int)
  | modbus_report_slave_id (max_dest : Int)
  | modbus_read_bits (addr nb : Int)
  | modbus_read_input_bits (addr nb : Int)
  | modbus_read_input_registers (addr nb : Int)
  | modbus_read_registers (addr nb : Int)
  | modbus_write_bit (coil_addr : Int) (status : Nat)
  | modbus_write_bits (addr nb : Int) (data : List Nat)
  | modbus_write_register (reg_addr : Int) (value : Nat)
  | modbus_write_registers (addr nb : Int) (data : List Nat)
  | modbus_send_raw_request (raw_req : List Nat)
  | modbus_receive_confirmation
  | recv (length : Int)
deriving DecidableEq, Repr

/-- What a library call answers: its return value, what it writes to its
destination buffer, and the value it leaves in `errno` when it fails. -/
structure LibResponse where
  result : Int
  data : List Nat
  errno : Int
deriving DecidableEq, Repr

/-- The library and the device behind it, as far as the worker sees them: the
answer to each call, and the value of `modbus_get_header_length`. -/
structure Libmodbus where
  respond : LibCall → LibResponse
  header_length : Nat

/-- What one turn of the worker loop does to the outside, in program order: its
library calls and the two signals of `ModbusThread`; `thrown` stands at the end of
a turn that the thread leaves by an exception or by undefined behaviour, without
a signal. -/
inductive WorkerEffect
  | call (c : LibCall)
  | modbus_error (error_code : Int)
  | complete
  | thrown (fault : Fault)
deriving DecidableEq, Repr

/-- State of the worker between two turns of the loop of `ModbusThread::run`: the
mailbox, `m_quit`, the local vector `bits` and `errno`. -/
structure Worker where
  thread : ModbusThread
  m_quit : Bool
  bits : List Nat
  errno : Int
deriving DecidableEq, Repr

/-- Locals of one turn of the worker loop once the request has been carried
out; `fault` is set when the request was left by an exception or by undefined
behaviour. -/
structure Turn where
  worker : Worker
  result : Int
  bit_process : Bool
  effects : List WorkerEffect
  fault : Option Fault := none
deriving DecidableEq, Repr

/-- The function `std::vector::resize` on a vector of numbers: cut, or filled up
with zeros. -/
def resize (v : List Nat) (n : Nat) : List Nat :=
  v.take n ++ List.replicate (n - v.length) 0

/-- A library call writing `data` from the start of the buffer `dest`. -/
def store (dest data : List Nat) : List Nat :=
  data.take dest.length ++ dest.drop data.length

/-- Constant `MODBUS_ENOBASE` of libmodbus. -/
def MODBUS_ENOBASE : Int := 112345678

/-- Constant `MODBUS_MAX_ADU_LENGTH` of libmodbus. -/
def MODBUS_MAX_ADU_LENGTH : Nat := 260

/-- A library call that fills no buffer of the worker: it leaves its return value
in `result` and, when it fails, its error in `errno`. -/
def Turn.call_plain (lib : Libmodbus) (w : Worker) (c : LibCall) : Turn :=
  let r := lib.respond c
  { worker := { w with errno := if r.result < 0 then r.errno else w.errno },
    result := r.result, bit_process := false, effects := [WorkerEffect.call c] }

/-- A library read into the vector `bits`, which is first resized to `m_count`. -/
def Turn.call_bits (lib : Libmodbus) (w : Worker) (c : LibCall) : Turn :=
  let r := lib.respond c
  { worker := { w with bits := store (resize w.bits w.thread.m_count) r.data,
                       errno := if r.result < 0 then r.errno else w.errno },
    result := r.result, bit_process := true, effects := [WorkerEffect.call c] }

/-- A library read into `m_regs`. -/
def Turn.call_regs (lib : Libmodbus) (w : Worker) (c : LibCall) : Turn :=
  let r := lib.respond c
  { worker := { w with thread := { w.thread with m_regs := store w.thread.m_regs r.data },
                       errno := if r.result < 0 then r.errno else w.errno },
    result := r.result, bit_process := false, effects := [WorkerEffect.call c] }

/-- The function `ModbusThread::do_write_request`. -/
def do_write_request (lib : Libmodbus) (w : Worker) : Turn :=
  let t := w.thread
  let write_count := t.m_regs.length
  if write_count = 1 ∧ t.m_reg_number ≤ 19999 then
    Turn.call_plain lib w (LibCall.modbus_write_bit ((t.m_reg_number : Int) - 1)
      (if t.m_regs.headD 0 > 0 then 1 else 0))
  else if t.m_reg_number ≤ 19999 then
    Turn.call_plain lib w (LibCall.modbus_write_bits ((t.m_reg_number : Int) - 1) write_count
      (t.m_regs.map (fun v => if v > 0 then 1 else 0)))
  else if write_count = 1 then
    Turn.call_plain lib w (LibCall.modbus_write_register ((t.m_reg_number : Int) - 40001)
      (t.m_regs.headD 0))
  else
    Turn.call_plain lib w (LibCall.modbus_write_registers ((t.m_reg_number : Int) - 40001)
      write_count t.m_regs)

/-- The stack array `rsp_data` before anything is written to it: a cell is `none`
while its value is indeterminate. -/
def rsp_data_init : List (Option Nat) := List.replicate MODBUS_MAX_ADU_LENGTH none

/-- The bytes `data` written to a byte buffer from `offset` on; `none` when the
write runs past the end of the buffer. -/
def write_cells (buf : List (Option Nat)) (offset : Nat) (data : List Nat) :
    Option (List (Option Nat)) :=
  if offset + data.length ≤ buf.length then
    some (buf.take offset ++ data.map (fun b => some (b % 256)) ++
      buf.drop (offset + data.length))
  else none

/-- The byte read at index `i` of a buffer; `none` when the index is outside the
buffer or nothing was written to the cell. -/
def read_cell (buf : List (Option Nat)) (i : Nat) : Option Nat :=
  buf.getD i none

/-- The end of `ModbusThread::do_custom_request_tcp`, from `index++` on: the resize of
`m_regs` to `length - index`, which throws `std::length_error` when that is negative,
and the copy of the bytes `index .. length - 1` of `rsp_data`. -/
def copy_response (w1 : Worker) (effects : List WorkerEffect) (rsp_data : List (Option Nat))
    (index : Nat) (length : Int) : Turn :=
  if length < ((index + 1 : Nat) : Int) then
    { worker := w1, result := 0, bit_process := false, effects := effects,
      fault := some Fault.length_error }
  else
    let cells := (List.range (length.toNat - (index + 1))).map
      (fun i => read_cell rsp_data (index + 1 + i))
    if cells.all Option.isSome = true then
      let regs := cells.map (fun c => c.getD 0)
      { worker := { w1 with thread :=
          { w1.thread with m_regs := regs, m_count := regs.length % 65536 } },
        result := ((regs.length % 65536 : Nat) : Int), bit_process := false,
        effects := effects }
    else
      { worker := w1, result := 0, bit_process := false, effects := effects,
        fault := some Fault.undefined_behaviour }

/-- The function `ModbusThread::do_custom_request_tcp`. The request is read from the
`m_count` bytes at `m_raw_request`; the library writes what it received, at most
`MODBUS_MAX_ADU_LENGTH` bytes, to the start of `rsp_data`, and `recv` writes what
arrived, at most the size it was given, from `rsp_data[result]` on. Reading a byte
past the end of a buffer or a byte of `rsp_data` that was never written, and
writing past the end of `rsp_data`, are undefined behaviour. -/
def do_custom_request_tcp (lib : Libmodbus) (w : Worker) : Turn :=
  let t := w.thread
  let fc := t.m_reg_number % 256
  let raw := t.m_raw_request.getD []
  let w1 := { w with thread := { t with m_reg_number := 65535 } }
  if raw.length < t.m_count then
    { worker := w1, result := 0, bit_process := false, effects := [],
      fault := some Fault.undefined_behaviour }
  else
    let req := [t.m_node % 256, fc] ++ (raw.take t.m_count).map (fun b => b % 256)
    let send := lib.respond (LibCall.modbus_send_raw_request req)
    let eff1 := [WorkerEffect.call (LibCall.modbus_send_raw_request req)]
    if send.result < 0 then
      { worker := { w1 with errno := send.errno }, result := send.result,
        bit_process := false, effects := eff1 }
    else
      let conf := lib.respond LibCall.modbus_receive_confirmation
      let eff2 := eff1 ++ [WorkerEffect.call LibCall.modbus_receive_confirmation]
      let rsp_data := (write_cells rsp_data_init 0
        (conf.data.take MODBUS_MAX_ADU_LENGTH)).getD rsp_data_init
      if conf.result < 0 then
        { worker := { w1 with errno := conf.errno }, result := conf.result,
          bit_process := false, effects := eff2 }
      else
        let index := lib.header_length
        match read_cell rsp_data index with
        | none =>
          { worker := w1, result := 0, bit_process := false, effects := eff2,
            fault := some Fault.undefined_behaviour }
        | some fcode =>
          if fcode ≠ fc then
            match read_cell rsp_data (index + 1) with
            | none =>
              { worker := w1, result := 0, bit_process := false, effects := eff2,
                fault := some Fault.undefined_behaviour }
            | some code =>
              { worker := { w1 with errno := (code : Int) + MODBUS_ENOBASE },
                result := -1, bit_process := false, effects := eff2 }
          else
            match read_cell rsp_data 4, read_cell rsp_data 5 with
            | some b4, some b5 =>
              let length : Int := (b4 : Int) * 256 + (b5 : Int) + 6
              if length > conf.result then
                let more := lib.respond (LibCall.recv (length - conf.result))
                let eff3 := eff2 ++ [WorkerEffect.call (LibCall.recv (length - conf.result))]
                match write_cells rsp_data conf.result.toNat
                    (more.data.take (length - conf.result).toNat) with
                | none =>
                  { worker := w1, result := 0, bit_process := false, effects := eff3,
                    fault := some Fault.undefined_behaviour }
                | some rsp_all => copy_response w1 eff3 rsp_all index length
              else copy_response w1 eff2 rsp_data index length
            | _, _ =>
              { worker := w1, result := 0, bit_process := false, effects := eff2,
                fault := some Fault.undefined_behaviour }

/-- End of one turn of the worker loop: the test of `result`, the copy of `bits` into
`m_regs` and the signal; a turn whose request was left by a fault ends there. -/
def Turn.finish (exit_signal : Bool) (x : Turn) : Worker × List WorkerEffect :=
  match x.fault with
  | some f => (x.worker, x.effects ++ [WorkerEffect.thrown f])
  | none =>
    if x.result < 0 then
      (x.worker, x.effects ++ [WorkerEffect.modbus_error x.worker.errno])
    else
      let w1 := if x.bit_process = true
        then { x.worker with thread :=
          { x.worker.thread with m_regs := resize x.worker.bits x.worker.thread.m_count } }
        else x.worker
      (w1, x.effects ++ (if exit_signal = true then [] else [WorkerEffect.complete]))

/-- One turn of the `do ... while` loop of `ModbusThread::run`, from the wake-up to the
unlock. -/
def run_iteration (lib : Libmodbus) (w : Worker) : Worker × List WorkerEffect :=
  let exit_signal := w.m_quit
  let w0 := { w with thread := { w.thread with m_regs := resize w.thread.m_regs w.thread.m_count } }
  let first : Turn :=
    if w0.thread.m_raw_request = none
    then Turn.call_plain lib w0 (LibCall.modbus_set_slave (w0.thread.m_node : Int))
    else { worker := w0, result := 0, bit_process := false, effects := [] }
  let reg := w0.thread.m_reg_number
  let count := w0.thread.m_count
  let next : Turn :=
    if exit_signal = true then { first with result := 0, effects := [] }
    else if first.result ≠ 0 then { first with effects := [] }
    else if w0.thread.m_raw_request ≠ none then do_custom_request_tcp lib first.worker
    else if count = 0 then
      let r := lib.respond (LibCall.modbus_report_slave_id 256)
      let wb := { first.worker with
        bits := store (resize first.worker.bits 256) r.data,
        errno := if r.result < 0 then r.errno else first.worker.errno }
      let wc := if r.result > 0
        then { wb with thread := { wb.thread with
          m_count := r.result.toNat % 65536,
          m_regs := resize wb.thread.m_regs (r.result.toNat % 65536) } }
        else wb
      { worker := wc, result := r.result, bit_process := true,
        effects := [WorkerEffect.call (LibCall.modbus_report_slave_id 256)] }
    else if w0.thread.m_write_request = true then do_write_request lib first.worker
    else if reg ≥ 1 ∧ reg ≤ 9999 then
      Turn.call_bits lib first.worker (LibCall.modbus_read_bits ((reg : Int) - 1) count)
    else if reg ≥ 10001 ∧ reg ≤ 19999 then
      Turn.call_bits lib first.worker
        (LibCall.modbus_read_input_bits ((reg : Int) - 10001) count)
    else if reg ≥ 30001 ∧ reg ≤ 39999 then
      Turn.call_regs lib first.worker
        (LibCall.modbus_read_input_registers ((reg : Int) - 30001) count)
    else if reg ≥ 40001 ∧ reg ≤ 49999 then
      Turn.call_regs lib first.worker
        (LibCall.modbus_read_registers ((reg : Int) - 40001) count)
    else
      { first with effects := [WorkerEffect.modbus_error 2] }
  Turn.finish exit_signal
    { next with effects := first.effects ++ next.effects }

/-- A library whose `modbus_set_slave` succeeds and whose reads return the bits
1, 0, 1 or the registers 10, 20, 30; every other call fails with `errno` 5. -/
def demo_lib : Libmodbus :=
  { respond := fun c =>
      match c with
      | LibCall.modbus_set_slave _ => { result := 0, data := [], errno := 0 }
      | LibCall.modbus_read_bits _ _ => { result := 3, data := [1, 0, 1], errno := 0 }
      | LibCall.modbus_read_input_bits _ _ => { result := 3, data := [1, 0, 1], errno := 0 }
      | LibCall.modbus_read_input_registers _ _ =>
        { result := 3, data := [10, 20, 30], errno := 0 }
      | LibCall.modbus_read_registers _ _ => { result := 3, data := [10, 20, 30], errno := 0 }
      | _ => { result := -1, data := [], errno := 5 },
    header_length := 7 }

/-- The worker woken up with the read request `modbus_request(first_reg, num_regs, uid)`
in its mailbox. -/
def worker_with_read (first_reg num_regs uid : Nat) : Worker :=
  { thread := demo_thread.modbus_request_read first_reg num_regs uid,
    m_quit := false, bits := [], errno := 0 }

/-- Whether a worker effect is a library call other than `modbus_set_slave`. -/
def is_wire_call : WorkerEffect → Bool
  | WorkerEffect.call (LibCall.modbus_set_slave _) => false
  | WorkerEffect.call _ => true
  | _ => false

/-! ## CSV import -/

/-- The three cells of a CSV row that `MainWindow::load_csv_data` reads, each after
`toInt()`: the cell at `register_index`, the one at `value_index` and the one at
`node_index` (not read when `node_index` is negative). -/
structure CsvRow where
  regnum : Int
  value : Int
  node : Int
deriving DecidableEq, Repr

/-- What `load_csv_data` does to the scheduler, in program order: the signal it
emits on its behalf and the write requests it submits. -/
inductive CsvEffect
  | new_register_data (regnumber value device_id : Nat)
  | modbus_on_write_request (request : WriteRequest)
deriving DecidableEq, Repr

/-- The value `WriteRequest{}`. -/
def WriteRequest.empty : WriteRequest :=
  { requester := none, node := 0, first_register := 0, values := [] }

/-- Conversion of an `int` to `quint16`. -/
def to_quint16 (x : Int) : Nat := (x % 65536).toNat

/-- Conversion of an `int` to `quint8`. -/
def to_quint8 (x : Int) : Nat := (x % 256).toNat

/-- Conversion of an integer to `qint16`. -/
def to_qint16 (x : Int) : Int := (x + 32768) % 65536 - 32768

/-- The function `MainWindow::append_write`: the request under construction after
the call, and the request it submitted, if any. -/
def append_write (wr : WriteRequest) (reg value node : Nat) :
    WriteRequest × List CsvEffect :=
  let flushed : WriteRequest × List CsvEffect :=
    if wr.values.length > 0 then
      let next_reg := (wr.first_register + wr.values.length) % 65536
      let max := if reg < 10000 then 2000 else 127
      if reg ≠ next_reg ∨ node ≠ wr.node ∨ wr.values.length ≥ max then
        ({ WriteRequest.empty with first_register := reg },
         [CsvEffect.modbus_on_write_request wr])
      else (wr, [])
    else ({ wr with first_register := reg }, [])
  ({ flushed.1 with values := flushed.1.values ++ [value], node := node, requester := none },
   flushed.2)

/-- The `for` loop of `MainWindow::load_csv_data` over the rows that are left. -/
def load_csv_rows (node_index fixed_node : Int) :
    WriteRequest → List CsvRow → WriteRequest × List CsvEffect
  | writes, [] => (writes, [])
  | writes, row :: rows =>
    let node := if node_index < 0 then fixed_node else row.node
    let ev := CsvEffect.new_register_data (to_quint16 row.regnum) (to_quint16 row.value)
      (to_quint8 node)
    if (row.regnum < 10000 ∧ row.regnum > 0) ∨ (row.regnum > 40000 ∧ row.regnum < 50000) then
      let a := append_write writes (to_quint16 row.regnum) (to_quint16 row.value)
        (to_quint8 node)
      let r := load_csv_rows node_index fixed_node a.1 rows
      (r.1, ev :: a.2 ++ r.2)
    else
      let r := load_csv_rows node_index fixed_node writes rows
      (r.1, ev :: r.2)

/-- The function `MainWindow::load_csv_data` on the parsed rows of the file. -/
def load_csv_data (all_data : List CsvRow) (node_index : Int) (skip_first_row : Bool) :
    List CsvEffect :=
  let fixed_node : Int := if node_index < 0 then to_qint16 (node_index * -1) - 1 else 0
  let rows := if skip_first_row = true then all_data.drop 1 else all_data
  let r := load_csv_rows node_index fixed_node WriteRequest.empty rows
  r.2 ++ (if r.1.values.length > 0 then [CsvEffect.modbus_on_write_request r.1] else [])

/-- The write requests among the effects of the import, in submission order. -/
def submitted_writes : List CsvEffect → List WriteRequest
  | [] => []
  | CsvEffect.modbus_on_write_request request :: rest => request :: submitted_writes rest
  | CsvEffect.new_register_data _ _ _ :: rest => submitted_writes rest

/-- The block-size cap the claim gives for the address family of a register. -/
def block_cap (first_register : Nat) : Nat :=
  if first_register < 10000 then 2000 else 125

/-- A CSV file of `n` rows for the consecutive holding registers from 40001 on,
each with value 7, the node being fixed to 1 by `node_index = -2`. -/
def holding_rows (n : Nat) : List CsvRow :=
  (List.range n).map (fun i => { regnum := 40001 + (i : Int), value := 7, node := 0 })

/-- The block-size cap that `append_write` enforces for the address family of a
register. -/
def code_cap (first_register : Nat) : Nat :=
  if first_register < 10000 then 2000 else 127

/-- The request under construction is empty, or starts at a writable register
and is within the cap that `append_write` enforces. -/
def within_code_cap (wr : WriteRequest) : Prop :=
  wr.values = [] ∨
  (((1 ≤ wr.first_register ∧ wr.first_register ≤ 9999) ∨
    (40001 ≤ wr.first_register ∧ wr.first_register ≤ 49999)) ∧
   wr.values.length ≤ code_cap wr.first_register)

/-- The worker woken up with the write request
`modbus_request(first_reg, regs_to_write, uid)` in its mailbox. -/
def worker_with_write (first_reg : Nat) (regs_to_write : List Nat) (uid : Nat) : Worker :=
  { thread := demo_thread.modbus_request_write first_reg regs_to_write uid,
    m_quit := false, bits := [], errno := 0 }

/-- A connected idle scheduler with no write, two metadata sequences the first
of which has its cursor past its bound, and two read demands. -/
def demo_declined : Scheduler :=
  { Scheduler.init with
    m_polling_thread := some demo_thread,
    m_meta_requests := [{ current_register := 40003, last_register := 40002, node := 3,
                          requester := some 1, request := none },
                        { current_register := 30001, last_register := 30001, node := 4,
                          requester := some 3, request := none }],
    m_standard_requests := [some 1, some 1] }

/-- Number of times the body of the loop of `Scheduler::figure_next` runs in a pass
from state `s`: none when the pass returns at its guard. -/
def figure_next_iterations (env : Env) (s : Scheduler) : Nat :=
  if s.m_active = true ∨ s.m_polling_thread = none then 0
  else (figure_next_loop env (s.m_meta_requests.length + 1)
    { s with m_active := true, m_current_request := none }
    PollAction.POLLING_READ false).iterations

/-- The three tests of `poll_meta_request` do not all pass for the sequence. -/
def declined (env : Env) (m : WindowMetadataRequest) : Prop :=
  ¬ (env.loaded = true ∧ m.current_register ≤ m.last_register ∧ m.requester ≠ none)

/-- A connected idle scheduler with three metadata sequences none of which can
be stepped, and nothing else queued. -/
def demo_all_declined : Scheduler :=
  { Scheduler.init with
    m_polling_thread := some demo_thread,
    m_current_action := PollAction.POLLING_READ,
    m_current_request := some 1,
    m_meta_requests := [{ current_register := 40003, last_register := 40002, node := 3,
                          requester := some 1, request := none },
                        { current_register := 30001, last_register := 30001, node := 4,
                          requester := none, request := none },
                        { current_register := 2, last_register := 1, node := 4,
                          requester := some 3, request := none }] }

/-- State invariant of the scheduler: an active engine is connected and its
action is Write, Metadata or Read; the action is never the device-id probe;
with the action Inactive the engine is not active and no requester is in
flight; and a scheduler that is not connected has its three queues empty. -/
def consistent (s : Scheduler) : Prop :=
  (s.m_active = true → s.m_polling_thread ≠ none ∧
    (s.m_current_action = PollAction.POLLING_WRITE ∨
     s.m_current_action = PollAction.POLLING_METADATA ∨
     s.m_current_action = PollAction.POLLING_READ)) ∧
  s.m_current_action ≠ PollAction.POLLING_DEVID ∧
  (s.m_current_action = PollAction.POLLING_INACTIVE →
    s.m_active = false ∧ s.m_current_request = none) ∧
  (s.m_polling_thread = none →
    s.m_standard_requests = [] ∧ s.m_write_requests = [] ∧ s.m_meta_requests = [])

/-- Whether an effect is the signal `polling_complete`. -/
def is_polling_complete : Effect → Bool
  | Effect.polling_complete => true
  | _ => false

/-- Number of `polling_complete` signals in a list of effects. -/
def poll_complete_count (es : List Effect) : Nat := es.countP is_polling_complete

/-- The read queue an operation works on: `enqueue_request` on a connected
scheduler appends its argument before anything else, every other operation
starts from the queue as it finds it. -/
def read_queue_entering (s : Scheduler) : Op → List (Option Nat)
  | Op.enqueue_request source =>
    if s.m_polling_thread ≠ none then s.m_standard_requests ++ [source]
    else s.m_standard_requests
  | _ => s.m_standard_requests

/-- The windows `poll_register_set` is called on, in call order. -/
def polled (es : List Effect) : List Nat :=
  es.filterMap (fun e => match e with
    | Effect.poll_register_set k => some k
    | _ => none)

/-- A transaction that is not a metadata step is in flight on a connected
scheduler, no write and no metadata sequence is queued, and the read queue holds
the windows `q`, front first. -/
def reading (q : List Nat) (s : Scheduler) : Prop :=
  s.m_active = true ∧ s.m_polling_thread ≠ none ∧ s.m_write_requests = [] ∧
  s.m_meta_requests = [] ∧ s.m_current_action ≠ PollAction.POLLING_METADATA ∧
  s.m_standard_requests = q.map some

/-- The calls `enqueue_request(r)` for the windows `r` of a list, in order. -/
def enqueue_all (rs : List Nat) : List Op :=
  rs.map (fun r => Op.enqueue_request (some r))

/-- The triples (register, value, node) a block of consecutive registers from
`reg` on stands for. -/
def expand_from (node : Nat) : Nat → List Nat → List (Nat × Nat × Nat)
  | _, [] => []
  | reg, v :: vs => (reg, v, node) :: expand_from node (reg + 1) vs

/-- The triples `(first_register + i, values[i], node)` of a write request. -/
def WriteRequest.expand (wr : WriteRequest) : List (Nat × Nat × Nat) :=
  expand_from wr.node wr.first_register wr.values

/-- The triples of a list of write requests, one request after the other. -/
def expand_all : List WriteRequest → List (Nat × Nat × Nat)
  | [] => []
  | wr :: rest => wr.expand ++ expand_all rest

/-- The test `load_csv_data` makes on the register cell of a row before it calls
`append_write`. -/
def writable (row : CsvRow) : Bool :=
  decide ((row.regnum < 10000 ∧ row.regnum > 0) ∨ (row.regnum > 40000 ∧ row.regnum < 50000))

/-- The value `load_csv_data` gives `fixed_node` before its loop. -/
def fixed_node_of (node_index : Int) : Int :=
  if node_index < 0 then to_qint16 (node_index * -1) - 1 else 0

/-- The three arguments `load_csv_data` passes to `append_write` for a row. -/
def row_triple (node_index fixed_node : Int) (row : CsvRow) : Nat × Nat × Nat :=
  (to_quint16 row.regnum, to_quint16 row.value,
   to_quint8 (if node_index < 0 then fixed_node else row.node))

/-- The rows the loop of `load_csv_data` visits: all of them, or all but the
first when `skip_first_row` is set (the iterator is then incremented once before
the loop, which is only defined on a file that has a first row). -/
def data_rows (all_data : List CsvRow) (skip_first_row : Bool) : List CsvRow :=
  if skip_first_row = true then all_data.drop 1 else all_data

/-- A CSV file with a header row and six data rows: three consecutive coils on
node 1, a read-only register, and holding registers 40001, 40002 on node 1 and
40003 on node 2. -/
def demo_csv : List CsvRow :=
  [{ regnum := 0, value := 0, node := 0 },
   { regnum := 1, value := 1, node := 1 },
   { regnum := 2, value := 0, node := 1 },
   { regnum := 3, value := 1, node := 1 },
   { regnum := 30001, value := 9, node := 1 },
   { regnum := 40001, value := 10, node := 1 },
   { regnum := 40002, value := 20, node := 1 },
   { regnum := 40003, value := 30, node := 2 }]

/-- A metadata step in flight has its sequence at the front of the metadata
queue: when the engine is active with the action Metadata, the metadata queue
is non-empty. -/
def metadata_step_queued (s : Scheduler) : Prop :=
  s.m_active = true → s.m_current_action = PollAction.POLLING_METADATA →
    s.m_meta_requests ≠ []

/-- A metadata step is dispatched on a connected scheduler, then the scheduler is
disconnected and connected again. -/
def stale_metadata_ops : List Op :=
  [Op.start_modbus demo_thread 100,
   Op.modbus_on_poll_meta { current_register := 40001, last_register := 40002, node := 3,
                            requester := some 1, request := none },
   Op.stop_modbus,
   Op.start_modbus demo_thread 100]

/-! ## Display encoding of a register -/

/-- The enumeration `RegisterEncoding`. -/
inductive RegisterEncoding
  | ENCODING_NONE
  | ENCODING_UINT16
  | ENCODINT_INT16
  | ENCODING_SIGNED_BYTES
  | ENCODING_BYTES
  | ENCODING_BITS
  | ENCODING_USER
  | ENCODING_UNKNOWN
deriving DecidableEq, Repr

/-- The functions of `QString` that the two conversions call, a `QString` being a
list of characters: `QString::number(int, base)`, `QString::toInt(&ok, base)` with
the value it returns and the value it leaves in `ok`, and `QString::split(sep)`. -/
structure QStringLib where
  number : Int → Nat → List Char
  toInt : List Char → Nat → Int × Bool
  split : List Char → Char → List (List Char)

/-- Conversion of an integer to `qint8`. -/
def to_qint8 (x : Int) : Int := (x + 128) % 256 - 128

/-- The `switch` of `HoldingRegisterDisplay::encode_register`: the values of
`raw_values` and of `ok` when it is left. -/
def encode_register_switch (qt : QStringLib) (value : List Char) :
    RegisterEncoding → List Nat × Bool
  | RegisterEncoding.ENCODING_NONE => ([to_quint16 (qt.toInt value 10).1], (qt.toInt value 10).2)
  | RegisterEncoding.ENCODING_UINT16 =>
    ([to_quint16 (qt.toInt value 10).1], (qt.toInt value 10).2)
  | RegisterEncoding.ENCODING_UNKNOWN =>
    ([to_quint16 (qt.toInt value 10).1], (qt.toInt value 10).2)
  | RegisterEncoding.ENCODING_USER => ([to_quint16 (qt.toInt value 10).1], (qt.toInt value 10).2)
  | RegisterEncoding.ENCODING_BITS =>
    ([to_quint16 (qt.toInt (value.drop 2) 16).1], (qt.toInt (value.drop 2) 16).2)
  | RegisterEncoding.ENCODING_SIGNED_BYTES =>
    let s := qt.split value ','
    let oka := false
    let okb := false
    let raw_values :=
      match s with
      | [s0, s1] =>
        let ia := to_qint8 (qt.toInt s0 10).1
        let ib := to_qint8 (qt.toInt s1 10).1
        let v16 := to_quint16 ((to_quint8 ia : Nat) * 256)
        [(v16 ||| to_quint8 ib) % 65536]
      | _ => []
    (raw_values, oka && okb)
  | RegisterEncoding.ENCODING_BYTES =>
    let s := qt.split value ','
    let oka := false
    let okb := false
    let raw_values :=
      match s with
      | [s0, s1] =>
        let ua := to_quint8 (qt.toInt s0 10).1
        let ub := to_quint8 (qt.toInt s1 10).1
        let v16 := to_quint16 ((ua : Nat) * 256)
        [(v16 ||| ub) % 65536]
      | _ => []
    (raw_values, oka && okb)
  | RegisterEncoding.ENCODINT_INT16 =>
    ([to_quint16 (to_qint16 (qt.toInt value 10).1)], (qt.toInt value 10).2)

/-- The function `HoldingRegisterDisplay::encode_register`. -/
def encode_register (qt : QStringLib) (value : List Char) (encoding : RegisterEncoding) :
    List Nat :=
  let r := encode_register_switch qt value encoding
  if r.2 = true then r.1 else []

/-- The function `RegisterDisplay::decode_register`, `value` being a `quint16`. -/
def decode_register (qt : QStringLib) (value : Nat) : RegisterEncoding → List Char
  | RegisterEncoding.ENCODING_NONE => qt.number value 10
  | RegisterEncoding.ENCODING_UINT16 => qt.number value 10
  | RegisterEncoding.ENCODING_UNKNOWN => qt.number value 10
  | RegisterEncoding.ENCODING_USER => qt.number value 10
  | RegisterEncoding.ENCODING_BITS => ['0', 'x'] ++ qt.number value 16
  | RegisterEncoding.ENCODING_SIGNED_BYTES =>
    let ia := to_qint8 (to_quint8 ((value / 256 : Nat) : Int))
    let ib := to_qint8 (to_quint8 (value : Int))
    qt.number ia 10 ++ [','] ++ qt.number ib 10
  | RegisterEncoding.ENCODING_BYTES =>
    let ua := to_quint8 ((value / 256 : Nat) : Int)
    let ub := to_quint8 (value : Int)
    qt.number ua 10 ++ [','] ++ qt.number ub 10
  | RegisterEncoding.ENCODINT_INT16 => qt.number (to_qint16 value) 10

/-- Value of a digit character in a base up to 16, lower case as
`QString::number` prints it. -/
def digit_value (c : Char) : Option Nat :=
  if 48 ≤ c.toNat ∧ c.toNat ≤ 57 then some (c.toNat - 48)
  else if 97 ≤ c.toNat ∧ c.toNat ≤ 102 then some (c.toNat - 87)
  else none

/-- The number a list of digits stands for in `base`, none when a character is
not a digit of the base. -/
def parse_digits (base : Nat) : Nat → List Char → Option Nat
  | acc, [] => some acc
  | acc, c :: rest =>
    match digit_value c with
    | some d => if d < base then parse_digits base (acc * base + d) rest else none
    | none => none

/-- A stand-in for the `QString` functions on the texts that occur here: numbers
are printed with a minus sign and lower-case digits, a text is parsed when it
is an optional minus sign and at least one digit, and a text is split at every
separator. -/
def demo_qstring : QStringLib :=
  { number := fun n base =>
      (if n < 0 then ['-'] else []) ++ Nat.toDigits base n.natAbs,
    toInt := fun s base =>
      match s with
      | [] => (0, false)
      | '-' :: rest =>
        match rest, parse_digits base 0 rest with
        | _ :: _, some n => (-(n : Int), true)
        | _, _ => (0, false)
      | _ =>
        match parse_digits base 0 s with
        | some n => ((n : Int), true)
        | none => (0, false),
    split := fun s sep => s.splitOn sep }

/-- A library over Modbus/TCP (header of 7 bytes) whose device answers every raw
request with the frame `rsp`. -/
def custom_lib (rsp : List Nat) : Libmodbus :=
  { respond := fun c =>
      match c with
      | LibCall.modbus_send_raw_request raw_req =>
        { result := (raw_req.length : Int) + 6, data := [], errno := 0 }
      | LibCall.modbus_receive_confirmation =>
        { result := (rsp.length : Int), data := rsp, errno := 0 }
      | _ => { result := -1, data := [], errno := 5 },
    header_length := 7 }

/-- The worker woken up with the raw request `modbus_request(pdu, length, fc, uid)` in
its mailbox, `length` being the size of `pdu`. -/
def worker_with_raw (pdu : List Nat) (fc : Int) (uid : Nat) : Worker :=
  { thread := demo_thread.modbus_request_raw pdu pdu.length fc uid,
    m_quit := false, bits := [], errno := 0 }

theorem select_action_priority (next_action : PollAction) (s : Scheduler) :
    select_action next_action s =
      if s.m_write_requests ≠ [] then PollAction.POLLING_WRITE
      else if s.m_meta_requests ≠ [] then PollAction.POLLING_METADATA
      else if s.m_standard_requests ≠ [] then next_action
      else PollAction.POLLING_INACTIVE := by
  unfold select_action
  cases hw : s.m_write_requests <;> cases hm : s.m_meta_requests <;>
    cases hr : s.m_standard_requests <;> simp

/-- C1. One arbitration pass on a connected scheduler with no transaction in flight
selects its action by strict priority (Write over Metadata over Read over
Inactive). With a write queued it pops the front write, submits its register,
values and node, records its requester as in flight, sets the action to Write
and leaves the metadata and read queues as they were; with no write and a front
metadata sequence that can be stepped the action is Metadata; with neither and a
polling window at the front of the read queue the action is Read; with all
three queues empty the action is Inactive and the engine is not active. -/
theorem figure_next_priority (env : Env) (s : Scheduler) (t : ModbusThread)
    (hconn : s.m_polling_thread = some t) (hidle : s.m_active = false) :
    (select_action PollAction.POLLING_READ s =
      if s.m_write_requests ≠ [] then PollAction.POLLING_WRITE
      else if s.m_meta_requests ≠ [] then PollAction.POLLING_METADATA
      else if s.m_standard_requests ≠ [] then PollAction.POLLING_READ
      else PollAction.POLLING_INACTIVE) ∧
    (∀ w rest, s.m_write_requests = w :: rest →
      figure_next env s =
        { state := { s with
            m_write_requests := rest,
            m_current_request := w.requester,
            m_polling_thread := some (t.modbus_request_write w.first_register w.values w.node),
            m_active := true,
            m_current_action := PollAction.POLLING_WRITE },
          effects := [Effect.modbus_request (Request.write w.first_register w.values w.node)],
          fault := none }) ∧
    (∀ cur rest fc, s.m_write_requests = [] → s.m_meta_requests = cur :: rest →
      env.loaded = true → cur.current_register ≤ cur.last_register → cur.requester ≠ none →
      env.create cur.current_register = some fc →
      (figure_next env s).fault = none ∧
      (figure_next env s).state.m_current_action = PollAction.POLLING_METADATA ∧
      (figure_next env s).state.m_active = true ∧
      (figure_next env s).state.m_current_request = cur.requester ∧
      (figure_next env s).effects = [Effect.modbus_request
        (Request.raw (env.encode cur.current_register)
          ((env.encode cur.current_register).length % 256)
          (Metadata.create cur.current_register fc).function_code cur.node)]) ∧
    (∀ k rest d, s.m_write_requests = [] → s.m_meta_requests = [] →
      s.m_standard_requests = some k :: rest → env.dialog k = some d →
      (figure_next env s).fault = none ∧
      (figure_next env s).state.m_current_action = PollAction.POLLING_READ ∧
      (figure_next env s).state.m_active = true ∧
      (figure_next env s).state.m_current_request = some k ∧
      (figure_next env s).state.m_standard_requests = rest ∧
      (figure_next env s).effects =
        [Effect.poll_register_set k, Effect.modbus_request
          (Request.read d.m_starting_register d.m_count (d.m_node_select % 256).toNat)] ++
        (if rest = [] then [Effect.polling_complete] else [])) ∧
    (s.m_write_requests = [] → s.m_meta_requests = [] → s.m_standard_requests = [] →
      figure_next env s =
        { state := { s with m_active := false, m_current_request := none,
                            m_current_action := PollAction.POLLING_INACTIVE },
          effects := [], fault := none }) := by
  refine ⟨select_action_priority _ s, ?_, ?_, ?_, ?_⟩
  · intro w rest hw
    simp [figure_next, figure_next_loop, select_action, poll_write_request, hconn, hidle, hw]
  · intro cur rest fc hw hm hl hle hr hc
    simp [figure_next, figure_next_loop, select_action, poll_meta_request, hconn, hidle, hw, hm,
      hl, hle, hr, hc]
  · intro k rest d hw hm hr hd
    simp [figure_next, figure_next_loop, select_action, poll_read_request, hconn, hidle, hw, hm,
      hr, hd]
  · intro hw hm hr
    simp [figure_next, figure_next_loop, select_action, hconn, hidle, hw, hm, hr]

/-! ### Single outstanding transaction -/

theorem submissions_append (a b : List Effect) :
    submissions (a ++ b) = submissions a + submissions b := by
  simp [submissions, List.countP_append]

theorem poll_write_request_active (s : Scheduler) :
    submissions (poll_write_request s).effects ≤ 1 ∧
    (poll_write_request s).state.m_active = s.m_active := by
  unfold poll_write_request
  split <;> simp [submissions, is_modbus_request]

theorem poll_meta_request_active (env : Env) (s : Scheduler) :
    submissions (poll_meta_request env s).1.effects ≤ 1 ∧
    (poll_meta_request env s).1.state.m_active = s.m_active ∧
    ((poll_meta_request env s).2 = false → (poll_meta_request env s).1.effects = []) := by
  unfold poll_meta_request
  split
  · simp [submissions]
  · split
    · split
      · simp [submissions]
      · split <;> simp [submissions, is_modbus_request]
    · simp [submissions]

theorem poll_read_request_active (env : Env) (s : Scheduler) :
    submissions (poll_read_request env s).1.effects ≤ 1 ∧
    (poll_read_request env s).1.state.m_active = s.m_active := by
  unfold poll_read_request
  split
  · simp [submissions]
  · split
    · simp [submissions]
    · dsimp only
      split <;> simp [submissions, is_modbus_request]

theorem poll_devid_request_active (s : Scheduler) :
    submissions (poll_devid_request s).effects ≤ 1 ∧
    (poll_devid_request s).state.m_active = s.m_active := by
  unfold poll_devid_request
  split <;> simp [submissions, is_modbus_request]

theorem figure_next_loop_submissions (env : Env) (fuel : Nat) :
    ∀ (s : Scheduler) (na : PollAction) (epc : Bool), s.m_active = true →
      submissions (figure_next_loop env fuel s na epc).out.effects ≤ 1 ∧
      ((figure_next_loop env fuel s na epc).out.fault = none →
        (figure_next_loop env fuel s na epc).out.state.m_active = false →
        submissions (figure_next_loop env fuel s na epc).out.effects = 0) := by
  induction fuel with
  | zero => intro s na epc _; simp [figure_next_loop, submissions]
  | succ fuel ih =>
    intro s na epc hact
    unfold figure_next_loop
    split
    · have h := poll_write_request_active s
      refine ⟨h.1, ?_⟩
      intro _ h2
      simp [h.2, hact] at h2
    · have h := poll_meta_request_active env s
      simp only []
      split
      · refine ⟨h.1, ?_⟩
        intro _ h2
        simp [h.2.1, hact] at h2
      · rename_i hno
        have hfalse : (poll_meta_request env s).2 = false := by
          simp only [not_or] at hno
          simpa using hno.2
        have he := h.2.2 hfalse
        split
        · have hr := poll_read_request_active env (poll_meta_request env s).1.state
          simp only [he, List.nil_append]
          refine ⟨hr.1, ?_⟩
          intro _ h2
          simp [hr.2, h.2.1, hact] at h2
        · have hi := ih (poll_meta_request env s).1.state PollAction.POLLING_METADATA epc
            (by rw [h.2.1]; exact hact)
          simp only [he, List.nil_append]
          exact hi
    · have hr := poll_read_request_active env s
      refine ⟨hr.1, ?_⟩
      intro _ h2
      simp [hr.2, hact] at h2
    · have h := poll_devid_request_active s
      refine ⟨h.1, ?_⟩
      intro _ h2
      simp [h.2, hact] at h2
    · simp [submissions]

theorem submissions_emit (b : Bool) :
    submissions (if b = true then [Effect.polling_complete] else []) = 0 := by
  cases b <;> simp [submissions, is_modbus_request]

theorem figure_next_submissions (env : Env) (s : Scheduler) :
    submissions (figure_next env s).effects ≤ 1 ∧
    (s.m_active = true → figure_next env s = { state := s, effects := [], fault := none }) ∧
    ((figure_next env s).fault = none → (figure_next env s).state.m_active = false →
      s.m_active = false → submissions (figure_next env s).effects = 0) := by
  unfold figure_next
  by_cases h : s.m_active = true ∨ s.m_polling_thread = none
  · simp only [h, if_true]
    exact ⟨by simp [submissions], by simp, by simp [submissions]⟩
  · simp only [h, if_false]
    simp only [not_or] at h
    have hl := figure_next_loop_submissions env (s.m_meta_requests.length + 1)
      { s with m_active := true, m_current_request := none } PollAction.POLLING_READ false rfl
    revert hl
    generalize figure_next_loop env (s.m_meta_requests.length + 1)
      { s with m_active := true, m_current_request := none } PollAction.POLLING_READ false = l
    intro hl
    refine ⟨?_, fun ha => absurd ha h.1, ?_⟩
    · cases hf : l.out.fault with
      | some f => simpa using hl.1
      | none => simpa [submissions_append, submissions_emit] using hl.1
    · cases hf : l.out.fault with
      | some f => simp
      | none =>
        intro _ h2 _
        simpa [submissions_append, submissions_emit] using hl.2 hf h2

theorem submissions_emit_register_set (node : Nat) (vs : List Nat) :
    ∀ reg, submissions (emit_register_set node reg vs) = 0 := by
  induction vs with
  | nil => intro reg; simp [emit_register_set, submissions]
  | cons v vs ih =>
    intro reg
    have h := ih ((reg + 1) % 65536)
    simp only [submissions] at h
    simp [emit_register_set, submissions, is_modbus_request, h]

theorem submissions_new_register_data (a b c : Nat) (es : List Effect) :
    submissions (Effect.new_register_data a b c :: es) = submissions es := by
  simp [submissions, is_modbus_request]

theorem outstanding_after_enqueue (n : Nat) (op : Op) (es : List Effect)
    (h : is_worker_signal op = false) : outstanding_after n op es = n + submissions es := by
  simp [outstanding_after, h]

theorem outstanding_after_signal (op : Op) (es : List Effect)
    (h : is_worker_signal op = true) : outstanding_after 1 op es = submissions es := by
  simp [outstanding_after, h]

theorem andThen_figure_next_submissions (env : Env) (o : Outcome)
    (h0 : submissions o.effects = 0) (hact : o.state.m_active = false) :
    submissions (Outcome.andThen o (figure_next env)).effects ≤ 1 ∧
    ((Outcome.andThen o (figure_next env)).fault = none →
      (Outcome.andThen o (figure_next env)).state.m_active = false →
      submissions (Outcome.andThen o (figure_next env)).effects = 0) := by
  unfold Outcome.andThen
  cases hf : o.fault with
  | some f => simp [h0]
  | none =>
    have h := figure_next_submissions env o.state
    simp only [submissions_append, h0, Nat.zero_add]
    exact ⟨h.1, fun h1 h2 => h.2.2 h1 h2 hact⟩

theorem poll_response_metadata_active (env : Env) (s : Scheduler) :
    submissions (poll_response_metadata env s).effects = 0 ∧
    (poll_response_metadata env s).state.m_active = s.m_active := by
  unfold poll_response_metadata
  split
  · dsimp only
    split
    · simp [submissions]
    · split
      · simp [submissions]
      · split <;> simp [submissions, is_modbus_request]
  · simp [submissions]

theorem modbus_on_data_submissions (env : Env) (s : Scheduler) :
    submissions (modbus_on_data env s).effects ≤ 1 ∧
    ((modbus_on_data env s).fault = none → (modbus_on_data env s).state.m_active = false →
      submissions (modbus_on_data env s).effects = 0) := by
  unfold modbus_on_data
  dsimp only
  split
  · exact andThen_figure_next_submissions env _ (by simp [submissions]) rfl
  · split
    · refine andThen_figure_next_submissions env _ ?_ ?_
      · rw [submissions_new_register_data]
        exact (poll_response_metadata_active env _).1
      · exact (poll_response_metadata_active env _).2
    · split
      · exact andThen_figure_next_submissions env _
          (submissions_emit_register_set _ _ _) rfl
      · exact andThen_figure_next_submissions env _
          (by simp [submissions, is_modbus_request]) rfl

theorem modbus_on_error_submissions (env : Env) (s : Scheduler) (error_code : Int) :
    submissions (modbus_on_error env s error_code).effects ≤ 1 ∧
    ((modbus_on_error env s error_code).fault = none →
      (modbus_on_error env s error_code).state.m_active = false →
      submissions (modbus_on_error env s error_code).effects = 0) := by
  unfold modbus_on_error
  dsimp only
  split
  · split
    · simp [submissions, is_modbus_request]
    · exact andThen_figure_next_submissions env _
        (by simp [submissions, is_modbus_request]) rfl
  · exact andThen_figure_next_submissions env _
      (by simp [submissions, is_modbus_request]) rfl

theorem enqueue_submissions (env : Env) (s s1 : Scheduler) (n : Nat)
    (hs : s1.m_active = s.m_active) (hn : n ≤ 1) (h0 : s.m_active = false → n = 0) :
    n + submissions (figure_next env s1).effects ≤ 1 ∧
    ((figure_next env s1).fault = none → (figure_next env s1).state.m_active = false →
      n + submissions (figure_next env s1).effects = 0) := by
  have h := figure_next_submissions env s1
  cases ha : s.m_active with
  | true =>
    rw [ha] at hs
    rw [h.2.1 hs]
    simp only [submissions, List.countP_nil, Nat.add_zero]
    exact ⟨hn, fun _ h2 => by rw [hs] at h2; cases h2⟩
  | false =>
    rw [ha] at hs
    rw [h0 ha, Nat.zero_add]
    exact ⟨h.1, fun h1 h2 => h.2.2 h1 h2 hs⟩

theorem step_outstanding (env : Env) (s : Scheduler) (n : Nat) (op : Op)
    (hn : n ≤ 1) (h0 : s.m_active = false → n = 0)
    (hop : is_enqueue op = true ∨ (is_worker_signal op = true ∧ n = 1)) :
    outstanding_after n op (step env s op).effects ≤ 1 ∧
    ((step env s op).fault = none → (step env s op).state.m_active = false →
      outstanding_after n op (step env s op).effects = 0) := by
  cases op with
  | start_modbus e t => simp [is_enqueue, is_worker_signal] at hop
  | stop_modbus => simp [is_enqueue, is_worker_signal] at hop
  | remove_reference r => simp [is_enqueue, is_worker_signal] at hop
  | timer_expired => simp [is_enqueue, is_worker_signal] at hop
  | enqueue_request source =>
    rw [outstanding_after_enqueue n (Op.enqueue_request source) _ rfl]
    simp only [step, enqueue_request]
    split
    · exact enqueue_submissions env s _ n rfl hn h0
    · simpa [submissions] using And.intro hn (fun h => h0 h)
  | modbus_on_write_request request =>
    rw [outstanding_after_enqueue n (Op.modbus_on_write_request request) _ rfl]
    simp only [step, modbus_on_write_request]
    split
    · exact enqueue_submissions env s _ n rfl hn h0
    · simpa [submissions] using And.intro hn (fun h => h0 h)
  | modbus_on_poll_meta request_sequence =>
    rw [outstanding_after_enqueue n (Op.modbus_on_poll_meta request_sequence) _ rfl]
    simp only [step, modbus_on_poll_meta]
    split
    · exact enqueue_submissions env s _ n rfl hn h0
    · simpa [submissions] using And.intro hn (fun h => h0 h)
  | complete regs =>
    have h1 : n = 1 := by simpa [is_enqueue, is_worker_signal] using hop
    subst h1
    rw [outstanding_after_signal (Op.complete regs) _ rfl]
    exact modbus_on_data_submissions env (worker_store s regs)
  | modbus_error error_code =>
    have h1 : n = 1 := by simpa [is_enqueue, is_worker_signal] using hop
    subst h1
    rw [outstanding_after_signal (Op.modbus_error error_code) _ rfl]
    exact modbus_on_error_submissions env s error_code

/-- C2. At most one transaction is outstanding at any time. An arbitration pass
on an engine that is already active changes nothing and submits nothing; any
pass submits at most one transaction; and along every list of submission calls
and worker signals in which each worker signal is delivered while the worker
holds exactly one transaction, started from a state whose worker holds `n ≤ 1`
transactions and none when the engine is not active, the worker never holds
more than one transaction. -/
theorem at_most_one_outstanding (env : Env) (ops : List Op) :
    ∀ (s : Scheduler) (n : Nat), n ≤ 1 → (s.m_active = false → n = 0) →
      signals_delivered_once env s n ops →
      (s.m_active = true → figure_next env s = { state := s, effects := [], fault := none }) ∧
      submissions (figure_next env s).effects ≤ 1 ∧
      ∀ k ∈ outstanding_trace env s n ops, k ≤ 1 := by
  induction ops with
  | nil =>
    intro s n _ _ _
    exact ⟨(figure_next_submissions env s).2.1, (figure_next_submissions env s).1,
      by simp [outstanding_trace]⟩
  | cons op ops ih =>
    intro s n hn h0 hd
    refine ⟨(figure_next_submissions env s).2.1, (figure_next_submissions env s).1, ?_⟩
    have hstep := step_outstanding env s n op hn h0 hd.1
    intro k hk
    simp only [outstanding_trace, List.mem_cons] at hk
    rcases hk with hk | hk
    · rw [hk]; exact hstep.1
    · by_cases hf : (step env s op).fault = none
      · rw [if_pos hf] at hk
        exact (ih (step env s op).state _ hstep.1 (hstep.2 hf) (hd.2 hf)).2.2 k hk
      · rw [if_neg hf] at hk
        cases hk

/-! ### Late signals -/

/-- C3, as the code has it. The watchdog handler ignores an expiry when the
engine is not active: state unchanged, no event. A completion signal that
arrives while the scheduler is not connected emits no event and leaves the
three queues, the error counter, the current action and the in-flight
requester unchanged; it still adds one to the success counter (modulo `2^64`),
stops the watchdog and leaves the engine not active. -/
theorem late_signal_handling (env : Env) (s : Scheduler) :
    (s.m_active = false →
      modbus_on_timer_expired env s = { state := s, effects := [], fault := none }) ∧
    (s.m_polling_thread = none →
      modbus_on_data env s =
        { state := { s with m_modbus_timer := s.m_modbus_timer.stop,
                            m_poll_count := (s.m_poll_count + 1) % 2 ^ 64,
                            m_active := false },
          effects := [], fault := none }) := by
  constructor
  · intro h
    simp [modbus_on_timer_expired, h]
  · intro h
    simp [modbus_on_data, h, Outcome.andThen, figure_next]

/-- Witness of C3 on the freshly constructed, not connected scheduler. -/
theorem late_signal_handling_witness :
    Scheduler.init.m_active = false ∧ Scheduler.init.m_polling_thread = none ∧
    modbus_on_timer_expired demo_env Scheduler.init =
      { state := Scheduler.init, effects := [], fault := none } ∧
    (modbus_on_data demo_env Scheduler.init).effects = [] ∧
    (modbus_on_data demo_env Scheduler.init).state.m_poll_count = 1 :=
  ⟨rfl, rfl, (late_signal_handling demo_env Scheduler.init).1 rfl,
    by rw [(late_signal_handling demo_env Scheduler.init).2 rfl],
    by rw [(late_signal_handling demo_env Scheduler.init).2 rfl]; rfl⟩

/-- Counterexample to C3 as stated: on a connected scheduler that is not active, a
completion signal changes the success counter and emits an event, and an
error signal changes the error counter and emits an event. -/
theorem late_signal_not_ignored :
    demo_connected.m_active = false ∧
    (modbus_on_data demo_env demo_connected).state.m_poll_count = 1 ∧
    demo_connected.m_poll_count = 0 ∧
    (modbus_on_data demo_env demo_connected).effects =
      [Effect.new_register_data 0 WRITE_REQUEST_COMPLETE 0] ∧
    (modbus_on_error demo_env demo_connected 2).state.m_error_count = 1 ∧
    demo_connected.m_error_count = 0 ∧
    (modbus_on_error demo_env demo_connected 2).effects = [Effect.poll_exception none 2] := by
  decide

/-! ### Removed references -/

theorem clean_nil (r : Nat) : clean r [] := by
  intro e he; cases he

theorem clean_append (r : Nat) (a b : List Effect) (ha : clean r a) (hb : clean r b) :
    clean r (a ++ b) := by
  intro e he
  rcases List.mem_append.mp he with h | h
  · exact ha e h
  · exact hb e h

theorem clean_cons (r : Nat) (e : Effect) (es : List Effect) (he : mentions r e = false)
    (hes : clean r es) : clean r (e :: es) := by
  intro x hx
  rcases List.mem_cons.mp hx with h | h
  · rw [h]; exact he
  · exact hes x h

theorem poll_write_request_free (r : Nat) (s : Scheduler) (h : free_of r s) :
    free_of r (poll_write_request s).state ∧ clean r (poll_write_request s).effects := by
  unfold poll_write_request
  split
  · rename_i w rest t hw ht
    obtain ⟨h1, h2, h3, h4⟩ := h
    rw [hw] at h1
    refine ⟨⟨fun x hx => h1 x (List.mem_cons_of_mem _ hx), h2, h3,
      h1 w (List.mem_cons_self _ _)⟩, ?_⟩
    exact clean_cons r _ _ rfl (clean_nil r)
  · exact ⟨h, clean_nil r⟩

theorem poll_meta_request_free (env : Env) (r : Nat) (s : Scheduler) (h : free_of r s) :
    free_of r (poll_meta_request env s).1.state ∧
    clean r (poll_meta_request env s).1.effects := by
  obtain ⟨h1, h2, h3, h4⟩ := h
  unfold poll_meta_request
  split
  · exact ⟨⟨h1, h2, h3, h4⟩, clean_nil r⟩
  · rename_i cur rest hm
    rw [hm] at h2
    have hcur := h2 cur (List.mem_cons_self _ _)
    have hrest : ∀ m ∈ rest, m.requester ≠ some r :=
      fun x hx => h2 x (List.mem_cons_of_mem _ hx)
    have hcons : ∀ (q : Option Metadata),
        ∀ m ∈ ({ cur with request := q } :: rest), m.requester ≠ some r := by
      intro q m hmem
      rcases List.mem_cons.mp hmem with hx | hx
      · rw [hx]; exact hcur
      · exact hrest m hx
    split
    · split
      · exact ⟨⟨h1, by rw [hm]; exact h2, h3, h4⟩, clean_nil r⟩
      · dsimp only
        split
        · exact ⟨⟨h1, hcons _, h3, h4⟩, clean_nil r⟩
        · exact ⟨⟨h1, hcons _, h3, hcur⟩, clean_cons r _ _ rfl (clean_nil r)⟩
    · exact ⟨⟨h1, hrest, h3, h4⟩, clean_nil r⟩

theorem poll_read_request_free (env : Env) (r : Nat) (s : Scheduler) (h : free_of r s) :
    free_of r (poll_read_request env s).1.state ∧
    clean r (poll_read_request env s).1.effects := by
  obtain ⟨h1, h2, h3, h4⟩ := h
  unfold poll_read_request
  split
  · exact ⟨⟨h1, h2, h3, h4⟩, clean_nil r⟩
  · rename_i front rest hq
    rw [hq] at h3
    have hfront := h3 front (List.mem_cons_self _ _)
    have hrest : ∀ q ∈ rest, q ≠ some r := fun x hx => h3 x (List.mem_cons_of_mem _ hx)
    dsimp only
    split
    · exact ⟨⟨h1, h2, hrest, hfront⟩, clean_nil r⟩
    · rename_i k
      have hk : mentions r (Effect.poll_register_set k) = false := by
        have : k ≠ r := fun hkr => hfront (by rw [hkr])
        simp [mentions, this]
      split
      · exact ⟨⟨h1, h2, hrest, hfront⟩, clean_cons r _ _ hk (clean_cons r _ _ rfl (clean_nil r))⟩
      · exact ⟨⟨h1, h2, hrest, hfront⟩, clean_cons r _ _ hk (clean_nil r)⟩
      · exact ⟨⟨h1, h2, hrest, hfront⟩, clean_cons r _ _ hk (clean_nil r)⟩

theorem poll_devid_request_free (r : Nat) (s : Scheduler) (h : free_of r s) :
    free_of r (poll_devid_request s).state ∧ clean r (poll_devid_request s).effects := by
  obtain ⟨h1, h2, h3, h4⟩ := h
  unfold poll_devid_request
  split
  · exact ⟨⟨h1, h2, h3, by simp⟩, clean_cons r _ _ rfl (clean_nil r)⟩
  · exact ⟨⟨h1, h2, h3, by simp⟩, clean_nil r⟩

theorem figure_next_loop_free (env : Env) (r : Nat) (fuel : Nat) :
    ∀ (s : Scheduler) (na : PollAction) (epc : Bool), free_of r s →
      free_of r (figure_next_loop env fuel s na epc).out.state ∧
      clean r (figure_next_loop env fuel s na epc).out.effects := by
  induction fuel with
  | zero => intro s na epc h; exact ⟨h, clean_nil r⟩
  | succ fuel ih =>
    intro s na epc h
    unfold figure_next_loop
    split
    · exact poll_write_request_free r s h
    · have hm := poll_meta_request_free env r s h
      dsimp only
      split
      · exact hm
      · split
        · have hr := poll_read_request_free env r _ hm.1
          exact ⟨hr.1, clean_append r _ _ hm.2 hr.2⟩
        · have hi := ih (poll_meta_request env s).1.state PollAction.POLLING_METADATA epc hm.1
          exact ⟨hi.1, clean_append r _ _ hm.2 hi.2⟩
    · exact poll_read_request_free env r s h
    · exact poll_devid_request_free r s h
    · exact ⟨h, clean_nil r⟩

theorem figure_next_free (env : Env) (r : Nat) (s : Scheduler) (h : free_of r s) :
    free_of r (figure_next env s).state ∧ clean r (figure_next env s).effects := by
  unfold figure_next
  by_cases hc : s.m_active = true ∨ s.m_polling_thread = none
  · simp only [hc, if_true]
    exact ⟨h, clean_nil r⟩
  · simp only [hc, if_false]
    have hs1 : free_of r { s with m_active := true, m_current_request := none } :=
      ⟨h.1, h.2.1, h.2.2.1, by simp⟩
    have hl := figure_next_loop_free env r (s.m_meta_requests.length + 1) _
      PollAction.POLLING_READ false hs1
    revert hl
    generalize figure_next_loop env (s.m_meta_requests.length + 1)
      { s with m_active := true, m_current_request := none } PollAction.POLLING_READ false = l
    intro hl
    cases hf : l.out.fault with
    | some f => exact hl
    | none =>
      refine ⟨hl.1, clean_append r _ _ hl.2 ?_⟩
      cases l.emit_poll_complete
      · exact clean_nil r
      · exact clean_cons r _ _ rfl (clean_nil r)

theorem andThen_free (r : Nat) (o : Outcome) (k : Scheduler → Outcome)
    (ho : free_of r o.state ∧ clean r o.effects)
    (hk : ∀ s, free_of r s → free_of r (k s).state ∧ clean r (k s).effects) :
    free_of r (Outcome.andThen o k).state ∧ clean r (Outcome.andThen o k).effects := by
  unfold Outcome.andThen
  cases hf : o.fault with
  | some f => exact ho
  | none => exact ⟨(hk _ ho.1).1, clean_append r _ _ ho.2 (hk _ ho.1).2⟩

theorem clean_emit_register_set (r node : Nat) (vs : List Nat) :
    ∀ reg, clean r (emit_register_set node reg vs) := by
  induction vs with
  | nil => intro reg; exact clean_nil r
  | cons v vs ih => intro reg; exact clean_cons r _ _ rfl (ih _)

theorem poll_response_metadata_free (env : Env) (r : Nat) (s : Scheduler) (h : free_of r s) :
    free_of r (poll_response_metadata env s).state ∧
    clean r (poll_response_metadata env s).effects := by
  obtain ⟨h1, h2, h3, h4⟩ := h
  unfold poll_response_metadata
  split
  · rename_i cur rest t hm ht
    rw [hm] at h2
    have hcur := h2 cur (List.mem_cons_self _ _)
    have hrest : ∀ m ∈ rest, m.requester ≠ some r :=
      fun x hx => h2 x (List.mem_cons_of_mem _ hx)
    have hcons : ∀ (c : Nat) (q : Option Metadata),
        ∀ m ∈ ({ cur with current_register := c, request := q } :: rest),
          m.requester ≠ some r := by
      intro c q m hmem
      rcases List.mem_cons.mp hmem with hx | hx
      · rw [hx]; exact hcur
      · exact hrest m hx
    dsimp only
    split
    · exact ⟨⟨h1, hcons _ _, h3, h4⟩, clean_nil r⟩
    · split
      · exact ⟨⟨h1, hcons _ _, h3, h4⟩, clean_nil r⟩
      · rename_i k hk
        have hkr : ∀ m n, mentions r (Effect.set_metadata k m n) = false := by
          intro m n
          have : k ≠ r := fun e => hcur (by rw [hk, e])
          simp [mentions, this]
        split
        · exact ⟨⟨h1, hcons _ _, h3, h4⟩, clean_cons r _ _ (hkr _ _) (clean_nil r)⟩
        · exact ⟨⟨h1, hcons _ _, h3, h4⟩, clean_cons r _ _ (hkr _ _) (clean_nil r)⟩
  · exact ⟨⟨h1, h2, h3, h4⟩, clean_nil r⟩

theorem modbus_on_data_free (env : Env) (r : Nat) (s : Scheduler) (h : free_of r s) :
    free_of r (modbus_on_data env s).state ∧ clean r (modbus_on_data env s).effects := by
  have hs1 : free_of r { s with m_modbus_timer := s.m_modbus_timer.stop,
                                m_poll_count := (s.m_poll_count + 1) % 2 ^ 64,
                                m_active := false } := h
  unfold modbus_on_data
  dsimp only
  split
  · exact andThen_free r _ _ ⟨hs1, clean_nil r⟩ (figure_next_free env r)
  · split
    · have hp := poll_response_metadata_free env r _ hs1
      exact andThen_free r _ _ ⟨hp.1, clean_cons r _ _ rfl hp.2⟩ (figure_next_free env r)
    · split
      · exact andThen_free r _ _ ⟨⟨h.1, h.2.1, h.2.2.1, h.2.2.2⟩,
          clean_emit_register_set r _ _ _⟩ (figure_next_free env r)
      · exact andThen_free r _ _ ⟨hs1, clean_cons r _ _ rfl (clean_nil r)⟩
          (figure_next_free env r)

theorem modbus_on_error_free (env : Env) (r : Nat) (s : Scheduler) (error_code : Int)
    (h : free_of r s) :
    free_of r (modbus_on_error env s error_code).state ∧
    clean r (modbus_on_error env s error_code).effects := by
  have hs1 : free_of r { s with m_modbus_timer := s.m_modbus_timer.stop,
                                m_error_count := (s.m_error_count + 1) % 2 ^ 64,
                                m_active := false } := h
  have hev : clean r [Effect.poll_exception s.m_current_request error_code] := by
    refine clean_cons r _ _ ?_ (clean_nil r)
    have h4 := h.2.2.2
    cases hc : s.m_current_request with
    | none => rfl
    | some k =>
      have : k ≠ r := fun e => h4 (by rw [hc, e])
      simp [mentions, this]
  unfold modbus_on_error
  dsimp only
  split
  · split
    · exact ⟨hs1, hev⟩
    · rename_i c rest hm
      refine andThen_free r _ _ ⟨⟨h.1, ?_, h.2.2.1, h.2.2.2⟩, hev⟩ (figure_next_free env r)
      intro m hmem
      have h2 := h.2.1
      rw [hm] at h2
      exact h2 m (List.mem_cons_of_mem _ hmem)
  · exact andThen_free r _ _ ⟨hs1, hev⟩ (figure_next_free env r)

theorem remove_reference_free (r : Nat) (s : Scheduler) :
    free_of r (remove_reference s (some r)).state := by
  unfold remove_reference
  refine ⟨?_, ?_, ?_, ?_⟩
  · intro w hw
    obtain ⟨x, _, hx⟩ := List.mem_map.mp hw
    by_cases hxr : some r = x.requester
    · rw [if_pos hxr] at hx
      rw [← hx]
      simp
    · rw [if_neg hxr] at hx
      rw [← hx]
      exact fun e => hxr e.symm
  · intro m hm
    obtain ⟨x, _, hx⟩ := List.mem_map.mp hm
    by_cases hxr : some r = x.requester
    · rw [if_pos hxr] at hx
      rw [← hx]
      simp
    · rw [if_neg hxr] at hx
      rw [← hx]
      exact fun e => hxr e.symm
  · intro q hq
    have := (List.mem_filter.mp hq).2
    simpa using this
  · dsimp only
    split
    · simp
    · assumption

theorem remove_reference_keeps_free (r : Nat) (s : Scheduler) (screen : Option Nat)
    (h : free_of r s) :
    free_of r (remove_reference s screen).state ∧ clean r (remove_reference s screen).effects := by
  obtain ⟨h1, h2, h3, h4⟩ := h
  unfold remove_reference
  refine ⟨⟨?_, ?_, ?_, ?_⟩, ?_⟩
  · intro w hw
    obtain ⟨x, hxm, hx⟩ := List.mem_map.mp hw
    by_cases hxr : screen = x.requester
    · rw [if_pos hxr] at hx
      rw [← hx]
      simp
    · rw [if_neg hxr] at hx
      rw [← hx]
      exact h1 x hxm
  · intro m hm
    obtain ⟨x, hxm, hx⟩ := List.mem_map.mp hm
    by_cases hxr : screen = x.requester
    · rw [if_pos hxr] at hx
      rw [← hx]
      simp
    · rw [if_neg hxr] at hx
      rw [← hx]
      exact h2 x hxm
  · intro q hq
    exact h3 q (List.mem_filter.mp hq).1
  · dsimp only
    split
    · simp
    · exact h4
  · dsimp only
    split
    · exact clean_cons r _ _ rfl (clean_nil r)
    · exact clean_nil r

theorem step_free (env : Env) (r : Nat) (s : Scheduler) (op : Op) (h : free_of r s)
    (hop : names r op = false) :
    free_of r (step env s op).state ∧ clean r (step env s op).effects := by
  obtain ⟨h1, h2, h3, h4⟩ := h
  cases op with
  | start_modbus engine timeout =>
    simp only [step, start_modbus]
    split
    · exact ⟨⟨h1, h2, h3, h4⟩, clean_nil r⟩
    · exact ⟨⟨by simp, by simp, by simp, by simp⟩, clean_cons r _ _ rfl (clean_nil r)⟩
  | stop_modbus =>
    simp only [step, stop_modbus]
    split
    · refine ⟨⟨by simp, by simp, by simp, by simp⟩, clean_append r _ _ ?_
        (clean_cons r _ _ rfl (clean_nil r))⟩
      split
      · exact clean_cons r _ _ rfl (clean_nil r)
      · exact clean_nil r
    · exact ⟨⟨h1, h2, h3, h4⟩, clean_nil r⟩
  | enqueue_request source =>
    simp only [step, enqueue_request]
    split
    · refine figure_next_free env r _ ⟨h1, h2, ?_, h4⟩
      intro q hq
      rcases List.mem_append.mp hq with hq | hq
      · exact h3 q hq
      · simp only [List.mem_singleton] at hq
        rw [hq]
        simpa [names] using hop
    · exact ⟨⟨h1, h2, h3, h4⟩, clean_nil r⟩
  | modbus_on_write_request request =>
    simp only [step, modbus_on_write_request]
    split
    · refine figure_next_free env r _ ⟨?_, h2, h3, h4⟩
      intro q hq
      rcases List.mem_append.mp hq with hq | hq
      · exact h1 q hq
      · simp only [List.mem_singleton] at hq
        rw [hq]
        simpa [names] using hop
    · exact ⟨⟨h1, h2, h3, h4⟩, clean_nil r⟩
  | modbus_on_poll_meta request_sequence =>
    simp only [step, modbus_on_poll_meta]
    split
    · refine figure_next_free env r _ ⟨h1, ?_, h3, h4⟩
      intro q hq
      rcases List.mem_append.mp hq with hq | hq
      · exact h2 q hq
      · simp only [List.mem_singleton] at hq
        rw [hq]
        simpa [names] using hop
    · exact ⟨⟨h1, h2, h3, h4⟩, clean_nil r⟩
  | remove_reference screen =>
    exact remove_reference_keeps_free r s screen ⟨h1, h2, h3, h4⟩
  | complete regs =>
    refine modbus_on_data_free env r _ ?_
    unfold worker_store
    split
    · exact ⟨h1, h2, h3, h4⟩
    · exact ⟨h1, h2, h3, h4⟩
  | modbus_error error_code =>
    exact modbus_on_error_free env r s error_code ⟨h1, h2, h3, h4⟩
  | timer_expired =>
    simp only [step, modbus_on_timer_expired]
    split
    · exact modbus_on_error_free env r s 11 ⟨h1, h2, h3, h4⟩
    · exact ⟨⟨h1, h2, h3, h4⟩, clean_nil r⟩

theorem run_free (env : Env) (r : Nat) (ops : List Op) :
    ∀ s, free_of r s → (∀ op ∈ ops, names r op = false) →
      free_of r (run env s ops).state ∧ clean r (run env s ops).effects := by
  induction ops with
  | nil => intro s h _; exact ⟨h, clean_nil r⟩
  | cons op ops ih =>
    intro s h hops
    unfold run
    exact andThen_free r _ _ (step_free env r s op h (hops op (List.mem_cons_self _ _)))
      (fun s1 h1 => ih s1 h1 (fun o ho => hops o (List.mem_cons_of_mem _ ho)))

/-- C4. After `remove_reference(r)`, along every list of operations none of which
hands the scheduler a reference to `r` (completion, error and timeout events,
enqueues for other requesters, and also connects, disconnects and removals),
run up to its end or to the first fault: no effect is a `poll_register_set` or
`set_metadata` call on `r` or a `poll_exception` event carrying `r`, `r` is not the
in-flight requester, and no queue entry refers to `r`. Every prefix of such a
list is such a list, so this holds after each operation. -/
theorem removed_reference_never_called (env : Env) (s : Scheduler) (r : Nat) (ops : List Op)
    (hops : ∀ op ∈ ops, names r op = false) :
    clean r (run env (remove_reference s (some r)).state ops).effects ∧
    (run env (remove_reference s (some r)).state ops).state.m_current_request ≠ some r ∧
    free_of r (run env (remove_reference s (some r)).state ops).state := by
  have h := run_free env r ops _ (remove_reference_free r s) hops
  exact ⟨h.2, h.1.2.2.2, h.1⟩

/-- Witness of C4: window 1 is removed while its metadata step is in flight and
its read demand is queued; the completion, a timeout and an error follow. -/
theorem removed_reference_never_called_witness :
    (∀ op ∈ [Op.complete [1, 2, 3], Op.timer_expired, Op.modbus_error 2],
      names 1 op = false) ∧
    clean 1 (run demo_env (remove_reference demo_inflight (some 1)).state
      [Op.complete [1, 2, 3], Op.timer_expired, Op.modbus_error 2]).effects ∧
    (run demo_env (remove_reference demo_inflight (some 1)).state
      [Op.complete [1, 2, 3], Op.timer_expired, Op.modbus_error 2]).state.m_current_request
        ≠ some 1 :=
  ⟨by decide,
   (removed_reference_never_called demo_env demo_inflight 1
      [Op.complete [1, 2, 3], Op.timer_expired, Op.modbus_error 2] (by decide)).1,
   (removed_reference_never_called demo_env demo_inflight 1
      [Op.complete [1, 2, 3], Op.timer_expired, Op.modbus_error 2] (by decide)).2.1⟩

/-! ### Effects of an arbitration pass -/

theorem poll_write_request_effects (s : Scheduler) :
    ∀ e ∈ (poll_write_request s).effects, is_dispatch_effect e = true := by
  unfold poll_write_request
  split <;> simp [is_dispatch_effect]

theorem poll_meta_request_effects (env : Env) (s : Scheduler) :
    ∀ e ∈ (poll_meta_request env s).1.effects, is_dispatch_effect e = true := by
  unfold poll_meta_request
  split
  · simp
  · split
    · split
      · simp
      · dsimp only
        split <;> simp [is_dispatch_effect]
    · simp

theorem poll_read_request_effects (env : Env) (s : Scheduler) :
    ∀ e ∈ (poll_read_request env s).1.effects, is_dispatch_effect e = true := by
  unfold poll_read_request
  split
  · simp
  · dsimp only
    split
    · simp
    · split <;> simp [is_dispatch_effect]

theorem poll_devid_request_effects (s : Scheduler) :
    ∀ e ∈ (poll_devid_request s).effects, is_dispatch_effect e = true := by
  unfold poll_devid_request
  split <;> simp [is_dispatch_effect]

theorem figure_next_loop_effects (env : Env) (fuel : Nat) :
    ∀ (s : Scheduler) (na : PollAction) (epc : Bool),
      ∀ e ∈ (figure_next_loop env fuel s na epc).out.effects, is_dispatch_effect e = true := by
  induction fuel with
  | zero => intro s na epc; simp [figure_next_loop]
  | succ fuel ih =>
    intro s na epc
    unfold figure_next_loop
    split
    · exact poll_write_request_effects s
    · dsimp only
      split
      · exact poll_meta_request_effects env s
      · split
        · intro e he
          rcases List.mem_append.mp he with h | h
          · exact poll_meta_request_effects env s e h
          · exact poll_read_request_effects env _ e h
        · intro e he
          rcases List.mem_append.mp he with h | h
          · exact poll_meta_request_effects env s e h
          · exact ih _ _ _ e h
    · exact poll_read_request_effects env s
    · exact poll_devid_request_effects s
    · simp

theorem figure_next_effects (env : Env) (s : Scheduler) :
    ∀ e ∈ (figure_next env s).effects, is_dispatch_effect e = true := by
  unfold figure_next
  by_cases hc : s.m_active = true ∨ s.m_polling_thread = none
  · simp only [hc, if_true]
    simp
  · simp only [hc, if_false]
    have hl := figure_next_loop_effects env (s.m_meta_requests.length + 1)
      { s with m_active := true, m_current_request := none } PollAction.POLLING_READ false
    revert hl
    generalize figure_next_loop env (s.m_meta_requests.length + 1)
      { s with m_active := true, m_current_request := none } PollAction.POLLING_READ false = l
    intro hl
    cases hf : l.out.fault with
    | some f => exact hl
    | none =>
      intro e he
      rcases List.mem_append.mp he with h | h
      · exact hl e h
      · cases hb : l.emit_poll_complete
        · rw [hb] at h; simp at h
        · rw [hb] at h
          simp only [if_true, List.mem_singleton] at h
          rw [h]; rfl

theorem figure_next_no_register_data (env : Env) (s : Scheduler) :
    (figure_next env s).effects.filter is_new_register_data = [] := by
  rw [List.filter_eq_nil_iff]
  intro e he
  have h := figure_next_effects env s e he
  cases e <;> simp [is_dispatch_effect, is_new_register_data] at h ⊢

theorem figure_next_no_poll_exception (env : Env) (s : Scheduler) :
    (figure_next env s).effects.filter is_poll_exception = [] := by
  rw [List.filter_eq_nil_iff]
  intro e he
  have h := figure_next_effects env s e he
  cases e <;> simp [is_dispatch_effect, is_poll_exception] at h ⊢

/-! ### Completion of a read -/

theorem emit_register_set_eq (node base : Nat) (vs : List Nat) :
    ∀ k, emit_register_set node ((base + k) % 65536) vs =
      (vs.enumFrom k).map
        (fun p => Effect.new_register_data ((base + p.1) % 65536) p.2 node) := by
  induction vs with
  | nil => intro k; simp [emit_register_set]
  | cons v vs ih =>
    intro k
    have hmod : ((base + k) % 65536 + 1) % 65536 = (base + (k + 1)) % 65536 := by omega
    simp only [emit_register_set, List.enumFrom_cons, List.map_cons, hmod, ih (k + 1)]

theorem filter_emit_register_set (node : Nat) (vs : List Nat) :
    ∀ reg, (emit_register_set node reg vs).filter is_new_register_data =
      emit_register_set node reg vs := by
  induction vs with
  | nil => intro reg; simp [emit_register_set]
  | cons v vs ih =>
    intro reg
    simp [emit_register_set, is_new_register_data, ih]

/-- C5. When a Read transaction completes with the mailbox holding the values
`[v0..vn-1]`, base register `R` (a `quint16`) and node `u`, the effects of
`modbus_on_data` start with the `n` events `new_register_data((R+i) mod 2^16, vi, u)`,
`i = 0..n-1` in ascending order, followed by the effects of the arbitration pass;
and these `n` events are all the `new_register_data` events it emits. -/
theorem read_completion_events (env : Env) (s : Scheduler) (t : ModbusThread)
    (hconn : s.m_polling_thread = some t)
    (hread : s.m_current_action = PollAction.POLLING_READ)
    (hR : t.m_reg_number < 65536) :
    (modbus_on_data env s).effects.filter is_new_register_data =
      t.m_regs.enum.map
        (fun p => Effect.new_register_data ((t.m_reg_number + p.1) % 65536) p.2 t.m_node) ∧
    ∃ rest, (modbus_on_data env s).effects =
      t.m_regs.enum.map
        (fun p => Effect.new_register_data ((t.m_reg_number + p.1) % 65536) p.2 t.m_node)
      ++ rest ∧ rest.filter is_new_register_data = [] := by
  have hemit : emit_register_set t.m_node t.m_reg_number t.m_regs =
      t.m_regs.enum.map
        (fun p => Effect.new_register_data ((t.m_reg_number + p.1) % 65536) p.2 t.m_node) := by
    have h := emit_register_set_eq t.m_node t.m_reg_number t.m_regs 0
    rw [Nat.add_zero, Nat.mod_eq_of_lt hR] at h
    exact h
  have heff : ∃ s1, (modbus_on_data env s).effects =
      emit_register_set t.m_node t.m_reg_number t.m_regs ++ (figure_next env s1).effects := by
    refine ⟨{ s with m_modbus_timer := s.m_modbus_timer.stop,
                     m_poll_count := (s.m_poll_count + 1) % 2 ^ 64,
                     m_active := false,
                     m_polling_thread := some t.modbus_result.2 }, ?_⟩
    simp [modbus_on_data, hconn, hread, Outcome.andThen, ModbusThread.modbus_result,
      ModbusThread.get_unit_id, ModbusThread.get_start_reg]
  obtain ⟨s1, hs1⟩ := heff
  rw [hs1, ← hemit]
  refine ⟨?_, _, rfl, figure_next_no_register_data env s1⟩
  rw [List.filter_append, figure_next_no_register_data, List.append_nil,
    filter_emit_register_set]

/-- Witness of C5: four values for base register 40001 on node 3. -/
theorem read_completion_events_witness :
    demo_read_done.m_current_action = PollAction.POLLING_READ ∧
    (modbus_on_data demo_env demo_read_done).effects.filter is_new_register_data =
      [Effect.new_register_data 40001 10 3, Effect.new_register_data 40002 20 3,
       Effect.new_register_data 40003 30 3, Effect.new_register_data 40004 40 3] :=
  ⟨rfl, (read_completion_events demo_env demo_read_done
    { m_write_request := false, m_raw_request := none, m_regs := [10, 20, 30, 40],
      m_reg_number := 40001, m_count := 4, m_node := 3 } rfl rfl (by decide)).1⟩

/-! ### The read scenario -/

/-- C6, as the code has it. From a freshly constructed scheduler: connect, then
`enqueue_request(A)` for a window `A` polling holding registers 40001..40004 on
node 3, then a completion returning `[10,20,30,40]`. The read is dispatched by the
enqueue itself, and since it empties the read queue `polling_complete` is
emitted right then, before the worker has answered; the completion then emits
the four value events and no further `polling_complete`. -/
theorem read_scenario_trace (env : Env) (engine : ModbusThread) (timeout : Int) (a : Nat)
    (hA : env.dialog a =
      some { m_starting_register := 40001, m_count := 4, m_node_select := 3 }) :
    (run env Scheduler.init (read_scenario engine timeout a)).effects =
      [Effect.new_register_data 0 SYSTEM_CONNECTED 255,
       Effect.poll_register_set a,
       Effect.modbus_request (Request.read 40001 4 3),
       Effect.polling_complete,
       Effect.new_register_data 40001 10 3,
       Effect.new_register_data 40002 20 3,
       Effect.new_register_data 40003 30 3,
       Effect.new_register_data 40004 40 3] ∧
    (run env Scheduler.init (read_scenario engine timeout a)).fault = none ∧
    (run env Scheduler.init (read_scenario engine timeout a)).state.m_active = false ∧
    (run env Scheduler.init (read_scenario engine timeout a)).state.m_current_action =
      PollAction.POLLING_INACTIVE := by
  simp [read_scenario, run, step, start_modbus, Scheduler.init, Outcome.andThen,
    enqueue_request, figure_next, figure_next_loop, select_action, poll_read_request, hA,
    worker_store, modbus_on_data, emit_register_set, ModbusThread.modbus_request_read,
    ModbusThread.modbus_result, ModbusThread.get_unit_id, ModbusThread.get_start_reg]

/-- Witness of C6 in the example environment, where window 1 is such a window. -/
theorem read_scenario_trace_witness :
    demo_env.dialog 1 =
      some { m_starting_register := 40001, m_count := 4, m_node_select := 3 } ∧
    (run demo_env Scheduler.init (read_scenario demo_thread 3000 1)).effects =
      [Effect.new_register_data 0 SYSTEM_CONNECTED 255,
       Effect.poll_register_set 1,
       Effect.modbus_request (Request.read 40001 4 3),
       Effect.polling_complete,
       Effect.new_register_data 40001 10 3,
       Effect.new_register_data 40002 20 3,
       Effect.new_register_data 40003 30 3,
       Effect.new_register_data 40004 40 3] :=
  ⟨rfl, (read_scenario_trace demo_env demo_thread 3000 1 rfl).1⟩

/-- Counterexample to C6 as stated: in the scenario the signals emitted after the
connect are `polling_complete` first and the four value events after it, not the
four value events followed by `polling_complete`. -/
theorem read_scenario_batch_complete_first :
    ((run demo_env Scheduler.init (read_scenario demo_thread 3000 1)).effects.filter
      (fun e => is_new_register_data e || decide (e = Effect.polling_complete))) =
      [Effect.new_register_data 0 SYSTEM_CONNECTED 255,
       Effect.polling_complete,
       Effect.new_register_data 40001 10 3,
       Effect.new_register_data 40002 20 3,
       Effect.new_register_data 40003 30 3,
       Effect.new_register_data 40004 40 3] ∧
    ((run demo_env Scheduler.init (read_scenario demo_thread 3000 1)).effects.filter
      (fun e => is_new_register_data e || decide (e = Effect.polling_complete))) ≠
      [Effect.new_register_data 0 SYSTEM_CONNECTED 255,
       Effect.new_register_data 40001 10 3,
       Effect.new_register_data 40002 20 3,
       Effect.new_register_data 40003 30 3,
       Effect.new_register_data 40004 40 3,
       Effect.polling_complete] := by
  decide

/-! ### Error handling -/

theorem poll_write_request_counts (s : Scheduler) :
    (poll_write_request s).state.m_poll_count = s.m_poll_count ∧
    (poll_write_request s).state.m_error_count = s.m_error_count := by
  unfold poll_write_request
  split <;> simp

theorem poll_meta_request_counts (env : Env) (s : Scheduler) :
    (poll_meta_request env s).1.state.m_poll_count = s.m_poll_count ∧
    (poll_meta_request env s).1.state.m_error_count = s.m_error_count := by
  unfold poll_meta_request
  split
  · simp
  · split
    · split
      · simp
      · dsimp only
        split <;> simp
    · simp

theorem poll_read_request_counts (env : Env) (s : Scheduler) :
    (poll_read_request env s).1.state.m_poll_count = s.m_poll_count ∧
    (poll_read_request env s).1.state.m_error_count = s.m_error_count := by
  unfold poll_read_request
  split
  · simp
  · dsimp only
    split
    · simp
    · split <;> simp

theorem poll_devid_request_counts (s : Scheduler) :
    (poll_devid_request s).state.m_poll_count = s.m_poll_count ∧
    (poll_devid_request s).state.m_error_count = s.m_error_count := by
  unfold poll_devid_request
  split <;> simp

theorem figure_next_loop_counts (env : Env) (fuel : Nat) :
    ∀ (s : Scheduler) (na : PollAction) (epc : Bool),
      (figure_next_loop env fuel s na epc).out.state.m_poll_count = s.m_poll_count ∧
      (figure_next_loop env fuel s na epc).out.state.m_error_count = s.m_error_count := by
  induction fuel with
  | zero => intro s na epc; simp [figure_next_loop]
  | succ fuel ih =>
    intro s na epc
    unfold figure_next_loop
    split
    · exact poll_write_request_counts s
    · have hm := poll_meta_request_counts env s
      dsimp only
      split
      · exact hm
      · split
        · have hr := poll_read_request_counts env (poll_meta_request env s).1.state
          exact ⟨hr.1.trans hm.1, hr.2.trans hm.2⟩
        · have hi := ih (poll_meta_request env s).1.state PollAction.POLLING_METADATA epc
          exact ⟨hi.1.trans hm.1, hi.2.trans hm.2⟩
    · exact poll_read_request_counts env s
    · exact poll_devid_request_counts s
    · simp

theorem figure_next_counts (env : Env) (s : Scheduler) :
    (figure_next env s).state.m_poll_count = s.m_poll_count ∧
    (figure_next env s).state.m_error_count = s.m_error_count := by
  unfold figure_next
  by_cases hc : s.m_active = true ∨ s.m_polling_thread = none
  · simp only [hc, if_true]
    simp
  · simp only [hc, if_false]
    have hl := figure_next_loop_counts env (s.m_meta_requests.length + 1)
      { s with m_active := true, m_current_request := none } PollAction.POLLING_READ false
    revert hl
    generalize figure_next_loop env (s.m_meta_requests.length + 1)
      { s with m_active := true, m_current_request := none } PollAction.POLLING_READ false = l
    intro hl
    cases hf : l.out.fault with
    | some f => exact hl
    | none => exact hl

/-- C7. In every state, so in every connected state with a transaction in flight,
`modbus_on_error(code)` adds one to the error count (a `quint64`, so modulo `2^64`), leaves the success
count unchanged, emits exactly one `poll_exception`, first of all its effects and
carrying the in-flight requester and the code whose text is the reason, and then
runs the arbitration pass on the state it prepared. When the in-flight action
is Metadata that state has exactly the front metadata sequence removed, the
later ones unchanged and in order, and the write and read queues unchanged;
when it is Read or Write that state has all three queues unchanged. -/
theorem modbus_on_error_in_flight (env : Env) (s : Scheduler) (error_code : Int) :
    (modbus_on_error env s error_code).state.m_error_count = (s.m_error_count + 1) % 2 ^ 64 ∧
    (s.m_error_count + 1 < 2 ^ 64 →
      (modbus_on_error env s error_code).state.m_error_count = s.m_error_count + 1) ∧
    (modbus_on_error env s error_code).state.m_poll_count = s.m_poll_count ∧
    (modbus_on_error env s error_code).effects.filter is_poll_exception =
      [Effect.poll_exception s.m_current_request error_code] ∧
    (∀ front later, s.m_current_action = PollAction.POLLING_METADATA →
      s.m_meta_requests = front :: later →
      modbus_on_error env s error_code =
        Outcome.andThen
          { state := { s with m_modbus_timer := s.m_modbus_timer.stop,
                              m_error_count := (s.m_error_count + 1) % 2 ^ 64,
                              m_active := false,
                              m_meta_requests := later },
            effects := [Effect.poll_exception s.m_current_request error_code],
            fault := none } (figure_next env)) ∧
    (s.m_current_action = PollAction.POLLING_READ ∨
      s.m_current_action = PollAction.POLLING_WRITE →
      modbus_on_error env s error_code =
        Outcome.andThen
          { state := { s with m_modbus_timer := s.m_modbus_timer.stop,
                              m_error_count := (s.m_error_count + 1) % 2 ^ 64,
                              m_active := false },
            effects := [Effect.poll_exception s.m_current_request error_code],
            fault := none } (figure_next env)) := by
  have hcount : (modbus_on_error env s error_code).state.m_error_count =
      (s.m_error_count + 1) % 2 ^ 64 ∧
      (modbus_on_error env s error_code).state.m_poll_count = s.m_poll_count ∧
      (modbus_on_error env s error_code).effects.filter is_poll_exception =
        [Effect.poll_exception s.m_current_request error_code] := by
    unfold modbus_on_error
    dsimp only
    split
    · split
      · simp [is_poll_exception]
      · unfold Outcome.andThen
        dsimp only
        refine ⟨(figure_next_counts env _).2, (figure_next_counts env _).1, ?_⟩
        rw [List.filter_append, figure_next_no_poll_exception]
        simp [is_poll_exception]
    · unfold Outcome.andThen
      dsimp only
      refine ⟨(figure_next_counts env _).2, (figure_next_counts env _).1, ?_⟩
      rw [List.filter_append, figure_next_no_poll_exception]
      simp [is_poll_exception]
  refine ⟨hcount.1, ?_, hcount.2.1, hcount.2.2, ?_, ?_⟩
  · intro hlt
    rw [hcount.1, Nat.mod_eq_of_lt hlt]
  · intro front later hm hq
    simp [modbus_on_error, hm, hq]
  · intro hrw
    rcases hrw with h | h <;> simp [modbus_on_error, h]

/-- Witness of C7: error code 2 while a metadata step of window 1 is in flight
and a sequence of window 3 is queued behind it. The front sequence is removed,
the second one is untouched and is the one the arbitration pass steps next. -/
theorem modbus_on_error_in_flight_witness :
    demo_meta_inflight.m_current_action = PollAction.POLLING_METADATA ∧
    (modbus_on_error demo_env demo_meta_inflight 2).state.m_error_count = 1 ∧
    (modbus_on_error demo_env demo_meta_inflight 2).effects.filter is_poll_exception =
      [Effect.poll_exception (some 1) 2] ∧
    (modbus_on_error demo_env demo_meta_inflight 2).state.m_meta_requests =
      [{ current_register := 30001, last_register := 30001, node := 4,
         requester := some 3, request := some (Metadata.create 30001 65) }] ∧
    (modbus_on_error demo_env demo_meta_inflight 2).state.m_current_request = some 3 :=
  ⟨rfl,
   ((modbus_on_error_in_flight demo_env demo_meta_inflight 2).2.1 (by decide)),
   (modbus_on_error_in_flight demo_env demo_meta_inflight 2).2.2.2.1,
   by decide, by decide⟩

/-! ### Watchdog -/

/-- C8. While a transaction is in flight the watchdog handler is
`modbus_on_error` with the device-timeout code 11: same resulting state, same
effects, same fault. When the engine is not active it changes nothing and
emits nothing. -/
theorem timer_expired_as_error (env : Env) (s : Scheduler) :
    (s.m_active = true → modbus_on_timer_expired env s = modbus_on_error env s 11) ∧
    (s.m_active = false →
      modbus_on_timer_expired env s = { state := s, effects := [], fault := none }) := by
  constructor
  · intro h
    simp [modbus_on_timer_expired, h]
  · intro h
    simp [modbus_on_timer_expired, h]

/-- Witness of C8: a timeout while a read is in flight, and one on an idle engine. -/
theorem timer_expired_as_error_witness :
    demo_read_done.m_active = true ∧ demo_connected.m_active = false ∧
    modbus_on_timer_expired demo_env demo_read_done =
      modbus_on_error demo_env demo_read_done 11 ∧
    (modbus_on_timer_expired demo_env demo_read_done).effects =
      [Effect.poll_exception (some 1) 11] ∧
    modbus_on_timer_expired demo_env demo_connected =
      { state := demo_connected, effects := [], fault := none } :=
  ⟨rfl, rfl, (timer_expired_as_error demo_env demo_read_done).1 rfl,
   by decide, (timer_expired_as_error demo_env demo_connected).2 rfl⟩

/-! ### Metadata sequences -/

/-- C9, as the code has it. On a connected scheduler with front sequence `cur`,
`poll_meta_request` submits a transaction exactly when the provider is loaded,
`current_register ≤ last_register`, the requester is not null and the provider
accepts the register (`create_request` yields an instance). When one of the
first three conditions fails the sequence is popped, nothing is submitted, no
event is emitted, nothing is thrown and the rest of the state, the other
queued sequences included, is unchanged. When the three hold and the provider
rejects the register, `create_request` throws: nothing is submitted and the
state is unchanged, the sequence still at the front. -/
theorem poll_meta_request_cases (env : Env) (s : Scheduler) (t : ModbusThread)
    (cur : WindowMetadataRequest) (rest : List WindowMetadataRequest)
    (hconn : s.m_polling_thread = some t) (hq : s.m_meta_requests = cur :: rest) :
    (submissions (poll_meta_request env s).1.effects = 1 ↔
      (env.loaded = true ∧ cur.current_register ≤ cur.last_register ∧ cur.requester ≠ none ∧
        env.create cur.current_register ≠ none)) ∧
    (submissions (poll_meta_request env s).1.effects ≠ 1 →
      (poll_meta_request env s).1.effects = []) ∧
    (¬ (env.loaded = true ∧ cur.current_register ≤ cur.last_register ∧
        cur.requester ≠ none) →
      poll_meta_request env s =
        ({ state := { s with m_meta_requests := rest }, effects := [], fault := none },
         false)) ∧
    (env.loaded = true ∧ cur.current_register ≤ cur.last_register ∧ cur.requester ≠ none →
      env.create cur.current_register = none →
      poll_meta_request env s =
        ({ state := s, effects := [], fault := some Fault.app_exception }, false)) ∧
    (∀ fc, env.loaded = true ∧ cur.current_register ≤ cur.last_register ∧
        cur.requester ≠ none →
      env.create cur.current_register = some fc →
      poll_meta_request env s =
        ({ state := { s with
             m_meta_requests :=
               { cur with request := some (Metadata.create cur.current_register fc) } :: rest,
             m_polling_thread := some (t.modbus_request_raw (env.encode cur.current_register)
               ((env.encode cur.current_register).length % 256)
               (Metadata.create cur.current_register fc).function_code cur.node),
             m_current_request := cur.requester },
           effects := [Effect.modbus_request
             (Request.raw (env.encode cur.current_register)
               ((env.encode cur.current_register).length % 256)
               (Metadata.create cur.current_register fc).function_code cur.node)],
           fault := none }, true)) := by
  by_cases hc : env.loaded = true ∧ cur.current_register ≤ cur.last_register ∧
      cur.requester ≠ none
  · cases hcr : env.create cur.current_register with
    | none =>
      have h : poll_meta_request env s =
          ({ state := s, effects := [], fault := some Fault.app_exception }, false) := by
        simp [poll_meta_request, hq, hc, hcr]
      rw [h]
      simp [submissions, hc]
    | some fc =>
      have h : poll_meta_request env s =
        ({ state := { s with
             m_meta_requests :=
               { cur with request := some (Metadata.create cur.current_register fc) } :: rest,
             m_polling_thread := some (t.modbus_request_raw (env.encode cur.current_register)
               ((env.encode cur.current_register).length % 256)
               (Metadata.create cur.current_register fc).function_code cur.node),
             m_current_request := cur.requester },
           effects := [Effect.modbus_request
             (Request.raw (env.encode cur.current_register)
               ((env.encode cur.current_register).length % 256)
               (Metadata.create cur.current_register fc).function_code cur.node)],
           fault := none }, true) := by
        simp [poll_meta_request, hq, hc, hcr, hconn]
      rw [h]
      refine ⟨?_, ?_, ?_, ?_, ?_⟩
      · simp [submissions, is_modbus_request, hc]
      · simp [submissions, is_modbus_request]
      · intro hn; exact absurd hc hn
      · intro _ h2; cases h2
      · intro fc2 _ h2
        cases h2
        rfl
  · have h : poll_meta_request env s =
        ({ state := { s with m_meta_requests := rest }, effects := [], fault := none },
         false) := by
      simp only [poll_meta_request, hq]
      rw [if_neg hc]
    rw [h]
    refine ⟨?_, ?_, ?_, ?_, ?_⟩
    · simp only [submissions, List.countP_nil]
      constructor
      · intro h0; cases h0
      · intro h1; exact absurd ⟨h1.1, h1.2.1, h1.2.2.1⟩ hc
    · intro _; rfl
    · intro _; rfl
    · intro h1; exact absurd h1 hc
    · intro fc h1; exact absurd h1 hc

/-- Witness of C9: the front sequence of `demo_meta_queued` is stepped in the
example environment, whose provider accepts every register. -/
theorem poll_meta_request_cases_witness :
    demo_meta_queued.m_polling_thread = some demo_thread ∧
    submissions (poll_meta_request demo_env demo_meta_queued).1.effects = 1 :=
  ⟨rfl, (poll_meta_request_cases demo_env demo_meta_queued demo_thread
    { current_register := 40001, last_register := 40002, node := 3,
      requester := some 1, request := none } [] rfl rfl).1.mpr (by decide)⟩

/-- Counterexample to C9 as stated: the provider is loaded, the cursor is within
its bound and the requester is not null, yet no transaction is submitted,
because the provider rejects the register and `create_request` throws; the
sequence is not popped either. -/
theorem poll_meta_request_provider_rejects :
    rejecting_env.loaded = true ∧
    (∀ cur ∈ demo_meta_queued.m_meta_requests,
      cur.current_register ≤ cur.last_register ∧ cur.requester ≠ none) ∧
    demo_meta_queued.m_meta_requests.length = 1 ∧
    submissions (poll_meta_request rejecting_env demo_meta_queued).1.effects = 0 ∧
    (poll_meta_request rejecting_env demo_meta_queued).1.fault = some Fault.app_exception ∧
    (poll_meta_request rejecting_env demo_meta_queued).1.state = demo_meta_queued := by
  decide

theorem complete_steps_sequence (env : Env) (k node last c : Nat) (d : RegisterDisplay)
    (fc : Nat) (regs : List Nat) (s : Scheduler)
    (hl : env.loaded = true) (hd : env.dialog k = some d)
    (hc : env.create (c + 1) = some fc)
    (hlt : c < last) (hlast : last < 65535) (h : step_in_flight k node last c s) :
    (step env s (Op.complete regs)).fault = none ∧
    step_in_flight k node last (c + 1) (step env s (Op.complete regs)).state ∧
    (step env s (Op.complete regs)).effects.filter is_modbus_request =
      [Effect.modbus_request (meta_request env node (c + 1))] := by
  obtain ⟨h1, h2, h3, h4, ⟨t, h5⟩, ⟨m, h6⟩⟩ := h
  have hmod : (c + 1) % 65536 = c + 1 := Nat.mod_eq_of_lt (by omega)
  have hle : c + 1 ≤ last := hlt
  simp [step, worker_store, modbus_on_data, poll_response_metadata, Outcome.andThen,
    figure_next, figure_next_loop, select_action, poll_meta_request, step_in_flight,
    meta_request, is_modbus_request, ModbusThread.get_unit_id, ModbusThread.modbus_result,
    h2, h3, h4, h5, h6, hl, hd, hc, hmod, hle]

theorem complete_ends_sequence (env : Env) (k node last : Nat) (d : RegisterDisplay)
    (regs : List Nat) (s : Scheduler)
    (hd : env.dialog k = some d)
    (hlast : last < 65535) (h : step_in_flight k node last last s) :
    (step env s (Op.complete regs)).fault = none ∧
    (step env s (Op.complete regs)).state.m_meta_requests = [] ∧
    (step env s (Op.complete regs)).state.m_active = false ∧
    (step env s (Op.complete regs)).state.m_current_action = PollAction.POLLING_INACTIVE ∧
    (step env s (Op.complete regs)).effects.filter is_modbus_request = [] := by
  obtain ⟨h1, h2, h3, h4, ⟨t, h5⟩, ⟨m, h6⟩⟩ := h
  have hmod : (last + 1) % 65536 = last + 1 := Nat.mod_eq_of_lt (by omega)
  simp [step, worker_store, modbus_on_data, poll_response_metadata, Outcome.andThen,
    figure_next, figure_next_loop, select_action, poll_meta_request,
    is_modbus_request, ModbusThread.get_unit_id, ModbusThread.modbus_result,
    h2, h3, h4, h5, h6, hd, hmod]

theorem run_cons_of_no_fault (env : Env) (s : Scheduler) (op : Op) (ops : List Op)
    (h : (step env s op).fault = none) :
    (run env s (op :: ops)).fault = (run env (step env s op).state ops).fault ∧
    (run env s (op :: ops)).state = (run env (step env s op).state ops).state ∧
    (run env s (op :: ops)).effects =
      (step env s op).effects ++ (run env (step env s op).state ops).effects := by
  simp [run, Outcome.andThen, h]

theorem completions_run_sequence (env : Env) (k node last : Nat) (d : RegisterDisplay)
    (hl : env.loaded = true) (hd : env.dialog k = some d)
    (hall : ∀ r, env.create r ≠ none) (hlast : last < 65535) :
    ∀ (n c : Nat) (results : List (List Nat)) (s : Scheduler),
      c + n = last → results.length = n + 1 → step_in_flight k node last c s →
      (run env s (results.map Op.complete)).fault = none ∧
      (run env s (results.map Op.complete)).state.m_meta_requests = [] ∧
      (run env s (results.map Op.complete)).state.m_active = false ∧
      (run env s (results.map Op.complete)).effects.filter is_modbus_request =
        (List.range' (c + 1) n).map
          (fun r => Effect.modbus_request (meta_request env node r)) := by
  intro n
  induction n with
  | zero =>
    intro c results s hc hlen h
    have hcl : c = last := by omega
    subst hcl
    match results, hlen with
    | [regs], _ =>
      have he := complete_ends_sequence env k node c d regs s hd hlast h
      have hr := run_cons_of_no_fault env s (Op.complete regs) [] he.1
      simp only [List.map_cons, List.map_nil]
      rw [hr.1, hr.2.1, hr.2.2]
      simp [run, he.2.1, he.2.2.1, he.2.2.2.2]
  | succ n ih =>
    intro c results s hc hlen h
    match results, hlen with
    | regs :: more, hlen =>
      have hlt : c < last := by omega
      obtain ⟨fc, hfc⟩ := Option.ne_none_iff_exists'.mp (hall (c + 1))
      have hs := complete_steps_sequence env k node last c d fc regs s hl hd hfc hlt hlast h
      have hr := run_cons_of_no_fault env s (Op.complete regs) (more.map Op.complete) hs.1
      have hi := ih (c + 1) more _ (by omega) (by simpa using hlen) hs.2.1
      simp only [List.map_cons]
      rw [hr.1, hr.2.1, hr.2.2, List.filter_append, hs.2.2, hi.2.2.2]
      exact ⟨hi.1, hi.2.1, hi.2.2.1, by simp [List.range'_succ]⟩

/-- A sequence for registers `first ≤ last` with `last < 65535`, enqueued on a
connected idle scheduler with nothing else queued, the provider loaded and
accepting every register and the requester a metadata-capable window, followed by the completion of each of its
`last - first + 1` steps. It submits exactly one transaction for each register
`first, first + 1, ..., last` in ascending order and nothing else, without a
fault, and ends discarded with the engine not active. -/
theorem metadata_sequence_below_65535 (env : Env) (s : Scheduler) (t : ModbusThread)
    (k node first last : Nat) (q : Option Metadata) (d : RegisterDisplay)
    (results : List (List Nat))
    (hl : env.loaded = true) (hd : env.dialog k = some d) (hall : ∀ r, env.create r ≠ none)
    (hconn : s.m_polling_thread = some t) (hidle : s.m_active = false)
    (hw : s.m_write_requests = []) (hm : s.m_meta_requests = [])
    (hr : s.m_standard_requests = [])
    (hfl : first ≤ last) (hlast : last < 65535)
    (hlen : results.length = last - first + 1) :
    (run env s (Op.modbus_on_poll_meta
        { current_register := first, last_register := last, node := node,
          requester := some k, request := q } :: results.map Op.complete)).fault = none ∧
    (run env s (Op.modbus_on_poll_meta
        { current_register := first, last_register := last, node := node,
          requester := some k, request := q } :: results.map Op.complete)).effects.filter
        is_modbus_request =
      (List.range' first (last - first + 1)).map
        (fun r => Effect.modbus_request (meta_request env node r)) ∧
    (run env s (Op.modbus_on_poll_meta
        { current_register := first, last_register := last, node := node,
          requester := some k, request := q } :: results.map Op.complete)).state.m_meta_requests
      = [] ∧
    (run env s (Op.modbus_on_poll_meta
        { current_register := first, last_register := last, node := node,
          requester := some k, request := q } :: results.map Op.complete)).state.m_active
      = false := by
  obtain ⟨fc, hfc⟩ := Option.ne_none_iff_exists'.mp (hall first)
  have h0 : (step env s (Op.modbus_on_poll_meta
        { current_register := first, last_register := last, node := node,
          requester := some k, request := q })).fault = none ∧
      step_in_flight k node last first (step env s (Op.modbus_on_poll_meta
        { current_register := first, last_register := last, node := node,
          requester := some k, request := q })).state ∧
      (step env s (Op.modbus_on_poll_meta
        { current_register := first, last_register := last, node := node,
          requester := some k, request := q })).effects.filter is_modbus_request =
        [Effect.modbus_request (meta_request env node first)] := by
    simp [step, modbus_on_poll_meta, figure_next, figure_next_loop, select_action,
      poll_meta_request, step_in_flight, meta_request, is_modbus_request,
      hconn, hidle, hw, hm, hr, hl, hfl, hfc]
  have hrun := run_cons_of_no_fault env s _ (results.map Op.complete) h0.1
  have hc := completions_run_sequence env k node last d hl hd hall hlast (last - first) first
    results _ (by omega) hlen h0.2.1
  rw [hrun.1, hrun.2.1, hrun.2.2, List.filter_append, h0.2.2, hc.2.2.2]
  exact ⟨hc.1, by simp [List.range'_succ], hc.2.1, hc.2.2.1⟩

/-- Outside the range of the windows (`on_refresh_clicked` gives a last register
of at most 50123): the sequence for the single register 65535
(`first = last = 65535`) is enqueued on a connected idle scheduler whose provider
accepts every register, and its step completes.
The enqueue submits the request for register 65535; the completion increments
the `quint16` cursor to 0, which is again `≤ last`, so the same pass submits a
second transaction, for register 0, and the sequence stays at the front of the
queue instead of being discarded. -/
theorem metadata_sequence_wraps_at_65535 :
    last_register_sequence.current_register ≤ last_register_sequence.last_register ∧
    (run demo_env demo_connected
      [Op.modbus_on_poll_meta last_register_sequence, Op.complete []]).fault = none ∧
    (run demo_env demo_connected
      [Op.modbus_on_poll_meta last_register_sequence, Op.complete []]).effects.filter
        is_modbus_request =
      [Effect.modbus_request (Request.raw [255, 255] 2 65 3),
       Effect.modbus_request (Request.raw [0, 0] 2 65 3)] ∧
    (run demo_env demo_connected
      [Op.modbus_on_poll_meta last_register_sequence, Op.complete []]).state.m_meta_requests =
      [{ current_register := 0, last_register := 65535, node := 3, requester := some 1,
         request := some (Metadata.create 0 65) }] ∧
    (run demo_env demo_connected
      [Op.modbus_on_poll_meta last_register_sequence, Op.complete []]).state.m_active = true := by
  decide

/-- Witness of C2: a read demand and a write are submitted back to back; the
worker holds one transaction after each of the four operations. -/
theorem at_most_one_outstanding_witness :
    (0 ≤ 1) ∧ signals_delivered_once demo_env demo_connected 0 demo_ops ∧
    outstanding_trace demo_env demo_connected 0 demo_ops = [1, 1, 1, 0] ∧
    ∀ k ∈ outstanding_trace demo_env demo_connected 0 demo_ops, k ≤ 1 :=
  have hd : signals_delivered_once demo_env demo_connected 0 demo_ops :=
    ⟨Or.inl rfl, fun _ => ⟨Or.inl rfl, fun _ => ⟨Or.inr ⟨rfl, rfl⟩, fun _ =>
      ⟨Or.inr ⟨rfl, rfl⟩, fun _ => trivial⟩⟩⟩⟩
  ⟨Nat.zero_le 1, hd, rfl,
    (at_most_one_outstanding demo_env demo_ops demo_connected 0 (Nat.zero_le 1)
      (fun _ => rfl) hd).2.2⟩

/-- Witness of C1 on a scheduler with a write, a metadata sequence and a read
queued: the write is dispatched, the two other queues are untouched. -/
theorem figure_next_priority_witness :
    demo_state.m_polling_thread = some demo_thread ∧ demo_state.m_active = false ∧
    (figure_next demo_env demo_state).state.m_current_action = PollAction.POLLING_WRITE ∧
    (figure_next demo_env demo_state).state.m_meta_requests = demo_state.m_meta_requests ∧
    (figure_next demo_env demo_state).state.m_standard_requests = [some 1] ∧
    (figure_next demo_env demo_state).effects =
      [Effect.modbus_request (Request.write 1 [1] 5)] := by
  have h := (figure_next_priority demo_env demo_state demo_thread rfl rfl).2.1
    { requester := some 2, node := 5, first_register := 1, values := [1] } [] rfl
  rw [h]
  exact ⟨rfl, rfl, rfl, rfl, rfl, rfl⟩

/-! ### Completion of a metadata step -/

theorem figure_next_no_set_metadata (env : Env) (s : Scheduler) :
    (figure_next env s).effects.filter is_set_metadata = [] := by
  rw [List.filter_eq_nil_iff]
  intro e he
  have h := figure_next_effects env s e he
  cases e <;> simp [is_dispatch_effect, is_set_metadata] at h ⊢

theorem andThen_figure_next_effects (env : Env) (o : Outcome) :
    (Outcome.andThen o (figure_next env)).effects.filter is_new_register_data =
      o.effects.filter is_new_register_data ∧
    (Outcome.andThen o (figure_next env)).effects.filter is_set_metadata =
      o.effects.filter is_set_metadata ∧
    (Outcome.andThen o (figure_next env)).effects.filter is_poll_exception =
      o.effects.filter is_poll_exception ∧
    (Outcome.andThen o (figure_next env)).state.m_poll_count = o.state.m_poll_count ∧
    (Outcome.andThen o (figure_next env)).state.m_error_count = o.state.m_error_count := by
  unfold Outcome.andThen
  cases hf : o.fault with
  | some f => simp
  | none =>
    dsimp only
    rw [List.filter_append, List.filter_append, List.filter_append,
      figure_next_no_register_data, figure_next_no_set_metadata,
      figure_next_no_poll_exception]
    simp [(figure_next_counts env o.state).1, (figure_next_counts env o.state).2]

/-- C11. When a Metadata transaction completes while connected (front sequence
`cur`, its request object `m`, mailbox `t`), `modbus_on_data` hands the arbitration
pass a state in which the front sequence has its cursor advanced by one (a
`quint16`, so modulo `2^16`) and its request object decoded, every other field of
it, the rest of the metadata queue and the two other queues being unchanged;
the success count is one higher (modulo `2^64`) and the error count unchanged;
the only `new_register_data` event of the whole handler is
`(0, POLL_METADATA_COMPLETE, node)`; and `set_metadata(decoded object, node)` is called
exactly once on the requester when it is not null and not at all when it is. -/
theorem metadata_completion (env : Env) (s : Scheduler) (t : ModbusThread)
    (cur : WindowMetadataRequest) (rest : List WindowMetadataRequest) (m : Metadata)
    (hconn : s.m_polling_thread = some t)
    (hact : s.m_current_action = PollAction.POLLING_METADATA)
    (hq : s.m_meta_requests = cur :: rest) (hreq : cur.request = some m) :
    (∃ calls fault,
      modbus_on_data env s =
        Outcome.andThen
          { state := { s with
              m_modbus_timer := s.m_modbus_timer.stop,
              m_poll_count := (s.m_poll_count + 1) % 2 ^ 64,
              m_active := false,
              m_polling_thread := some { t with m_regs := [] },
              m_meta_requests :=
                { cur with
                  current_register := (cur.current_register + 1) % 65536,
                  request := some (decode_response env m (t.m_regs.map (fun i => i % 256))) }
                :: rest },
            effects := Effect.new_register_data 0 POLL_METADATA_COMPLETE t.m_node :: calls,
            fault := fault } (figure_next env) ∧
      calls = (match cur.requester with
        | none => []
        | some k => [Effect.set_metadata k
            (decode_response env m (t.m_regs.map (fun i => i % 256))) t.m_node]) ∧
      (fault = none ↔ ∀ k, cur.requester = some k → env.dialog k ≠ none)) ∧
    (cur.current_register < 65535 →
      (cur.current_register + 1) % 65536 = cur.current_register + 1) ∧
    (modbus_on_data env s).state.m_poll_count = (s.m_poll_count + 1) % 2 ^ 64 ∧
    (s.m_poll_count + 1 < 2 ^ 64 →
      (modbus_on_data env s).state.m_poll_count = s.m_poll_count + 1) ∧
    (modbus_on_data env s).state.m_error_count = s.m_error_count ∧
    (modbus_on_data env s).effects.filter is_new_register_data =
      [Effect.new_register_data 0 POLL_METADATA_COMPLETE t.m_node] ∧
    (modbus_on_data env s).effects.filter is_set_metadata =
      (match cur.requester with
        | none => []
        | some k => [Effect.set_metadata k
            (decode_response env m (t.m_regs.map (fun i => i % 256))) t.m_node]) := by
  have hex : ∃ calls fault,
      modbus_on_data env s =
        Outcome.andThen
          { state := { s with
              m_modbus_timer := s.m_modbus_timer.stop,
              m_poll_count := (s.m_poll_count + 1) % 2 ^ 64,
              m_active := false,
              m_polling_thread := some { t with m_regs := [] },
              m_meta_requests :=
                { cur with
                  current_register := (cur.current_register + 1) % 65536,
                  request := some (decode_response env m (t.m_regs.map (fun i => i % 256))) }
                :: rest },
            effects := Effect.new_register_data 0 POLL_METADATA_COMPLETE t.m_node :: calls,
            fault := fault } (figure_next env) ∧
      calls = (match cur.requester with
        | none => []
        | some k => [Effect.set_metadata k
            (decode_response env m (t.m_regs.map (fun i => i % 256))) t.m_node]) ∧
      (fault = none ↔ ∀ k, cur.requester = some k → env.dialog k ≠ none) := by
    cases hr : cur.requester with
    | none =>
      refine ⟨[], none, ?_, rfl, by simp⟩
      simp [modbus_on_data, poll_response_metadata, hconn, hact, hq, hreq, hr,
        ModbusThread.modbus_result, ModbusThread.get_unit_id]
    | some k =>
      cases hd : env.dialog k with
      | none =>
        refine ⟨_, some Fault.app_exception, ?_, rfl, by simp [hd]⟩
        simp [modbus_on_data, poll_response_metadata, hconn, hact, hq, hreq, hr, hd,
          ModbusThread.modbus_result, ModbusThread.get_unit_id]
      | some d =>
        refine ⟨_, none, ?_, rfl, by simp [hd]⟩
        simp [modbus_on_data, poll_response_metadata, hconn, hact, hq, hreq, hr, hd,
          ModbusThread.modbus_result, ModbusThread.get_unit_id]
  obtain ⟨calls, fault, heq, hcalls, hfault⟩ := hex
  have hframe := andThen_figure_next_effects env
    { state := { s with
        m_modbus_timer := s.m_modbus_timer.stop,
        m_poll_count := (s.m_poll_count + 1) % 2 ^ 64,
        m_active := false,
        m_polling_thread := some { t with m_regs := [] },
        m_meta_requests :=
          { cur with
            current_register := (cur.current_register + 1) % 65536,
            request := some (decode_response env m (t.m_regs.map (fun i => i % 256))) }
          :: rest },
      effects := Effect.new_register_data 0 POLL_METADATA_COMPLETE t.m_node :: calls,
      fault := fault }
  rw [← heq] at hframe
  have hcalls_nrd : calls.filter is_new_register_data = [] := by
    rw [hcalls]; cases cur.requester <;> simp [is_new_register_data]
  have hcalls_sm : calls.filter is_set_metadata = calls := by
    rw [hcalls]; cases cur.requester <;> simp [is_set_metadata]
  refine ⟨⟨calls, fault, heq, hcalls, hfault⟩, ?_, hframe.2.2.2.1, ?_, hframe.2.2.2.2, ?_, ?_⟩
  · intro h; exact Nat.mod_eq_of_lt (by omega)
  · intro h; rw [hframe.2.2.2.1]; exact Nat.mod_eq_of_lt h
  · rw [hframe.1]
    simp [is_new_register_data, hcalls_nrd]
  · rw [hframe.2.1]
    simp only [List.filter_cons, is_set_metadata]
    simp only [Bool.false_eq_true, if_false, hcalls_sm]
    exact hcalls

/-- Witness of C11: the metadata step of window 1 for register 40001 completes;
the worker had stored the three bytes 1, 2, 3. -/
theorem metadata_completion_witness :
    (worker_store demo_inflight [1, 2, 3]).m_current_action = PollAction.POLLING_METADATA ∧
    (modbus_on_data demo_env (worker_store demo_inflight [1, 2, 3])).effects.filter
      is_new_register_data = [Effect.new_register_data 0 POLL_METADATA_COMPLETE 0] ∧
    (modbus_on_data demo_env (worker_store demo_inflight [1, 2, 3])).effects.filter
      is_set_metadata = [Effect.set_metadata 1 (Metadata.create 40001 65) 0] ∧
    (modbus_on_data demo_env (worker_store demo_inflight [1, 2, 3])).state.m_poll_count = 1 :=
  ⟨rfl,
   (metadata_completion demo_env (worker_store demo_inflight [1, 2, 3])
     { demo_thread with m_regs := [1, 2, 3] }
     { current_register := 40001, last_register := 40002, node := 3, requester := some 1,
       request := some (Metadata.create 40001 65) } [] (Metadata.create 40001 65)
     rfl rfl rfl rfl).2.2.2.2.2.1,
   (metadata_completion demo_env (worker_store demo_inflight [1, 2, 3])
     { demo_thread with m_regs := [1, 2, 3] }
     { current_register := 40001, last_register := 40002, node := 3, requester := some 1,
       request := some (Metadata.create 40001 65) } [] (Metadata.create 40001 65)
     rfl rfl rfl rfl).2.2.2.2.2.2,
   (metadata_completion demo_env (worker_store demo_inflight [1, 2, 3])
     { demo_thread with m_regs := [1, 2, 3] }
     { current_register := 40001, last_register := 40002, node := 3, requester := some 1,
       request := some (Metadata.create 40001 65) } [] (Metadata.create 40001 65)
     rfl rfl rfl rfl).2.2.2.1 (by decide)⟩

/-! ### Removing a reference -/

/-- C15. The call `remove_reference(r)` changes only references to `r`. The write
queue and the metadata queue keep their length and order, each entry keeping
every field except that a requester equal to `r` becomes null; the read queue
becomes the old one without the occurrences of `r`, the others in their order;
the in-flight requester becomes null if it was `r` and is otherwise unchanged;
the mailbox, the active flag, the current action, the watchdog and both
counters are unchanged; nothing is thrown; and `polling_complete`, the only
possible effect, is emitted exactly when the read queue was non-empty before
and is empty after. -/
theorem remove_reference_frame (s : Scheduler) (r : Option Nat) :
    (remove_reference s r).state.m_write_requests.length = s.m_write_requests.length ∧
    (∀ (i : Nat) (w : WriteRequest), s.m_write_requests[i]? = some w →
      (remove_reference s r).state.m_write_requests[i]? =
        some { w with requester := if w.requester = r then none else w.requester }) ∧
    (remove_reference s r).state.m_meta_requests.length = s.m_meta_requests.length ∧
    (∀ (i : Nat) (m : WindowMetadataRequest), s.m_meta_requests[i]? = some m →
      (remove_reference s r).state.m_meta_requests[i]? =
        some { m with requester := if m.requester = r then none else m.requester }) ∧
    (remove_reference s r).state.m_standard_requests =
      s.m_standard_requests.filter (fun q => decide (q ≠ r)) ∧
    (remove_reference s r).state.m_current_request =
      (if s.m_current_request = r then none else s.m_current_request) ∧
    (remove_reference s r).state.m_polling_thread = s.m_polling_thread ∧
    (remove_reference s r).state.m_active = s.m_active ∧
    (remove_reference s r).state.m_current_action = s.m_current_action ∧
    (remove_reference s r).state.m_modbus_timer = s.m_modbus_timer ∧
    (remove_reference s r).state.m_poll_count = s.m_poll_count ∧
    (remove_reference s r).state.m_error_count = s.m_error_count ∧
    (remove_reference s r).fault = none ∧
    ((remove_reference s r).effects =
      if s.m_standard_requests ≠ [] ∧ (remove_reference s r).state.m_standard_requests = []
      then [Effect.polling_complete] else []) := by
  refine ⟨by simp [remove_reference], ?_, by simp [remove_reference], ?_, rfl, rfl, rfl, rfl,
    rfl, rfl, rfl, rfl, rfl, ?_⟩
  · intro i w hw
    simp only [remove_reference, List.getElem?_map, hw, Option.map_some']
    by_cases h : w.requester = r
    · subst h
      simp
    · have h2 : ¬ r = w.requester := fun e => h e.symm
      simp [h, h2]
  · intro i m hm
    simp only [remove_reference, List.getElem?_map, hm, Option.map_some']
    by_cases h : m.requester = r
    · subst h
      simp
    · have h2 : ¬ r = m.requester := fun e => h e.symm
      simp [h, h2]
  · simp only [remove_reference]
    by_cases hA : (List.filter (fun i => decide (i ≠ r)) s.m_standard_requests).length = 0 ∧
        0 ≠ s.m_standard_requests.length
    · have hB : s.m_standard_requests ≠ [] ∧
          List.filter (fun i => decide (i ≠ r)) s.m_standard_requests = [] :=
        ⟨fun e => hA.2 (by rw [e]; rfl), List.length_eq_zero.mp hA.1⟩
      rw [if_pos hA, if_pos hB]
    · have hB : ¬ (s.m_standard_requests ≠ [] ∧
          List.filter (fun i => decide (i ≠ r)) s.m_standard_requests = []) :=
        fun hb => hA ⟨by rw [hb.2]; rfl, fun e => hb.1 (List.length_eq_zero.mp e.symm)⟩
      rw [if_neg hA, if_neg hB]

/-- Witness of C15: window 1 is removed while its metadata step is in flight and
two of the three queued read demands are its own. -/
theorem remove_reference_frame_witness :
    demo_inflight.m_meta_requests[0]? =
      some { current_register := 40001, last_register := 40002, node := 3,
             requester := some 1, request := some (Metadata.create 40001 65) } ∧
    (remove_reference demo_inflight (some 1)).state.m_meta_requests[0]? =
      some { current_register := 40001, last_register := 40002, node := 3,
             requester := none, request := some (Metadata.create 40001 65) } ∧
    (remove_reference demo_inflight (some 1)).state.m_standard_requests = [some 3] ∧
    (remove_reference demo_inflight (some 1)).effects = [] :=
  ⟨rfl,
   (remove_reference_frame demo_inflight (some 1)).2.2.2.1 0
     { current_register := 40001, last_register := 40002, node := 3,
       requester := some 1, request := some (Metadata.create 40001 65) } rfl,
   by decide, by decide⟩

/-! ### Connecting and disconnecting -/

/-- C16. On a scheduler that is not connected, `start_modbus` returns normally
with the scheduler connected to the engine, not active, the in-flight requester
null, the three queues empty and both counters zero; its only effect is the
event `new_register_data(0, SYSTEM_CONNECTED, 255)`, so no transaction is
submitted; the watchdog gets its interval and is not started. -/
theorem start_modbus_connects (s : Scheduler) (engine : ModbusThread) (timeout : Int)
    (h : s.m_polling_thread = none) :
    (start_modbus s engine timeout).fault = none ∧
    (start_modbus s engine timeout).state.m_polling_thread = some engine ∧
    (start_modbus s engine timeout).state.m_active = false ∧
    (start_modbus s engine timeout).state.m_current_request = none ∧
    (start_modbus s engine timeout).state.m_write_requests = [] ∧
    (start_modbus s engine timeout).state.m_meta_requests = [] ∧
    (start_modbus s engine timeout).state.m_standard_requests = [] ∧
    (start_modbus s engine timeout).state.m_poll_count = 0 ∧
    (start_modbus s engine timeout).state.m_error_count = 0 ∧
    (start_modbus s engine timeout).effects =
      [Effect.new_register_data 0 SYSTEM_CONNECTED 255] ∧
    submissions (start_modbus s engine timeout).effects = 0 ∧
    (start_modbus s engine timeout).state.m_modbus_timer.active = s.m_modbus_timer.active ∧
    (start_modbus s engine timeout).state.m_modbus_timer.interval = timeout := by
  simp [start_modbus, h, submissions, is_modbus_request]

/-- Witness of C16 on the freshly constructed scheduler. -/
theorem start_modbus_connects_witness :
    Scheduler.init.m_polling_thread = none ∧
    (start_modbus Scheduler.init demo_thread 3000).state.m_polling_thread = some demo_thread ∧
    (start_modbus Scheduler.init demo_thread 3000).effects =
      [Effect.new_register_data 0 4 255] ∧
    (start_modbus Scheduler.init demo_thread 3000).state.m_modbus_timer.active = false :=
  ⟨rfl, (start_modbus_connects Scheduler.init demo_thread 3000 rfl).2.1,
   (start_modbus_connects Scheduler.init demo_thread 3000 rfl).2.2.2.2.2.2.2.2.2.1,
   (start_modbus_connects Scheduler.init demo_thread 3000 rfl).2.2.2.2.2.2.2.2.2.2.2.1⟩

/-- C17. On a connected scheduler `stop_modbus` returns normally with the
scheduler not connected, not active, the in-flight requester null and the three
queues empty; both counters, the current action and the watchdog are
unchanged; it emits `polling_complete` exactly when the read queue was non-empty,
and after it exactly one `new_register_data(0, SYSTEM_DISCONNECTED, 255)`. On a
scheduler that is not connected it changes nothing and emits nothing. -/
theorem stop_modbus_disconnects (s : Scheduler) :
    (s.m_polling_thread ≠ none →
      (stop_modbus s).fault = none ∧
      (stop_modbus s).state.m_polling_thread = none ∧
      (stop_modbus s).state.m_active = false ∧
      (stop_modbus s).state.m_current_request = none ∧
      (stop_modbus s).state.m_write_requests = [] ∧
      (stop_modbus s).state.m_meta_requests = [] ∧
      (stop_modbus s).state.m_standard_requests = [] ∧
      (stop_modbus s).state.m_poll_count = s.m_poll_count ∧
      (stop_modbus s).state.m_error_count = s.m_error_count ∧
      (stop_modbus s).state.m_current_action = s.m_current_action ∧
      (stop_modbus s).state.m_modbus_timer = s.m_modbus_timer ∧
      (stop_modbus s).effects =
        (if s.m_standard_requests ≠ [] then [Effect.polling_complete] else []) ++
          [Effect.new_register_data 0 SYSTEM_DISCONNECTED 255]) ∧
    (s.m_polling_thread = none →
      stop_modbus s = { state := s, effects := [], fault := none }) := by
  constructor
  · intro h
    rw [stop_modbus, if_pos h]
    refine ⟨rfl, rfl, rfl, rfl, rfl, rfl, rfl, rfl, rfl, rfl, rfl, ?_⟩
    cases s.m_standard_requests <;> simp
  · intro h
    simp [stop_modbus, h]

/-- Witness of C17: a disconnect with three read demands queued, and one on the
scheduler that was never connected. -/
theorem stop_modbus_disconnects_witness :
    demo_inflight.m_polling_thread ≠ none ∧ Scheduler.init.m_polling_thread = none ∧
    (stop_modbus demo_inflight).effects =
      [Effect.polling_complete, Effect.new_register_data 0 5 255] ∧
    stop_modbus Scheduler.init = { state := Scheduler.init, effects := [], fault := none } :=
  ⟨by decide, rfl,
   ((stop_modbus_disconnects demo_inflight).1 (by decide)).2.2.2.2.2.2.2.2.2.2.2,
   (stop_modbus_disconnects Scheduler.init).2 rfl⟩

/-- C18. While the scheduler is not connected each of the three submission
calls returns the state it was given, with no effect (so nothing is submitted
to the transport and no event is emitted) and no fault. -/
theorem submissions_ignored_when_disconnected (env : Env) (s : Scheduler)
    (h : s.m_polling_thread = none) :
    (∀ request, modbus_on_write_request env s request =
      { state := s, effects := [], fault := none }) ∧
    (∀ request_sequence, modbus_on_poll_meta env s request_sequence =
      { state := s, effects := [], fault := none }) ∧
    (∀ source, enqueue_request env s source =
      { state := s, effects := [], fault := none }) := by
  refine ⟨?_, ?_, ?_⟩
  · intro request
    simp [modbus_on_write_request, h]
  · intro request_sequence
    simp [modbus_on_poll_meta, h]
  · intro source
    simp [enqueue_request, h]

/-- Witness of C18 on the scheduler that was never connected. -/
theorem submissions_ignored_when_disconnected_witness :
    Scheduler.init.m_polling_thread = none ∧
    enqueue_request demo_env Scheduler.init (some 1) =
      { state := Scheduler.init, effects := [], fault := none } ∧
    modbus_on_write_request demo_env Scheduler.init
        { requester := none, node := 5, first_register := 1, values := [1] } =
      { state := Scheduler.init, effects := [], fault := none } :=
  ⟨rfl, (submissions_ignored_when_disconnected demo_env Scheduler.init rfl).2.2 (some 1),
   (submissions_ignored_when_disconnected demo_env Scheduler.init rfl).1 _⟩

/-! ### Counters -/

theorem poll_response_metadata_counts (env : Env) (s : Scheduler) :
    (poll_response_metadata env s).state.m_poll_count = s.m_poll_count ∧
    (poll_response_metadata env s).state.m_error_count = s.m_error_count := by
  unfold poll_response_metadata
  split
  · dsimp only
    split
    · simp
    · split
      · simp
      · split <;> simp
  · simp

theorem modbus_on_data_counts (env : Env) (s : Scheduler) :
    (modbus_on_data env s).state.m_poll_count = (s.m_poll_count + 1) % 2 ^ 64 ∧
    (modbus_on_data env s).state.m_error_count = s.m_error_count := by
  unfold modbus_on_data
  dsimp only
  split
  · exact ⟨(andThen_figure_next_effects env _).2.2.2.1, (andThen_figure_next_effects env _).2.2.2.2⟩
  · split
    · refine ⟨(andThen_figure_next_effects env _).2.2.2.1.trans ?_,
        (andThen_figure_next_effects env _).2.2.2.2.trans ?_⟩
      · exact (poll_response_metadata_counts env _).1
      · exact (poll_response_metadata_counts env _).2
    · split
      · exact ⟨(andThen_figure_next_effects env _).2.2.2.1,
          (andThen_figure_next_effects env _).2.2.2.2⟩
      · exact ⟨(andThen_figure_next_effects env _).2.2.2.1,
          (andThen_figure_next_effects env _).2.2.2.2⟩

theorem modbus_on_error_counts (env : Env) (s : Scheduler) (error_code : Int) :
    (modbus_on_error env s error_code).state.m_poll_count = s.m_poll_count ∧
    (modbus_on_error env s error_code).state.m_error_count =
      (s.m_error_count + 1) % 2 ^ 64 := by
  unfold modbus_on_error
  dsimp only
  split
  · split
    · simp
    · exact ⟨(andThen_figure_next_effects env _).2.2.2.1,
        (andThen_figure_next_effects env _).2.2.2.2⟩
  · exact ⟨(andThen_figure_next_effects env _).2.2.2.1,
      (andThen_figure_next_effects env _).2.2.2.2⟩

theorem enqueue_counts (env : Env) (s : Scheduler) :
    (∀ source, (enqueue_request env s source).state.m_poll_count = s.m_poll_count ∧
      (enqueue_request env s source).state.m_error_count = s.m_error_count) ∧
    (∀ request, (modbus_on_write_request env s request).state.m_poll_count = s.m_poll_count ∧
      (modbus_on_write_request env s request).state.m_error_count = s.m_error_count) ∧
    (∀ request_sequence,
      (modbus_on_poll_meta env s request_sequence).state.m_poll_count = s.m_poll_count ∧
      (modbus_on_poll_meta env s request_sequence).state.m_error_count = s.m_error_count) := by
  refine ⟨?_, ?_, ?_⟩
  · intro source
    unfold enqueue_request
    split
    · exact figure_next_counts env _
    · exact ⟨rfl, rfl⟩
  · intro request
    unfold modbus_on_write_request
    split
    · exact figure_next_counts env _
    · exact ⟨rfl, rfl⟩
  · intro request_sequence
    unfold modbus_on_poll_meta
    split
    · exact figure_next_counts env _
    · exact ⟨rfl, rfl⟩

/-- C20. How the two counters change. A completion adds one to the success count
(a `quint64`, so modulo `2^64`) and leaves the error count; an error signal adds
one to the error count and leaves the success count, and so does a watchdog
expiry on an active engine, an expiry on an idle engine changing neither;
`start_modbus` on a scheduler that is not connected sets both to zero; the three
enqueues, `remove_reference` and `stop_modbus` leave both unchanged, and `get_counts`
and `get_active` only read the state. Hence, short of the `quint64` maximum, no
operation other than `start_modbus` decreases a counter, and `get_counts` returns
the same pair before and after any operation that is not a transaction end or
a connect. -/
theorem counters_change (env : Env) (s : Scheduler) :
    (∀ regs, (step env s (Op.complete regs)).state.m_poll_count =
        (s.m_poll_count + 1) % 2 ^ 64 ∧
      (step env s (Op.complete regs)).state.m_error_count = s.m_error_count) ∧
    ((modbus_on_data env s).state.m_poll_count = (s.m_poll_count + 1) % 2 ^ 64 ∧
      (modbus_on_data env s).state.m_error_count = s.m_error_count) ∧
    (∀ code, (modbus_on_error env s code).state.m_error_count =
        (s.m_error_count + 1) % 2 ^ 64 ∧
      (modbus_on_error env s code).state.m_poll_count = s.m_poll_count) ∧
    ((modbus_on_timer_expired env s).state.m_poll_count = s.m_poll_count ∧
      (modbus_on_timer_expired env s).state.m_error_count =
        if s.m_active = true then (s.m_error_count + 1) % 2 ^ 64 else s.m_error_count) ∧
    (∀ engine timeout, s.m_polling_thread = none →
      get_counts (start_modbus s engine timeout).state = (0, 0)) ∧
    (∀ op, is_enqueue op = true ∨ op = Op.stop_modbus ∨ (∃ r, op = Op.remove_reference r) →
      get_counts (step env s op).state = get_counts s) ∧
    get_counts s = (s.m_poll_count, s.m_error_count) ∧
    get_active s = (s.m_active, s.m_current_request) ∧
    (∀ op, (∀ engine timeout, op ≠ Op.start_modbus engine timeout) →
      s.m_poll_count + 1 < 2 ^ 64 → s.m_error_count + 1 < 2 ^ 64 →
      s.m_poll_count ≤ (step env s op).state.m_poll_count ∧
      s.m_error_count ≤ (step env s op).state.m_error_count) := by
  have htimer : (modbus_on_timer_expired env s).state.m_poll_count = s.m_poll_count ∧
      (modbus_on_timer_expired env s).state.m_error_count =
        if s.m_active = true then (s.m_error_count + 1) % 2 ^ 64 else s.m_error_count := by
    unfold modbus_on_timer_expired
    by_cases ha : s.m_active = true
    · rw [if_pos ha, if_pos ha]
      exact modbus_on_error_counts env s 11
    · rw [if_neg ha, if_neg ha]
      exact ⟨rfl, rfl⟩
  have hdata : ∀ regs, (step env s (Op.complete regs)).state.m_poll_count =
        (s.m_poll_count + 1) % 2 ^ 64 ∧
      (step env s (Op.complete regs)).state.m_error_count = s.m_error_count := by
    intro regs
    have h := modbus_on_data_counts env (worker_store s regs)
    have hw : (worker_store s regs).m_poll_count = s.m_poll_count ∧
        (worker_store s regs).m_error_count = s.m_error_count := by
      unfold worker_store
      split <;> exact ⟨rfl, rfl⟩
    rw [hw.1, hw.2] at h
    exact h
  have hquiet : ∀ op,
      is_enqueue op = true ∨ op = Op.stop_modbus ∨ (∃ r, op = Op.remove_reference r) →
      (step env s op).state.m_poll_count = s.m_poll_count ∧
      (step env s op).state.m_error_count = s.m_error_count := by
    intro op hop
    cases op with
    | enqueue_request source => exact (enqueue_counts env s).1 source
    | modbus_on_write_request request => exact (enqueue_counts env s).2.1 request
    | modbus_on_poll_meta request_sequence => exact (enqueue_counts env s).2.2 request_sequence
    | stop_modbus =>
      simp only [step, stop_modbus]
      split <;> exact ⟨rfl, rfl⟩
    | remove_reference r => exact ⟨rfl, rfl⟩
    | start_modbus e t => simp [is_enqueue] at hop
    | complete regs => simp [is_enqueue] at hop
    | modbus_error code => simp [is_enqueue] at hop
    | timer_expired => simp [is_enqueue] at hop
  refine ⟨hdata, modbus_on_data_counts env s, ?_, htimer, ?_, ?_, rfl, rfl, ?_⟩
  · intro code
    exact ⟨(modbus_on_error_counts env s code).2, (modbus_on_error_counts env s code).1⟩
  · intro engine timeout h
    simp [get_counts, start_modbus, h]
  · intro op hop
    simp only [get_counts, (hquiet op hop).1, (hquiet op hop).2]
  · intro op hns hp he
    cases op with
    | start_modbus e t => exact absurd rfl (hns e t)
    | enqueue_request source =>
      have h := hquiet (Op.enqueue_request source) (Or.inl rfl)
      rw [h.1, h.2]; exact ⟨le_refl _, le_refl _⟩
    | modbus_on_write_request request =>
      have h := hquiet (Op.modbus_on_write_request request) (Or.inl rfl)
      rw [h.1, h.2]; exact ⟨le_refl _, le_refl _⟩
    | modbus_on_poll_meta request_sequence =>
      have h := hquiet (Op.modbus_on_poll_meta request_sequence) (Or.inl rfl)
      rw [h.1, h.2]; exact ⟨le_refl _, le_refl _⟩
    | stop_modbus =>
      have h := hquiet Op.stop_modbus (Or.inr (Or.inl rfl))
      rw [h.1, h.2]; exact ⟨le_refl _, le_refl _⟩
    | remove_reference r =>
      have h := hquiet (Op.remove_reference r) (Or.inr (Or.inr ⟨r, rfl⟩))
      rw [h.1, h.2]; exact ⟨le_refl _, le_refl _⟩
    | complete regs =>
      rw [(hdata regs).1, (hdata regs).2, Nat.mod_eq_of_lt hp]
      exact ⟨Nat.le_succ _, le_refl _⟩
    | modbus_error code =>
      have h := modbus_on_error_counts env s code
      simp only [step]
      rw [h.1, h.2, Nat.mod_eq_of_lt he]
      exact ⟨le_refl _, Nat.le_succ _⟩
    | timer_expired =>
      simp only [step]
      rw [htimer.1, htimer.2]
      refine ⟨le_refl _, ?_⟩
      split
      · rw [Nat.mod_eq_of_lt he]; exact Nat.le_succ _
      · exact le_refl _

/-- Witness of C20: the counters read after the completion of a read, after an
error on the same state, and after a connect. -/
theorem counters_change_witness :
    Scheduler.init.m_polling_thread = none ∧
    get_counts (modbus_on_data demo_env demo_read_done).state = (1, 0) ∧
    get_counts (modbus_on_error demo_env demo_read_done 2).state = (0, 1) ∧
    get_counts (start_modbus Scheduler.init demo_thread 3000).state = (0, 0) :=
  ⟨rfl, by decide, by decide,
   (counters_change demo_env Scheduler.init).2.2.2.2.1 demo_thread 3000 rfl⟩

/-! ### The write scenario -/

theorem filter_request_emit_register_set (node : Nat) (vs : List Nat) (reg : Nat) :
    (emit_register_set node reg vs).filter is_modbus_request = [] := by
  have h := submissions_emit_register_set node vs reg
  simp only [submissions, List.countP_eq_zero] at h
  exact List.filter_eq_nil_iff.mpr h

theorem run_single (env : Env) (s : Scheduler) (op : Op) :
    run env s [op] = step env s op := by
  simp only [run, Outcome.andThen]
  generalize step env s op = o
  cases o with
  | mk st ef fl =>
    cases fl <;> simp

/-- C19. A Read or Write transaction is in flight, the read demand of requester
`B` (a polling window) is at the front of the read queue, no write or metadata
is pending, and the write of the value 1 to register 1 of node 5 is submitted:
it is only queued. When the transaction in flight completes, the pass submits
that write and leaves the read queue as it was. When the write completes,
`modbus_on_data` emits `new_register_data(0, WRITE_REQUEST_COMPLETE, 5)` and nothing
else before the pass, which dispatches the read of `B` (and emits
`polling_complete` when that was the last read demand). In general
the only `new_register_data` event of a Write completion is
`(0, WRITE_REQUEST_COMPLETE, node of the mailbox)`, and the mailbox node after a
write dispatch is the node of the write. -/
theorem write_before_read (env : Env) (s : Scheduler) (t : ModbusThread) (b : Nat)
    (more : List (Option Nat)) (d : RegisterDisplay) (rq : Option Nat)
    (regs1 regs2 : List Nat)
    (hconn : s.m_polling_thread = some t) (hact : s.m_active = true)
    (hkind : s.m_current_action = PollAction.POLLING_READ ∨
      s.m_current_action = PollAction.POLLING_WRITE)
    (hw : s.m_write_requests = []) (hm : s.m_meta_requests = [])
    (hr : s.m_standard_requests = some b :: more) (hd : env.dialog b = some d) :
    step env s (Op.modbus_on_write_request (scenario_write rq)) =
      { state := { s with m_write_requests := [scenario_write rq] }, effects := [],
        fault := none } ∧
    (run env s [Op.modbus_on_write_request (scenario_write rq), Op.complete regs1]).fault
      = none ∧
    (run env s [Op.modbus_on_write_request (scenario_write rq),
        Op.complete regs1]).effects.filter is_modbus_request =
      [Effect.modbus_request (Request.write 1 [1] 5)] ∧
    (run env s [Op.modbus_on_write_request (scenario_write rq),
        Op.complete regs1]).state.m_current_action = PollAction.POLLING_WRITE ∧
    (run env s [Op.modbus_on_write_request (scenario_write rq),
        Op.complete regs1]).state.m_standard_requests = some b :: more ∧
    (run env s [Op.modbus_on_write_request (scenario_write rq),
        Op.complete regs1]).state.m_write_requests = [] ∧
    (step env (run env s [Op.modbus_on_write_request (scenario_write rq),
        Op.complete regs1]).state (Op.complete regs2)).effects =
      [Effect.new_register_data 0 WRITE_REQUEST_COMPLETE 5,
       Effect.poll_register_set b,
       Effect.modbus_request (Request.read d.m_starting_register d.m_count
         (d.m_node_select % 256).toNat)] ++
      (if more = [] then [Effect.polling_complete] else []) ∧
    (step env (run env s [Op.modbus_on_write_request (scenario_write rq),
        Op.complete regs1]).state (Op.complete regs2)).fault = none ∧
    (step env (run env s [Op.modbus_on_write_request (scenario_write rq),
        Op.complete regs1]).state (Op.complete regs2)).state.m_current_action =
      PollAction.POLLING_READ ∧
    (step env (run env s [Op.modbus_on_write_request (scenario_write rq),
        Op.complete regs1]).state (Op.complete regs2)).state.m_current_request = some b ∧
    (step env (run env s [Op.modbus_on_write_request (scenario_write rq),
        Op.complete regs1]).state (Op.complete regs2)).state.m_standard_requests = more ∧
    (∀ (s2 : Scheduler) (t2 : ModbusThread), s2.m_polling_thread = some t2 →
      s2.m_current_action = PollAction.POLLING_WRITE →
      (modbus_on_data env s2).effects.filter is_new_register_data =
        [Effect.new_register_data 0 WRITE_REQUEST_COMPLETE t2.m_node]) ∧
    (∀ (s2 : Scheduler) (t2 : ModbusThread) (w : WriteRequest) (ws : List WriteRequest),
      s2.m_polling_thread = some t2 → s2.m_write_requests = w :: ws →
      (poll_write_request s2).state.m_polling_thread =
        some (t2.modbus_request_write w.first_register w.values w.node) ∧
      (t2.modbus_request_write w.first_register w.values w.node).get_unit_id = w.node) := by
  have h1 : step env s (Op.modbus_on_write_request (scenario_write rq)) =
      { state := { s with m_write_requests := [scenario_write rq] }, effects := [],
        fault := none } := by
    simp [step, modbus_on_write_request, figure_next, hconn, hact, hw]
  have hgen : ∀ (s2 : Scheduler) (t2 : ModbusThread), s2.m_polling_thread = some t2 →
      s2.m_current_action = PollAction.POLLING_WRITE →
      (modbus_on_data env s2).effects.filter is_new_register_data =
        [Effect.new_register_data 0 WRITE_REQUEST_COMPLETE t2.m_node] := by
    intro s2 t2 h2 ha
    have he : ∃ s3, modbus_on_data env s2 = Outcome.andThen
        { state := s3,
          effects := [Effect.new_register_data 0 WRITE_REQUEST_COMPLETE t2.m_node],
          fault := none } (figure_next env) := by
      refine ⟨{ s2 with m_modbus_timer := s2.m_modbus_timer.stop,
                        m_poll_count := (s2.m_poll_count + 1) % 2 ^ 64,
                        m_active := false }, ?_⟩
      simp [modbus_on_data, h2, ha, ModbusThread.get_unit_id]
    obtain ⟨s3, hs3⟩ := he
    rw [hs3, (andThen_figure_next_effects env _).1]
    simp [is_new_register_data]
  have hrun : run env s [Op.modbus_on_write_request (scenario_write rq), Op.complete regs1] =
      step env { s with m_write_requests := [scenario_write rq] } (Op.complete regs1) := by
    have hcons : run env s [Op.modbus_on_write_request (scenario_write rq),
        Op.complete regs1] =
        Outcome.andThen (step env s (Op.modbus_on_write_request (scenario_write rq)))
          (fun s1 => run env s1 [Op.complete regs1]) := rfl
    rw [hcons, h1]
    simp only [Outcome.andThen, run_single, List.nil_append]
  have h2 : (step env { s with m_write_requests := [scenario_write rq] }
        (Op.complete regs1)).fault = none ∧
      (step env { s with m_write_requests := [scenario_write rq] }
        (Op.complete regs1)).effects.filter is_modbus_request =
        [Effect.modbus_request (Request.write 1 [1] 5)] ∧
      (step env { s with m_write_requests := [scenario_write rq] }
        (Op.complete regs1)).state.m_current_action = PollAction.POLLING_WRITE ∧
      (step env { s with m_write_requests := [scenario_write rq] }
        (Op.complete regs1)).state.m_standard_requests = some b :: more ∧
      (step env { s with m_write_requests := [scenario_write rq] }
        (Op.complete regs1)).state.m_write_requests = [] ∧
      (step env { s with m_write_requests := [scenario_write rq] }
        (Op.complete regs1)).state.m_meta_requests = [] ∧
      (step env { s with m_write_requests := [scenario_write rq] }
        (Op.complete regs1)).state.m_polling_thread = some
          { m_write_request := true, m_raw_request := none, m_regs := [1],
            m_reg_number := 1, m_count := 1, m_node := 5 } := by
    rcases hkind with hk | hk
    · simp [step, worker_store, modbus_on_data, Outcome.andThen, figure_next,
        figure_next_loop, select_action, poll_write_request, scenario_write,
        ModbusThread.modbus_request_write, ModbusThread.modbus_result,
        ModbusThread.get_unit_id, ModbusThread.get_start_reg, is_modbus_request,
        filter_request_emit_register_set, hconn, hk, hr, hm]
    · simp [step, worker_store, modbus_on_data, Outcome.andThen, figure_next,
        figure_next_loop, select_action, poll_write_request, scenario_write,
        ModbusThread.modbus_request_write, ModbusThread.get_unit_id, is_modbus_request,
        hconn, hk, hr, hm]
  rw [hrun]
  have h3 : ∀ o : Outcome, o.state.m_current_action = PollAction.POLLING_WRITE →
      o.state.m_standard_requests = some b :: more → o.state.m_write_requests = [] →
      o.state.m_meta_requests = [] →
      o.state.m_polling_thread = some
        { m_write_request := true, m_raw_request := none, m_regs := [1],
          m_reg_number := 1, m_count := 1, m_node := 5 } →
      (step env o.state (Op.complete regs2)).effects =
        [Effect.new_register_data 0 WRITE_REQUEST_COMPLETE 5,
         Effect.poll_register_set b,
         Effect.modbus_request (Request.read d.m_starting_register d.m_count
           (d.m_node_select % 256).toNat)] ++
        (if more = [] then [Effect.polling_complete] else []) ∧
      (step env o.state (Op.complete regs2)).fault = none ∧
      (step env o.state (Op.complete regs2)).state.m_current_action =
        PollAction.POLLING_READ ∧
      (step env o.state (Op.complete regs2)).state.m_current_request = some b ∧
      (step env o.state (Op.complete regs2)).state.m_standard_requests = more := by
    intro o ha hq hw2 hm2 ht2
    simp [step, worker_store, modbus_on_data, Outcome.andThen, figure_next,
      figure_next_loop, select_action, poll_read_request,
      ModbusThread.modbus_request_read, ModbusThread.get_unit_id,
      ha, hq, hw2, hm2, ht2, hd]
  have h3o := h3 _ h2.2.2.1 h2.2.2.2.1 h2.2.2.2.2.1 h2.2.2.2.2.2.1 h2.2.2.2.2.2.2
  refine ⟨h1, h2.1, h2.2.1, h2.2.2.1, h2.2.2.2.1, h2.2.2.2.2.1, h3o.1, h3o.2.1, h3o.2.2.1,
    h3o.2.2.2.1, h3o.2.2.2.2, hgen, ?_⟩
  · intro s2 t2 w ws h2t h2w
    simp [poll_write_request, h2t, h2w, ModbusThread.modbus_request_write,
      ModbusThread.get_unit_id]

/-- Witness of C19: the read of window 1 is in flight, its next read demand is
queued, and the write arrives from window 2. -/
theorem write_before_read_witness :
    demo_write_scenario.m_active = true ∧
    (run demo_env demo_write_scenario
      [Op.modbus_on_write_request (scenario_write (some 2)),
       Op.complete [10, 20, 30, 40]]).effects.filter is_modbus_request =
      [Effect.modbus_request (Request.write 1 [1] 5)] ∧
    (step demo_env (run demo_env demo_write_scenario
      [Op.modbus_on_write_request (scenario_write (some 2)),
       Op.complete [10, 20, 30, 40]]).state (Op.complete [])).effects =
      [Effect.new_register_data 0 WRITE_REQUEST_COMPLETE 5,
       Effect.poll_register_set 1,
       Effect.modbus_request (Request.read 40001 4 3),
       Effect.polling_complete] :=
  ⟨rfl,
   (write_before_read demo_env demo_write_scenario
     { m_write_request := false, m_raw_request := none, m_regs := [10, 20, 30, 40],
       m_reg_number := 40001, m_count := 4, m_node := 3 } 1 []
     { m_starting_register := 40001, m_count := 4, m_node_select := 3 } (some 2)
     [10, 20, 30, 40] [] rfl rfl (Or.inl rfl) rfl rfl rfl rfl).2.2.1,
   (write_before_read demo_env demo_write_scenario
     { m_write_request := false, m_raw_request := none, m_regs := [10, 20, 30, 40],
       m_reg_number := 40001, m_count := 4, m_node := 3 } 1 []
     { m_starting_register := 40001, m_count := 4, m_node_select := 3 } (some 2)
     [10, 20, 30, 40] [] rfl rfl (Or.inl rfl) rfl rfl rfl rfl).2.2.2.2.2.2.1⟩

/-! ### Worker: read requests -/

/-- A read request outside the four register ranges, with a node that
`modbus_set_slave` accepts, on a worker that is not quitting: the turn makes no
library call but `modbus_set_slave`, signals `modbus_error(2)` and then, `result` still
being the 0 of `modbus_set_slave`, signals `complete` as well. -/
theorem illegal_address_turn (lib : Libmodbus) (w : Worker)
    (hq : w.m_quit = false) (hraw : w.thread.m_raw_request = none)
    (hcount : w.thread.m_count ≠ 0) (hwrite : w.thread.m_write_request = false)
    (hslave : (lib.respond (LibCall.modbus_set_slave (w.thread.m_node : Int))).result = 0)
    (hreg : ¬ (1 ≤ w.thread.m_reg_number ∧ w.thread.m_reg_number ≤ 9999) ∧
      ¬ (10001 ≤ w.thread.m_reg_number ∧ w.thread.m_reg_number ≤ 19999) ∧
      ¬ (30001 ≤ w.thread.m_reg_number ∧ w.thread.m_reg_number ≤ 39999) ∧
      ¬ (40001 ≤ w.thread.m_reg_number ∧ w.thread.m_reg_number ≤ 49999)) :
    (run_iteration lib w).2 =
      [WorkerEffect.call (LibCall.modbus_set_slave (w.thread.m_node : Int)),
       WorkerEffect.modbus_error 2, WorkerEffect.complete] := by
  obtain ⟨h1, h2, h3, h4⟩ := hreg
  simp [run_iteration, Turn.finish, Turn.call_plain, hq, hraw, hcount, hwrite, hslave,
    h1, h2, h3, h4]

/-- C12 at the failing input. The read request `modbus_request(20000, 1, 1)`: register
20000 lies in none of the four ranges. The turn of the worker makes no read or
write call on the library and signals `modbus_error(2)`, and after it `complete`. -/
theorem illegal_address_also_completes :
    (worker_with_read 20000 1 1).thread.m_count ≠ 0 ∧
    (worker_with_read 20000 1 1).thread.m_write_request = false ∧
    (worker_with_read 20000 1 1).thread.m_raw_request = none ∧
    (run_iteration demo_lib (worker_with_read 20000 1 1)).2 =
      [WorkerEffect.call (LibCall.modbus_set_slave 1), WorkerEffect.modbus_error 2,
       WorkerEffect.complete] ∧
    (run_iteration demo_lib (worker_with_read 20000 1 1)).2.filter is_wire_call = [] := by
  decide

theorem resize_length (v : List Nat) (n : Nat) : (resize v n).length = n := by
  simp [resize]
  omega

theorem store_full (dest data : List Nat) (h : data.length = dest.length) :
    store dest data = data := by
  simp [store, ← h]

theorem resize_self (v : List Nat) : resize v v.length = v := by
  simp [resize]

theorem resize_eq (v : List Nat) (n : Nat) (h : v.length = n) : resize v n = v := by
  subst h
  exact resize_self v

theorem store_resize (v data : List Nat) (n : Nat) (h : data.length = n) :
    store (resize v n) data = data :=
  store_full _ _ (by rw [resize_length, h])

/-- C13. A read request with a non-zero count, on a worker that is not quitting
and with a node that `modbus_set_slave` accepts, is routed by its first register
`R`: 1..9999 to `modbus_read_bits` at offset `R - 1`, 10001..19999 to
`modbus_read_input_bits` at `R - 10001`, 30001..39999 to `modbus_read_input_registers` at
`R - 30001`, 40001..49999 to `modbus_read_registers` at `R - 40001`, each time with the
requested count and as the only call after `modbus_set_slave`; the turn then
signals `complete`, or `modbus_error(errno)` when the read failed. When the device
answers with as many values as requested, the result storage holds exactly the
returned values in their order, one `quint16` per returned bit for the two bit
families. -/
theorem read_routing (lib : Libmodbus) (w : Worker)
    (hq : w.m_quit = false) (hraw : w.thread.m_raw_request = none)
    (hcount : w.thread.m_count ≠ 0) (hwrite : w.thread.m_write_request = false)
    (hslave : (lib.respond (LibCall.modbus_set_slave (w.thread.m_node : Int))).result = 0) :
    (∀ c : LibCall,
      (1 ≤ w.thread.m_reg_number ∧ w.thread.m_reg_number ≤ 9999 ∧
        c = LibCall.modbus_read_bits ((w.thread.m_reg_number : Int) - 1) w.thread.m_count) ∨
      (10001 ≤ w.thread.m_reg_number ∧ w.thread.m_reg_number ≤ 19999 ∧
        c = LibCall.modbus_read_input_bits ((w.thread.m_reg_number : Int) - 10001)
          w.thread.m_count) ∨
      (30001 ≤ w.thread.m_reg_number ∧ w.thread.m_reg_number ≤ 39999 ∧
        c = LibCall.modbus_read_input_registers ((w.thread.m_reg_number : Int) - 30001)
          w.thread.m_count) ∨
      (40001 ≤ w.thread.m_reg_number ∧ w.thread.m_reg_number ≤ 49999 ∧
        c = LibCall.modbus_read_registers ((w.thread.m_reg_number : Int) - 40001)
          w.thread.m_count) →
      (run_iteration lib w).2 =
        [WorkerEffect.call (LibCall.modbus_set_slave (w.thread.m_node : Int)),
         WorkerEffect.call c] ++
        (if (lib.respond c).result < 0 then [WorkerEffect.modbus_error (lib.respond c).errno]
         else [WorkerEffect.complete]) ∧
      (0 ≤ (lib.respond c).result → (lib.respond c).data.length = w.thread.m_count →
        (run_iteration lib w).1.thread.m_regs = (lib.respond c).data)) := by
  intro c hc
  rcases hc with ⟨h1, h2, hc⟩ | ⟨h1, h2, hc⟩ | ⟨h1, h2, hc⟩ | ⟨h1, h2, hc⟩
  · subst hc
    constructor
    · by_cases hr : (lib.respond (LibCall.modbus_read_bits
          ((w.thread.m_reg_number : Int) - 1) w.thread.m_count)).result < 0
      · simp [run_iteration, Turn.finish, Turn.call_plain, Turn.call_bits, hq, hraw, hcount,
          hwrite, hslave, h1, h2, hr]
      · simp [run_iteration, Turn.finish, Turn.call_plain, Turn.call_bits, hq, hraw, hcount,
          hwrite, hslave, h1, h2, hr]
    · intro hr hlen
      have hr2 : ¬ (lib.respond (LibCall.modbus_read_bits
          ((w.thread.m_reg_number : Int) - 1) w.thread.m_count)).result < 0 := by omega
      simp [run_iteration, Turn.finish, Turn.call_plain, Turn.call_bits, hq, hraw, hcount,
        hwrite, hslave, h1, h2, hr2, store_resize _ _ _ hlen, resize_eq _ _ hlen]
  · subst hc
    have e1 : ¬ (1 ≤ w.thread.m_reg_number ∧ w.thread.m_reg_number ≤ 9999) := by omega
    constructor
    · by_cases hr : (lib.respond (LibCall.modbus_read_input_bits
          ((w.thread.m_reg_number : Int) - 10001) w.thread.m_count)).result < 0
      · simp [run_iteration, Turn.finish, Turn.call_plain, Turn.call_bits, hq, hraw, hcount,
          hwrite, hslave, h1, h2, e1, hr]
      · simp [run_iteration, Turn.finish, Turn.call_plain, Turn.call_bits, hq, hraw, hcount,
          hwrite, hslave, h1, h2, e1, hr]
    · intro hr hlen
      have hr2 : ¬ (lib.respond (LibCall.modbus_read_input_bits
          ((w.thread.m_reg_number : Int) - 10001) w.thread.m_count)).result < 0 := by omega
      simp [run_iteration, Turn.finish, Turn.call_plain, Turn.call_bits, hq, hraw, hcount,
        hwrite, hslave, h1, h2, e1, hr2, store_resize _ _ _ hlen, resize_eq _ _ hlen]
  · subst hc
    have e1 : ¬ (1 ≤ w.thread.m_reg_number ∧ w.thread.m_reg_number ≤ 9999) := by omega
    have e2 : ¬ (10001 ≤ w.thread.m_reg_number ∧ w.thread.m_reg_number ≤ 19999) := by omega
    constructor
    · by_cases hr : (lib.respond (LibCall.modbus_read_input_registers
          ((w.thread.m_reg_number : Int) - 30001) w.thread.m_count)).result < 0
      · simp [run_iteration, Turn.finish, Turn.call_plain, Turn.call_regs, hq, hraw, hcount,
          hwrite, hslave, h1, h2, e1, e2, hr]
      · simp [run_iteration, Turn.finish, Turn.call_plain, Turn.call_regs, hq, hraw, hcount,
          hwrite, hslave, h1, h2, e1, e2, hr]
    · intro hr hlen
      have hr2 : ¬ (lib.respond (LibCall.modbus_read_input_registers
          ((w.thread.m_reg_number : Int) - 30001) w.thread.m_count)).result < 0 := by omega
      simp [run_iteration, Turn.finish, Turn.call_plain, Turn.call_regs, hq, hraw, hcount,
        hwrite, hslave, h1, h2, e1, e2, hr2, store_resize _ _ _ hlen]
  · subst hc
    have e1 : ¬ (1 ≤ w.thread.m_reg_number ∧ w.thread.m_reg_number ≤ 9999) := by omega
    have e2 : ¬ (10001 ≤ w.thread.m_reg_number ∧ w.thread.m_reg_number ≤ 19999) := by omega
    have e3 : ¬ (30001 ≤ w.thread.m_reg_number ∧ w.thread.m_reg_number ≤ 39999) := by omega
    constructor
    · by_cases hr : (lib.respond (LibCall.modbus_read_registers
          ((w.thread.m_reg_number : Int) - 40001) w.thread.m_count)).result < 0
      · simp [run_iteration, Turn.finish, Turn.call_plain, Turn.call_regs, hq, hraw, hcount,
          hwrite, hslave, h1, h2, e1, e2, e3, hr]
      · simp [run_iteration, Turn.finish, Turn.call_plain, Turn.call_regs, hq, hraw, hcount,
          hwrite, hslave, h1, h2, e1, e2, e3, hr]
    · intro hr hlen
      have hr2 : ¬ (lib.respond (LibCall.modbus_read_registers
          ((w.thread.m_reg_number : Int) - 40001) w.thread.m_count)).result < 0 := by omega
      simp [run_iteration, Turn.finish, Turn.call_plain, Turn.call_regs, hq, hraw, hcount,
        hwrite, hslave, h1, h2, e1, e2, e3, hr2, store_resize _ _ _ hlen]

/-- Witness of C13: a read of three holding registers from 40001 and a read of
three coils from 5, on node 1. -/
theorem read_routing_witness :
    (worker_with_read 40001 3 1).m_quit = false ∧
    (run_iteration demo_lib (worker_with_read 40001 3 1)).2 =
      [WorkerEffect.call (LibCall.modbus_set_slave 1),
       WorkerEffect.call (LibCall.modbus_read_registers 0 3), WorkerEffect.complete] ∧
    (run_iteration demo_lib (worker_with_read 5 3 1)).2 =
      [WorkerEffect.call (LibCall.modbus_set_slave 1),
       WorkerEffect.call (LibCall.modbus_read_bits 4 3), WorkerEffect.complete] ∧
    (run_iteration demo_lib (worker_with_read 5 3 1)).1.thread.m_regs = [1, 0, 1] :=
  ⟨rfl,
   (read_routing demo_lib (worker_with_read 40001 3 1) rfl rfl (by decide) rfl rfl
     (LibCall.modbus_read_registers 0 3)
     (Or.inr (Or.inr (Or.inr ⟨by decide, by decide, rfl⟩)))).1,
   (read_routing demo_lib (worker_with_read 5 3 1) rfl rfl (by decide) rfl rfl
     (LibCall.modbus_read_bits 4 3) (Or.inl ⟨by decide, by decide, rfl⟩)).1,
   (read_routing demo_lib (worker_with_read 5 3 1) rfl rfl (by decide) rfl rfl
     (LibCall.modbus_read_bits 4 3) (Or.inl ⟨by decide, by decide, rfl⟩)).2
     (by decide) rfl⟩

/-! ### CSV import: block size -/

set_option maxRecDepth 100000 in
/-- C14 at the failing input. A CSV file of 127 rows for the consecutive holding
registers 40001..40127 of node 1 is imported: `load_csv_data` submits one
`WriteRequest` starting at the word-addressed register 40001 with 127 values,
more than the cap of 125. -/
theorem csv_word_block_of_127 :
    (submitted_writes (load_csv_data (holding_rows 127) (-2) false)).map
      (fun wr => (wr.first_register, wr.node, wr.values.length)) = [(40001, 1, 127)] ∧
    ¬ (∀ wr ∈ submitted_writes (load_csv_data (holding_rows 127) (-2) false),
      wr.values.length ≤ block_cap wr.first_register) := by
  decide

theorem submitted_writes_append (a b : List CsvEffect) :
    submitted_writes (a ++ b) = submitted_writes a ++ submitted_writes b := by
  induction a with
  | nil => rfl
  | cons e a ih =>
    cases e with
    | new_register_data r v n => simpa [submitted_writes] using ih
    | modbus_on_write_request request => simpa [submitted_writes] using ih

theorem append_write_within_cap (wr : WriteRequest) (reg value node : Nat)
    (hreg : (1 ≤ reg ∧ reg ≤ 9999) ∨ (40001 ≤ reg ∧ reg ≤ 49999))
    (h : within_code_cap wr) :
    within_code_cap (append_write wr reg value node).1 ∧
    ∀ x ∈ submitted_writes (append_write wr reg value node).2,
      x.values ≠ [] ∧ x.values.length ≤ code_cap x.first_register := by
  unfold append_write
  by_cases hlen : wr.values.length > 0
  · have hne : wr.values ≠ [] := fun e => by rw [e] at hlen; exact absurd hlen (by decide)
    rcases h with h | ⟨hfirst, hcap⟩
    · exact absurd h hne
    · simp only [hlen, if_true]
      by_cases hflush : reg ≠ (wr.first_register + wr.values.length) % 65536 ∨
          node ≠ wr.node ∨ wr.values.length ≥ (if reg < 10000 then 2000 else 127)
      · simp only [hflush, if_true]
        refine ⟨Or.inr ⟨hreg, ?_⟩, ?_⟩
        · simp only [WriteRequest.empty, List.nil_append, List.length_singleton, code_cap]
          split <;> omega
        · intro x hx
          simp only [submitted_writes, List.mem_singleton] at hx
          rw [hx]
          exact ⟨hne, hcap⟩
      · simp only [hflush, if_false]
        simp only [not_or, not_not, ge_iff_le, not_le] at hflush
        obtain ⟨hnext, _, hmax⟩ := hflush
        refine ⟨Or.inr ⟨hfirst, ?_⟩, ?_⟩
        · simp only [List.length_append, List.length_singleton]
          unfold code_cap at hcap ⊢
          split at hcap
          · rw [if_pos (by assumption)]
            split at hmax <;> omega
          · rw [if_neg (by assumption)]
            have hsum : wr.first_register + wr.values.length < 65536 := by omega
            rw [Nat.mod_eq_of_lt hsum] at hnext
            rw [if_neg (by omega)] at hmax
            omega
        · intro x hx
          simp [submitted_writes] at hx
  · simp only [hlen, if_false]
    have hnil : wr.values = [] := by
      cases hv : wr.values with
      | nil => rfl
      | cons a l => rw [hv] at hlen; simp at hlen
    refine ⟨Or.inr ⟨hreg, ?_⟩, ?_⟩
    · simp only [hnil, List.nil_append, List.length_singleton, code_cap]
      split <;> omega
    · intro x hx
      simp [submitted_writes] at hx

theorem writable_to_quint16 (regnum : Int)
    (h : (regnum < 10000 ∧ regnum > 0) ∨ (regnum > 40000 ∧ regnum < 50000)) :
    (1 ≤ to_quint16 regnum ∧ to_quint16 regnum ≤ 9999) ∨
    (40001 ≤ to_quint16 regnum ∧ to_quint16 regnum ≤ 49999) := by
  unfold to_quint16
  rcases h with h | h
  · left
    have : regnum % 65536 = regnum := Int.emod_eq_of_lt (by omega) (by omega)
    rw [this]
    omega
  · right
    have : regnum % 65536 = regnum := Int.emod_eq_of_lt (by omega) (by omega)
    rw [this]
    omega

theorem load_csv_rows_within_cap (node_index fixed_node : Int) (rows : List CsvRow) :
    ∀ writes, within_code_cap writes →
      within_code_cap (load_csv_rows node_index fixed_node writes rows).1 ∧
      ∀ x ∈ submitted_writes (load_csv_rows node_index fixed_node writes rows).2,
        x.values ≠ [] ∧ x.values.length ≤ code_cap x.first_register := by
  induction rows with
  | nil =>
    intro writes h
    exact ⟨h, by simp [load_csv_rows, submitted_writes]⟩
  | cons row rows ih =>
    intro writes h
    unfold load_csv_rows
    dsimp only
    split
    · rename_i hw
      have ha := append_write_within_cap writes (to_quint16 row.regnum) (to_quint16 row.value)
        (to_quint8 (if node_index < 0 then fixed_node else row.node))
        (writable_to_quint16 row.regnum hw) h
      have hi := ih _ ha.1
      refine ⟨hi.1, ?_⟩
      intro x hx
      have hx2 : x ∈ submitted_writes
          ((append_write writes (to_quint16 row.regnum) (to_quint16 row.value)
            (to_quint8 (if node_index < 0 then fixed_node else row.node))).2 ++
           (load_csv_rows node_index fixed_node
            (append_write writes (to_quint16 row.regnum) (to_quint16 row.value)
              (to_quint8 (if node_index < 0 then fixed_node else row.node))).1 rows).2) := hx
      rw [submitted_writes_append, List.mem_append] at hx2
      rcases hx2 with hx2 | hx2
      · exact ha.2 x hx2
      · exact hi.2 x hx2
    · have hi := ih writes h
      refine ⟨hi.1, ?_⟩
      intro x hx
      exact hi.2 x hx

/-- The cap the CSV import does respect: every `WriteRequest` that `load_csv_data`
submits is non-empty and holds at most 2000 values when its first register is
below 10000 and at most 127 values otherwise. -/
theorem csv_blocks_within_code_cap (all_data : List CsvRow) (node_index : Int)
    (skip_first_row : Bool) :
    ∀ wr ∈ submitted_writes (load_csv_data all_data node_index skip_first_row),
      wr.values ≠ [] ∧ wr.values.length ≤ code_cap wr.first_register := by
  have key : ∀ (fixed : Int) (rows : List CsvRow),
      ∀ wr ∈ submitted_writes
        ((load_csv_rows node_index fixed WriteRequest.empty rows).2 ++
          (if (load_csv_rows node_index fixed WriteRequest.empty rows).1.values.length > 0
           then [CsvEffect.modbus_on_write_request
             (load_csv_rows node_index fixed WriteRequest.empty rows).1] else [])),
        wr.values ≠ [] ∧ wr.values.length ≤ code_cap wr.first_register := by
    intro fixed rows wr hwr
    have h := load_csv_rows_within_cap node_index fixed rows WriteRequest.empty (Or.inl rfl)
    rw [submitted_writes_append, List.mem_append] at hwr
    rcases hwr with hwr | hwr
    · exact h.2 wr hwr
    · by_cases hlen : (load_csv_rows node_index fixed WriteRequest.empty rows).1.values.length > 0
      · rw [if_pos hlen] at hwr
        simp only [submitted_writes, List.mem_singleton] at hwr
        rw [hwr]
        have hne : (load_csv_rows node_index fixed WriteRequest.empty rows).1.values ≠ [] :=
          fun e => by rw [e] at hlen; exact absurd hlen (by decide)
        rcases h.1 with h1 | h1
        · exact absurd h1 hne
        · exact ⟨hne, h1.2⟩
      · rw [if_neg hlen] at hwr
        simp [submitted_writes] at hwr
  exact key _ _

/-! ### Result storage of the worker -/

/-- C21. The call `modbus_result` returns the values held in the result storage
and leaves the storage empty, the rest of the mailbox unchanged; a second call
with nothing stored in between returns the empty list. -/
theorem modbus_result_once (t : ModbusThread) :
    t.modbus_result.1 = t.m_regs ∧
    t.modbus_result.2.m_regs = [] ∧
    t.modbus_result.2 = { t with m_regs := [] } ∧
    t.modbus_result.2.modbus_result.1 = [] ∧
    t.modbus_result.2.modbus_result.2 = t.modbus_result.2 :=
  ⟨rfl, rfl, rfl, rfl, rfl⟩

/-! ### Worker: write requests -/

/-- C30. For a write request with `n ≥ 1` values `vs` and first register `R`,
`do_write_request` makes exactly one library call: for `R ≤ 19999` a bit write at
offset `R - 1`, `modbus_write_bit` when `n = 1` and `modbus_write_bits` of `n` bits otherwise,
each value mapped to 1 when it is greater than 0 and to 0 when not; for
`R > 19999` a holding-register write at offset `R - 40001` with the values as they
are, `modbus_write_register` when `n = 1` and `modbus_write_registers` of `n` values
otherwise. For `R` in 40001..49999 and for `R` in 1..9999 the offset lies in
0..9998. -/
theorem write_routing (lib : Libmodbus) (w : Worker) :
    (∀ v, w.thread.m_regs = [v] → w.thread.m_reg_number ≤ 19999 →
      (do_write_request lib w).effects =
        [WorkerEffect.call (LibCall.modbus_write_bit ((w.thread.m_reg_number : Int) - 1)
          (if v > 0 then 1 else 0))]) ∧
    (2 ≤ w.thread.m_regs.length → w.thread.m_reg_number ≤ 19999 →
      (do_write_request lib w).effects =
        [WorkerEffect.call (LibCall.modbus_write_bits ((w.thread.m_reg_number : Int) - 1)
          w.thread.m_regs.length (w.thread.m_regs.map (fun v => if v > 0 then 1 else 0)))]) ∧
    (∀ v, w.thread.m_regs = [v] → 19999 < w.thread.m_reg_number →
      (do_write_request lib w).effects =
        [WorkerEffect.call (LibCall.modbus_write_register
          ((w.thread.m_reg_number : Int) - 40001) v)]) ∧
    (2 ≤ w.thread.m_regs.length → 19999 < w.thread.m_reg_number →
      (do_write_request lib w).effects =
        [WorkerEffect.call (LibCall.modbus_write_registers
          ((w.thread.m_reg_number : Int) - 40001) w.thread.m_regs.length w.thread.m_regs)]) ∧
    (40001 ≤ w.thread.m_reg_number → w.thread.m_reg_number ≤ 49999 →
      0 ≤ (w.thread.m_reg_number : Int) - 40001 ∧
      (w.thread.m_reg_number : Int) - 40001 ≤ 9998) ∧
    (1 ≤ w.thread.m_reg_number → w.thread.m_reg_number ≤ 9999 →
      0 ≤ (w.thread.m_reg_number : Int) - 1 ∧ (w.thread.m_reg_number : Int) - 1 ≤ 9998) ∧
    (do_write_request lib w).result = (lib.respond
      (match (do_write_request lib w).effects with
        | [WorkerEffect.call c] => c
        | _ => LibCall.modbus_receive_confirmation)).result := by
  refine ⟨?_, ?_, ?_, ?_, ?_, ?_, ?_⟩
  · intro v hv hr
    simp [do_write_request, Turn.call_plain, hv, hr]
  · intro hn hr
    have h1 : ¬ w.thread.m_regs.length = 1 := by omega
    simp [do_write_request, Turn.call_plain, h1, hr]
  · intro v hv hr
    have h1 : ¬ w.thread.m_reg_number ≤ 19999 := by omega
    simp [do_write_request, Turn.call_plain, hv, h1]
  · intro hn hr
    have h1 : ¬ w.thread.m_regs.length = 1 := by omega
    have h2 : ¬ w.thread.m_reg_number ≤ 19999 := by omega
    simp [do_write_request, Turn.call_plain, h1, h2]
  · intro h1 h2
    omega
  · intro h1 h2
    omega
  · unfold do_write_request
    dsimp only
    split
    · rfl
    · split
      · rfl
      · split <;> rfl

/-- Witness of C30: a single coil, three coils, a single holding register and
two holding registers. -/
theorem write_routing_witness :
    (worker_with_write 5 [7] 1).thread.m_regs = [7] ∧
    (do_write_request demo_lib (worker_with_write 5 [7] 1)).effects =
      [WorkerEffect.call (LibCall.modbus_write_bit 4 1)] ∧
    (do_write_request demo_lib (worker_with_write 5 [7, 0, 2] 1)).effects =
      [WorkerEffect.call (LibCall.modbus_write_bits 4 3 [1, 0, 1])] ∧
    (do_write_request demo_lib (worker_with_write 40010 [7] 1)).effects =
      [WorkerEffect.call (LibCall.modbus_write_register 9 7)] ∧
    (do_write_request demo_lib (worker_with_write 40010 [7, 0] 1)).effects =
      [WorkerEffect.call (LibCall.modbus_write_registers 9 2 [7, 0])] :=
  ⟨rfl,
   (write_routing demo_lib (worker_with_write 5 [7] 1)).1 7 rfl (by decide),
   (write_routing demo_lib (worker_with_write 5 [7, 0, 2] 1)).2.1 (by decide) (by decide),
   (write_routing demo_lib (worker_with_write 40010 [7] 1)).2.2.1 7 rfl (by decide),
   (write_routing demo_lib (worker_with_write 40010 [7, 0] 1)).2.2.2.1 (by decide)
     (by decide)⟩

/-! ### A declined metadata sequence with read demand waiting -/

/-- C24. In a pass on a connected idle scheduler with the write queue empty, a
front metadata sequence that is declined (provider not loaded, or cursor past
its bound, or null requester) and a polling window `k` at the front of the read
queue, exactly that one metadata sequence is removed, whatever is queued
behind it, and the read of `k` is dispatched in the same pass: `k` is popped and
polled, it is the in-flight requester, the action is Read, and `polling_complete`
follows when no read demand is left. -/
theorem declined_metadata_falls_to_read (env : Env) (s : Scheduler) (t : ModbusThread)
    (cur : WindowMetadataRequest) (rest : List WindowMetadataRequest) (k : Nat)
    (more : List (Option Nat)) (d : RegisterDisplay)
    (hconn : s.m_polling_thread = some t) (hidle : s.m_active = false)
    (hw : s.m_write_requests = []) (hm : s.m_meta_requests = cur :: rest)
    (hdecl : ¬ (env.loaded = true ∧ cur.current_register ≤ cur.last_register ∧
      cur.requester ≠ none))
    (hr : s.m_standard_requests = some k :: more) (hd : env.dialog k = some d) :
    figure_next env s =
      { state := { s with
          m_active := true,
          m_current_request := some k,
          m_meta_requests := rest,
          m_standard_requests := more,
          m_polling_thread := some (t.modbus_request_read d.m_starting_register d.m_count
            (d.m_node_select % 256).toNat),
          m_current_action := PollAction.POLLING_READ },
        effects :=
          [Effect.poll_register_set k,
           Effect.modbus_request (Request.read d.m_starting_register d.m_count
             (d.m_node_select % 256).toNat)] ++
          (if more = [] then [Effect.polling_complete] else []),
        fault := none } := by
  have hp : ∀ s1 : Scheduler, s1.m_meta_requests = cur :: rest →
      poll_meta_request env s1 =
        ({ state := { s1 with m_meta_requests := rest }, effects := [], fault := none },
         false) := by
    intro s1 h1
    simp only [poll_meta_request, h1]
    rw [if_neg hdecl]
  simp [figure_next, figure_next_loop, select_action, hconn, hidle, hw, hm, hr, hp,
    poll_read_request, hd]

/-- Witness of C24: the front sequence of `demo_declined` has its cursor past its
bound, another sequence is queued behind it, and window 1 has two read
demands. -/
theorem declined_metadata_falls_to_read_witness :
    demo_declined.m_active = false ∧
    (figure_next demo_env demo_declined).state.m_current_action = PollAction.POLLING_READ ∧
    (figure_next demo_env demo_declined).state.m_meta_requests =
      [{ current_register := 30001, last_register := 30001, node := 4,
         requester := some 3, request := none }] ∧
    (figure_next demo_env demo_declined).effects =
      [Effect.poll_register_set 1, Effect.modbus_request (Request.read 40001 4 3)] := by
  have h := declined_metadata_falls_to_read demo_env demo_declined demo_thread
    { current_register := 40003, last_register := 40002, node := 3, requester := some 1,
      request := none }
    [{ current_register := 30001, last_register := 30001, node := 4, requester := some 3,
       request := none }] 1 [some 1]
    { m_starting_register := 40001, m_count := 4, m_node_select := 3 }
    rfl rfl rfl rfl (by decide) rfl rfl
  rw [h]
  exact ⟨rfl, rfl, rfl, rfl⟩

/-! ### Termination of the arbitration pass -/

theorem poll_write_request_metas (s : Scheduler) :
    (poll_write_request s).fault ≠ some Fault.out_of_fuel ∧
    (poll_write_request s).state.m_meta_requests = s.m_meta_requests := by
  unfold poll_write_request
  split <;> simp

theorem poll_read_request_metas (env : Env) (s : Scheduler) :
    (poll_read_request env s).1.fault ≠ some Fault.out_of_fuel ∧
    (poll_read_request env s).1.state.m_meta_requests = s.m_meta_requests := by
  unfold poll_read_request
  split
  · simp
  · dsimp only
    split
    · simp
    · split <;> simp

theorem poll_devid_request_metas (s : Scheduler) :
    (poll_devid_request s).fault ≠ some Fault.out_of_fuel ∧
    (poll_devid_request s).state.m_meta_requests = s.m_meta_requests := by
  unfold poll_devid_request
  split <;> simp

theorem poll_meta_request_metas (env : Env) (s : Scheduler) :
    (poll_meta_request env s).1.fault ≠ some Fault.out_of_fuel ∧
    (poll_meta_request env s).1.state.m_meta_requests.length ≤ s.m_meta_requests.length ∧
    ((poll_meta_request env s).1.fault = none → (poll_meta_request env s).2 = false →
      (poll_meta_request env s).1.state.m_meta_requests.length + 1 =
        s.m_meta_requests.length) := by
  unfold poll_meta_request
  split
  · simp
  · rename_i cur rest hm
    split
    · split
      · simp [hm]
      · dsimp only
        split <;> simp [hm]
    · simp [hm]

theorem figure_next_loop_iterations (env : Env) (fuel : Nat) :
    ∀ (s : Scheduler) (na : PollAction) (epc : Bool), s.m_meta_requests.length < fuel →
      (figure_next_loop env fuel s na epc).out.fault ≠ some Fault.out_of_fuel ∧
      1 ≤ (figure_next_loop env fuel s na epc).iterations ∧
      (figure_next_loop env fuel s na epc).out.state.m_meta_requests.length +
        (figure_next_loop env fuel s na epc).iterations ≤ s.m_meta_requests.length + 1 := by
  induction fuel with
  | zero => intro s na epc h; exact absurd h (Nat.not_lt_zero _)
  | succ fuel ih =>
    intro s na epc hlen
    unfold figure_next_loop
    split
    · have h := poll_write_request_metas s
      exact ⟨h.1, le_refl _, by rw [h.2]⟩
    · have hm := poll_meta_request_metas env s
      dsimp only
      split
      · refine ⟨hm.1, le_refl _, ?_⟩
        dsimp only
        omega
      · rename_i hno
        simp only [not_or, not_not] at hno
        have hfalse : (poll_meta_request env s).2 = false := by simpa using hno.2
        have hpop := hm.2.2 hno.1 hfalse
        split
        · have hr := poll_read_request_metas env (poll_meta_request env s).1.state
          refine ⟨hr.1, le_refl _, ?_⟩
          dsimp only
          rw [hr.2]
          omega
        · have hi := ih (poll_meta_request env s).1.state PollAction.POLLING_METADATA epc
            (by omega)
          refine ⟨hi.1, ?_, ?_⟩
          · dsimp only
            omega
          · dsimp only
            omega
    · have h := poll_read_request_metas env s
      exact ⟨h.1, le_refl _, by rw [h.2]⟩
    · have h := poll_devid_request_metas s
      exact ⟨h.1, le_refl _, by rw [h.2]⟩
    · exact ⟨by simp, le_refl _, le_refl _⟩

theorem figure_next_loop_all_declined (env : Env) (metas : List WindowMetadataRequest) :
    ∀ (s : Scheduler) (na : PollAction) (epc : Bool) (fuel : Nat),
      s.m_meta_requests = metas → (∀ m ∈ metas, declined env m) →
      s.m_write_requests = [] → s.m_standard_requests = [] → metas.length < fuel →
      figure_next_loop env fuel s na epc =
        { out := { state := { s with m_meta_requests := [], m_active := false },
                   effects := [], fault := none },
          next_action := PollAction.POLLING_INACTIVE, emit_poll_complete := epc,
          iterations := metas.length + 1 } := by
  induction metas with
  | nil =>
    intro s na epc fuel hm _ hw hr hf
    cases fuel with
    | zero => exact absurd hf (Nat.not_lt_zero _)
    | succ fuel =>
      simp [figure_next_loop, select_action, hm, hw, hr]
  | cons cur rest ih =>
    intro s na epc fuel hm hd hw hr hf
    cases fuel with
    | zero => exact absurd hf (Nat.not_lt_zero _)
    | succ fuel =>
      have hp : poll_meta_request env s =
          ({ state := { s with m_meta_requests := rest }, effects := [], fault := none },
           false) := by
        simp only [poll_meta_request, hm]
        rw [if_neg (hd cur (List.mem_cons_self _ _))]
      have hi := ih { s with m_meta_requests := rest } PollAction.POLLING_METADATA epc fuel
        rfl (fun m hmem => hd m (List.mem_cons_of_mem _ hmem)) hw hr
        (by simpa using hf)
      have hsel : select_action na s = PollAction.POLLING_METADATA := by
        simp [select_action, hm, hw]
      rw [figure_next_loop]
      simp only [hsel, hp]
      simp only [hi]
      simp [hr]

/-- C26. The pass `figure_next` terminates: one more turn of its loop than there
are metadata sequences queued always suffices, so the loop body runs at most
that many times; the queue is shorter at the end by at least the number of
repeated turns, each of which discarded one sequence. When the write and read
queues are empty and every queued sequence is declined, a pass on a connected
idle scheduler discards them all in `length + 1` turns and ends with the engine
not active, the action Inactive, the in-flight requester null, no effect at
all and no fault. -/
theorem figure_next_terminates (env : Env) (s : Scheduler) :
    (figure_next env s).fault ≠ some Fault.out_of_fuel ∧
    figure_next_iterations env s ≤ s.m_meta_requests.length + 1 ∧
    (figure_next env s).state.m_meta_requests.length + figure_next_iterations env s ≤
      s.m_meta_requests.length + 1 ∧
    (s.m_active = false → s.m_polling_thread ≠ none → s.m_write_requests = [] →
      s.m_standard_requests = [] → (∀ m ∈ s.m_meta_requests, declined env m) →
      figure_next env s =
        { state := { s with m_meta_requests := [], m_active := false,
                            m_current_request := none,
                            m_current_action := PollAction.POLLING_INACTIVE },
          effects := [], fault := none } ∧
      figure_next_iterations env s = s.m_meta_requests.length + 1) := by
  have hmain : (figure_next env s).fault ≠ some Fault.out_of_fuel ∧
      (figure_next env s).state.m_meta_requests.length + figure_next_iterations env s ≤
        s.m_meta_requests.length + 1 := by
    unfold figure_next figure_next_iterations
    by_cases hc : s.m_active = true ∨ s.m_polling_thread = none
    · simp only [hc, if_true]
      exact ⟨by simp, by omega⟩
    · simp only [hc, if_false]
      have hl := figure_next_loop_iterations env (s.m_meta_requests.length + 1)
        { s with m_active := true, m_current_request := none } PollAction.POLLING_READ false
        (Nat.lt_succ_self _)
      revert hl
      generalize figure_next_loop env (s.m_meta_requests.length + 1)
        { s with m_active := true, m_current_request := none }
        PollAction.POLLING_READ false = l
      intro hl
      cases hf : l.out.fault with
      | some f =>
        refine ⟨?_, hl.2.2⟩
        intro e
        apply hl.1
        rw [hf]
        exact e
      | none => exact ⟨by simp, hl.2.2⟩
  refine ⟨hmain.1, by omega, hmain.2, ?_⟩
  intro hidle hconn hw hr hd
  have hc : ¬ (s.m_active = true ∨ s.m_polling_thread = none) := by
    simp [hidle, hconn]
  have hl := figure_next_loop_all_declined env s.m_meta_requests
    { s with m_active := true, m_current_request := none } PollAction.POLLING_READ false
    (s.m_meta_requests.length + 1) rfl hd hw hr (Nat.lt_succ_self _)
  constructor
  · unfold figure_next
    rw [if_neg hc]
    dsimp only
    rw [hl]
    simp
  · unfold figure_next_iterations
    rw [if_neg hc, hl]

/-- Witness of C26: three metadata sequences, none of which can be stepped, and
nothing else queued. -/
theorem figure_next_terminates_witness :
    demo_all_declined.m_active = false ∧
    figure_next_iterations demo_env demo_all_declined = 4 ∧
    (figure_next demo_env demo_all_declined).effects = [] ∧
    (figure_next demo_env demo_all_declined).state.m_current_action =
      PollAction.POLLING_INACTIVE ∧
    (figure_next demo_env demo_all_declined).state.m_current_request = none ∧
    (figure_next demo_env demo_all_declined).state.m_active = false :=
  have h := (figure_next_terminates demo_env demo_all_declined).2.2.2 rfl (by decide) rfl rfl
    (by simp [demo_all_declined, declined])
  ⟨rfl, h.2, by rw [h.1], by rw [h.1], by rw [h.1], by rw [h.1]⟩

/-! ### State invariant -/

theorem poll_write_request_thread (s : Scheduler) (h : s.m_polling_thread ≠ none) :
    (poll_write_request s).state.m_polling_thread ≠ none := by
  unfold poll_write_request
  split
  · simp
  · exact h

theorem poll_meta_request_thread (env : Env) (s : Scheduler) (h : s.m_polling_thread ≠ none) :
    (poll_meta_request env s).1.state.m_polling_thread ≠ none ∧
    ((poll_meta_request env s).1.fault = none → (poll_meta_request env s).2 = false →
      (poll_meta_request env s).1.state.m_current_request = s.m_current_request) := by
  unfold poll_meta_request
  split
  · exact ⟨h, fun _ _ => rfl⟩
  · split
    · split
      · exact ⟨h, fun _ _ => rfl⟩
      · dsimp only
        split
        · exact ⟨h, fun hf => by simp at hf⟩
        · exact ⟨by simp, fun _ hb => by simp at hb⟩
    · exact ⟨h, fun _ _ => rfl⟩

theorem poll_read_request_thread (env : Env) (s : Scheduler) (h : s.m_polling_thread ≠ none) :
    (poll_read_request env s).1.state.m_polling_thread ≠ none := by
  unfold poll_read_request
  split
  · exact h
  · dsimp only
    split
    · exact h
    · split
      · simp
      · exact h
      · exact h

theorem poll_devid_request_thread (s : Scheduler) (h : s.m_polling_thread ≠ none) :
    (poll_devid_request s).state.m_polling_thread ≠ none := by
  unfold poll_devid_request
  split
  · simp
  · exact h

theorem figure_next_loop_result (env : Env) (fuel : Nat) :
    ∀ (s : Scheduler) (na : PollAction) (epc : Bool),
      s.m_active = true → s.m_polling_thread ≠ none → s.m_current_request = none →
      na = PollAction.POLLING_READ ∨ na = PollAction.POLLING_METADATA →
      (figure_next_loop env fuel s na epc).out.fault = none →
      (figure_next_loop env fuel s na epc).out.state.m_polling_thread ≠ none ∧
      (((figure_next_loop env fuel s na epc).next_action = PollAction.POLLING_INACTIVE ∧
        (figure_next_loop env fuel s na epc).out.state.m_active = false ∧
        (figure_next_loop env fuel s na epc).out.state.m_current_request = none) ∨
       (((figure_next_loop env fuel s na epc).next_action = PollAction.POLLING_WRITE ∨
         (figure_next_loop env fuel s na epc).next_action = PollAction.POLLING_METADATA ∨
         (figure_next_loop env fuel s na epc).next_action = PollAction.POLLING_READ) ∧
        (figure_next_loop env fuel s na epc).out.state.m_active = true)) := by
  induction fuel with
  | zero => intro s na epc _ _ _ _ hf; simp [figure_next_loop] at hf
  | succ fuel ih =>
    intro s na epc hact hconn hcur hna
    unfold figure_next_loop
    split
    · intro _
      exact ⟨poll_write_request_thread s hconn,
        Or.inr ⟨Or.inl rfl, by rw [(poll_write_request_active s).2]; exact hact⟩⟩
    · have ha := poll_meta_request_active env s
      have ht := poll_meta_request_thread env s hconn
      dsimp only
      split
      · intro _
        exact ⟨ht.1, Or.inr ⟨Or.inr (Or.inl rfl), by rw [ha.2.1]; exact hact⟩⟩
      · rename_i hno
        simp only [not_or, not_not] at hno
        have hfalse : (poll_meta_request env s).2 = false := by simpa using hno.2
        split
        · intro _
          refine ⟨poll_read_request_thread env _ ht.1, Or.inr ⟨Or.inr (Or.inr rfl), ?_⟩⟩
          dsimp only
          rw [(poll_read_request_active env _).2, ha.2.1]
          exact hact
        · intro hf
          exact ih (poll_meta_request env s).1.state PollAction.POLLING_METADATA epc
            (by rw [ha.2.1]; exact hact) ht.1 (by rw [ht.2 hno.1 hfalse]; exact hcur)
            (Or.inr rfl) hf
    · intro _
      exact ⟨poll_read_request_thread env s hconn,
        Or.inr ⟨Or.inr (Or.inr rfl), by rw [(poll_read_request_active env s).2]; exact hact⟩⟩
    · rename_i hsel
      exfalso
      unfold select_action at hsel
      rcases hna with h | h <;> subst h <;> (split at hsel <;> try split at hsel) <;>
        (try split at hsel) <;> simp at hsel
    · intro _
      exact ⟨hconn, Or.inl ⟨rfl, rfl, hcur⟩⟩

theorem figure_next_pass_result (env : Env) (s : Scheduler)
    (hidle : s.m_active = false) (hconn : s.m_polling_thread ≠ none)
    (hf : (figure_next env s).fault = none) :
    (figure_next env s).state.m_polling_thread ≠ none ∧
    (((figure_next env s).state.m_current_action = PollAction.POLLING_INACTIVE ∧
      (figure_next env s).state.m_active = false ∧
      (figure_next env s).state.m_current_request = none) ∨
     (((figure_next env s).state.m_current_action = PollAction.POLLING_WRITE ∨
       (figure_next env s).state.m_current_action = PollAction.POLLING_METADATA ∨
       (figure_next env s).state.m_current_action = PollAction.POLLING_READ) ∧
      (figure_next env s).state.m_active = true)) := by
  have hc : ¬ (s.m_active = true ∨ s.m_polling_thread = none) := by simp [hidle, hconn]
  unfold figure_next at hf ⊢
  rw [if_neg hc] at hf ⊢
  dsimp only at hf ⊢
  have hl := figure_next_loop_result env (s.m_meta_requests.length + 1)
    { s with m_active := true, m_current_request := none } PollAction.POLLING_READ false
    rfl hconn rfl (Or.inl rfl)
  revert hl hf
  generalize figure_next_loop env (s.m_meta_requests.length + 1)
    { s with m_active := true, m_current_request := none } PollAction.POLLING_READ false = l
  intro hf hl
  cases hlf : l.out.fault with
  | some f => rw [hlf] at hf; simp at hf
  | none =>
    simp only [hlf]
    exact hl hlf

theorem figure_next_consistent (env : Env) (s : Scheduler) (h : consistent s)
    (hf : (figure_next env s).fault = none) : consistent (figure_next env s).state := by
  by_cases hc : s.m_active = true ∨ s.m_polling_thread = none
  · have he : figure_next env s = { state := s, effects := [], fault := none } := by
      unfold figure_next
      rw [if_pos hc]
    rw [he]
    exact h
  · simp only [not_or] at hc
    have hidle : s.m_active = false := by simpa using hc.1
    have hp := figure_next_pass_result env s hidle hc.2 hf
    rcases hp.2 with ⟨ha, hb, hcur⟩ | ⟨ha, hb⟩
    · refine ⟨fun e => ?_, ?_, fun _ => ⟨hb, hcur⟩, fun e => absurd e hp.1⟩
      · rw [hb] at e; cases e
      · rw [ha]; decide
    · refine ⟨fun _ => ⟨hp.1, ha⟩, ?_, fun e => ?_, fun e => absurd e hp.1⟩
      · rcases ha with e | e | e <;> rw [e] <;> decide
      · rcases ha with e2 | e2 | e2 <;> rw [e2] at e <;> cases e

theorem consistent_idle (s s1 : Scheduler) (h : consistent s)
    (ha : s1.m_active = false) (hact : s1.m_current_action = s.m_current_action)
    (hcur : s1.m_current_request = s.m_current_request ∨ s1.m_current_request = none)
    (hq : s1.m_polling_thread = none →
      s1.m_standard_requests = [] ∧ s1.m_write_requests = [] ∧ s1.m_meta_requests = []) :
    consistent s1 := by
  obtain ⟨_, h2, h3, _⟩ := h
  refine ⟨fun e => ?_, by rw [hact]; exact h2, fun e => ⟨ha, ?_⟩, hq⟩
  · rw [ha] at e; cases e
  · rw [hact] at e
    rcases hcur with hc | hc
    · rw [hc]; exact (h3 e).2
    · exact hc

theorem andThen_consistent (o : Outcome) (k : Scheduler → Outcome)
    (ho : o.fault = none → consistent o.state)
    (hk : ∀ s, consistent s → (k s).fault = none → consistent (k s).state)
    (hf : (Outcome.andThen o k).fault = none) :
    consistent (Outcome.andThen o k).state := by
  unfold Outcome.andThen at hf ⊢
  cases hof : o.fault with
  | some f => rw [hof] at hf; simp only [] at hf; rw [hof] at hf; cases hf
  | none =>
    rw [hof] at hf
    exact hk _ (ho hof) hf

theorem poll_response_metadata_fields (env : Env) (s : Scheduler) :
    (poll_response_metadata env s).state.m_current_action = s.m_current_action ∧
    (poll_response_metadata env s).state.m_current_request = s.m_current_request ∧
    (poll_response_metadata env s).state.m_standard_requests = s.m_standard_requests ∧
    (poll_response_metadata env s).state.m_write_requests = s.m_write_requests ∧
    ((poll_response_metadata env s).state.m_polling_thread = none →
      (poll_response_metadata env s).state.m_meta_requests = s.m_meta_requests ∧
      s.m_polling_thread = none) := by
  unfold poll_response_metadata
  split
  · dsimp only
    split
    · simp
    · split
      · simp
      · split <;> simp
  · exact ⟨rfl, rfl, rfl, rfl, fun e => ⟨rfl, e⟩⟩

theorem modbus_on_data_consistent (env : Env) (s : Scheduler) (h : consistent s)
    (hf : (modbus_on_data env s).fault = none) : consistent (modbus_on_data env s).state := by
  unfold modbus_on_data at hf ⊢
  dsimp only at hf ⊢
  split at hf
  · rename_i hnone
    simp only [hnone] at hf ⊢
    exact andThen_consistent _ _
      (fun _ => consistent_idle s _ h rfl rfl (Or.inl rfl) (fun _ => h.2.2.2 hnone))
      (figure_next_consistent env) hf
  · rename_i t ht
    simp only [ht] at hf ⊢
    split at hf
    · rename_i hm
      rw [if_pos hm]
      refine andThen_consistent _ _ (fun _ => ?_) (figure_next_consistent env) hf
      have hp := poll_response_metadata_fields env
        { s with m_modbus_timer := s.m_modbus_timer.stop,
                 m_poll_count := (s.m_poll_count + 1) % 2 ^ 64,
                 m_active := false,
                 m_polling_thread := some t }
      refine consistent_idle s _ h ?_ hp.1 (Or.inl hp.2.1) ?_
      · exact (poll_response_metadata_active env _).2
      · intro e
        have hn := (hp.2.2.2.2 e).2
        cases hn
    · rename_i hm
      rw [if_neg hm]
      split at hf
      · rename_i hr
        rw [if_pos hr]
        exact andThen_consistent _ _
          (fun _ => consistent_idle s _ h rfl rfl (Or.inl rfl) (fun e => by simp at e))
          (figure_next_consistent env) hf
      · rename_i hr
        rw [if_neg hr]
        exact andThen_consistent _ _
          (fun _ => consistent_idle s _ h rfl rfl (Or.inl rfl)
            (fun e => by simp at e))
          (figure_next_consistent env) hf

theorem modbus_on_error_consistent (env : Env) (s : Scheduler) (error_code : Int)
    (h : consistent s) (hf : (modbus_on_error env s error_code).fault = none) :
    consistent (modbus_on_error env s error_code).state := by
  unfold modbus_on_error at hf ⊢
  dsimp only at hf ⊢
  split at hf
  · rename_i hm
    rw [if_pos hm]
    split at hf
    · simp at hf
    · rename_i c rest hq
      refine andThen_consistent _ _ (fun _ => ?_) (figure_next_consistent env) hf
      refine consistent_idle s _ h rfl rfl (Or.inl rfl) ?_
      intro e
      have hempty := (h.2.2.2 e).2.2
      rw [hq] at hempty
      cases hempty
  · rename_i hm
    rw [if_neg hm]
    exact andThen_consistent _ _
      (fun _ => consistent_idle s _ h rfl rfl (Or.inl rfl) (fun e => h.2.2.2 e))
      (figure_next_consistent env) hf

theorem step_consistent (env : Env) (s : Scheduler) (op : Op) (h : consistent s)
    (hf : (step env s op).fault = none) : consistent (step env s op).state := by
  cases op with
  | start_modbus engine timeout =>
    simp only [step, start_modbus] at hf ⊢
    split at hf
    · simp at hf
    · rename_i hn
      rw [if_neg hn]
      exact consistent_idle s _ h rfl rfl (Or.inr rfl) (fun e => by simp at e)
  | stop_modbus =>
    simp only [step, stop_modbus]
    split
    · exact consistent_idle s _ h rfl rfl (Or.inr rfl) (fun _ => ⟨rfl, rfl, rfl⟩)
    · exact h
  | enqueue_request source =>
    simp only [step, enqueue_request] at hf ⊢
    split at hf
    · rename_i hc
      rw [if_pos hc]
      exact figure_next_consistent env _
        ⟨h.1, h.2.1, h.2.2.1, fun e => absurd e hc⟩ hf
    · rename_i hc
      rw [if_neg hc]
      exact h
  | modbus_on_write_request request =>
    simp only [step, modbus_on_write_request] at hf ⊢
    split at hf
    · rename_i hc
      rw [if_pos hc]
      exact figure_next_consistent env _
        ⟨h.1, h.2.1, h.2.2.1, fun e => absurd e hc⟩ hf
    · rename_i hc
      rw [if_neg hc]
      exact h
  | modbus_on_poll_meta request_sequence =>
    simp only [step, modbus_on_poll_meta] at hf ⊢
    split at hf
    · rename_i hc
      rw [if_pos hc]
      exact figure_next_consistent env _
        ⟨h.1, h.2.1, h.2.2.1, fun e => absurd e hc⟩ hf
    · rename_i hc
      rw [if_neg hc]
      exact h
  | remove_reference screen =>
    simp only [step, remove_reference]
    refine ⟨h.1, h.2.1, fun e => ⟨(h.2.2.1 e).1, ?_⟩, fun e => ?_⟩
    · dsimp only
      split
      · rfl
      · exact (h.2.2.1 e).2
    · have hq := h.2.2.2 e
      dsimp only
      rw [hq.1, hq.2.1, hq.2.2]
      exact ⟨rfl, rfl, rfl⟩
  | complete regs =>
    refine modbus_on_data_consistent env _ ?_ hf
    unfold worker_store
    split
    · exact ⟨h.1 |> fun h1 e => ⟨by simp, (h1 e).2⟩, h.2.1, h.2.2.1, fun e => by simp at e⟩
    · exact h
  | modbus_error error_code => exact modbus_on_error_consistent env s error_code h hf
  | timer_expired =>
    simp only [step, modbus_on_timer_expired] at hf ⊢
    split at hf
    · rename_i ha
      rw [if_pos ha]
      exact modbus_on_error_consistent env s 11 h hf
    · rename_i ha
      rw [if_neg ha]
      exact h

theorem run_consistent (env : Env) (ops : List Op) :
    ∀ s, consistent s → (run env s ops).fault = none → consistent (run env s ops).state := by
  induction ops with
  | nil => intro s h _; exact h
  | cons op ops ih =>
    intro s h hf
    unfold run at hf ⊢
    exact andThen_consistent _ _ (step_consistent env s op h) (fun s1 h1 hf1 => ih s1 h1 hf1) hf

/-- C28. State invariant of the scheduler. It holds after the constructor and
is kept by every operation, and so by every list of operations, that returns
normally: whenever the engine is active the scheduler is connected and the
action is Write, Metadata or Read; the action is never the device-id probe;
whenever the action is Inactive the engine is not active and the in-flight
requester is null; and a scheduler that is not connected has empty queues. A
pass that runs (engine idle, scheduler connected) and returns normally ends
either with the action Inactive, the engine not active and a null in-flight
requester, or with the action Write, Metadata or Read and the engine active. -/
theorem scheduler_invariant (env : Env) :
    consistent Scheduler.init ∧
    (∀ s op, consistent s → (step env s op).fault = none →
      consistent (step env s op).state) ∧
    (∀ ops, (run env Scheduler.init ops).fault = none →
      ((run env Scheduler.init ops).state.m_active = true →
        (run env Scheduler.init ops).state.m_polling_thread ≠ none ∧
        ((run env Scheduler.init ops).state.m_current_action = PollAction.POLLING_WRITE ∨
         (run env Scheduler.init ops).state.m_current_action = PollAction.POLLING_METADATA ∨
         (run env Scheduler.init ops).state.m_current_action = PollAction.POLLING_READ)) ∧
      (run env Scheduler.init ops).state.m_current_action ≠ PollAction.POLLING_DEVID ∧
      ((run env Scheduler.init ops).state.m_current_action = PollAction.POLLING_INACTIVE →
        (run env Scheduler.init ops).state.m_active = false ∧
        (run env Scheduler.init ops).state.m_current_request = none)) ∧
    (∀ s, s.m_active = false → s.m_polling_thread ≠ none → (figure_next env s).fault = none →
      ((figure_next env s).state.m_current_action = PollAction.POLLING_INACTIVE ∧
        (figure_next env s).state.m_active = false ∧
        (figure_next env s).state.m_current_request = none) ∨
      (((figure_next env s).state.m_current_action = PollAction.POLLING_WRITE ∨
        (figure_next env s).state.m_current_action = PollAction.POLLING_METADATA ∨
        (figure_next env s).state.m_current_action = PollAction.POLLING_READ) ∧
       (figure_next env s).state.m_active = true)) := by
  have hinit : consistent Scheduler.init := by
    refine ⟨fun e => ?_, by decide, fun _ => ⟨rfl, rfl⟩, fun _ => ⟨rfl, rfl, rfl⟩⟩
    simp [Scheduler.init] at e
  refine ⟨hinit, fun s op h hf => step_consistent env s op h hf, ?_, ?_⟩
  · intro ops hf
    have h := run_consistent env ops Scheduler.init hinit hf
    exact ⟨h.1, h.2.1, h.2.2.1⟩
  · intro s hidle hconn hf
    exact (figure_next_pass_result env s hidle hconn hf).2

/-! ### Emission of `polling_complete` -/

theorem poll_complete_count_append (a b : List Effect) :
    poll_complete_count (a ++ b) = poll_complete_count a + poll_complete_count b := by
  simp [poll_complete_count, List.countP_append]

theorem poll_write_request_reads (s : Scheduler) :
    (poll_write_request s).state.m_standard_requests = s.m_standard_requests ∧
    poll_complete_count (poll_write_request s).effects = 0 := by
  unfold poll_write_request
  split <;> simp [poll_complete_count, is_polling_complete]

theorem poll_devid_request_reads (s : Scheduler) :
    (poll_devid_request s).state.m_standard_requests = s.m_standard_requests ∧
    poll_complete_count (poll_devid_request s).effects = 0 := by
  unfold poll_devid_request
  split <;> simp [poll_complete_count, is_polling_complete]

theorem poll_meta_request_reads (env : Env) (s : Scheduler) :
    (poll_meta_request env s).1.state.m_standard_requests = s.m_standard_requests ∧
    poll_complete_count (poll_meta_request env s).1.effects = 0 := by
  unfold poll_meta_request
  split
  · simp [poll_complete_count]
  · split
    · split
      · simp [poll_complete_count]
      · dsimp only
        split <;> simp [poll_complete_count, is_polling_complete]
    · simp [poll_complete_count]

theorem poll_read_request_reads (env : Env) (s : Scheduler)
    (hf : (poll_read_request env s).1.fault = none) :
    (∃ front, s.m_standard_requests =
      front :: (poll_read_request env s).1.state.m_standard_requests) ∧
    (poll_read_request env s).2 =
      decide ((poll_read_request env s).1.state.m_standard_requests = []) ∧
    poll_complete_count (poll_read_request env s).1.effects = 0 := by
  unfold poll_read_request at hf ⊢
  cases hq : s.m_standard_requests with
  | nil => simp [hq] at hf
  | cons front rest =>
    simp only [hq] at hf ⊢
    cases front with
    | none => simp at hf
    | some k =>
      dsimp only at hf ⊢
      cases hd : env.dialog k with
      | none => simp [hd] at hf
      | some d =>
        cases ht : s.m_polling_thread with
        | none => simp [hd, ht] at hf
        | some t => simp [poll_complete_count, is_polling_complete]

theorem figure_next_loop_reads (env : Env) (fuel : Nat) :
    ∀ (s : Scheduler) (na : PollAction) (epc : Bool),
      (figure_next_loop env fuel s na epc).out.fault = none →
      poll_complete_count (figure_next_loop env fuel s na epc).out.effects = 0 ∧
      (((figure_next_loop env fuel s na epc).out.state.m_standard_requests =
          s.m_standard_requests ∧
        (figure_next_loop env fuel s na epc).emit_poll_complete = epc) ∨
       ((∃ front, s.m_standard_requests =
          front :: (figure_next_loop env fuel s na epc).out.state.m_standard_requests) ∧
        (figure_next_loop env fuel s na epc).emit_poll_complete =
          decide ((figure_next_loop env fuel s na epc).out.state.m_standard_requests = []))) := by
  induction fuel with
  | zero => intro s na epc hf; simp [figure_next_loop] at hf
  | succ fuel ih =>
    intro s na epc
    unfold figure_next_loop
    split
    · intro _
      exact ⟨(poll_write_request_reads s).2, Or.inl ⟨(poll_write_request_reads s).1, rfl⟩⟩
    · have hm := poll_meta_request_reads env s
      dsimp only
      split
      · intro _
        exact ⟨hm.2, Or.inl ⟨hm.1, rfl⟩⟩
      · split
        · intro hf
          have hr := poll_read_request_reads env _ hf
          dsimp only
          refine ⟨?_, Or.inr ⟨?_, hr.2.1⟩⟩
          · rw [poll_complete_count_append, hm.2, hr.2.2]
          · rw [← hm.1]; exact hr.1
        · intro hf
          have h := ih (poll_meta_request env s).1.state PollAction.POLLING_METADATA epc hf
          dsimp only
          refine ⟨?_, ?_⟩
          · rw [poll_complete_count_append, hm.2, h.1]
          · rw [← hm.1]; exact h.2
    · intro hf
      have hr := poll_read_request_reads env s hf
      exact ⟨hr.2.2, Or.inr ⟨hr.1, hr.2.1⟩⟩
    · intro _
      exact ⟨(poll_devid_request_reads s).2, Or.inl ⟨(poll_devid_request_reads s).1, rfl⟩⟩
    · intro _
      exact ⟨rfl, Or.inl ⟨rfl, rfl⟩⟩

theorem figure_next_poll_complete (env : Env) (s : Scheduler)
    (hf : (figure_next env s).fault = none) :
    poll_complete_count (figure_next env s).effects =
      if s.m_standard_requests ≠ [] ∧ (figure_next env s).state.m_standard_requests = []
      then 1 else 0 := by
  by_cases hc : s.m_active = true ∨ s.m_polling_thread = none
  · have he : figure_next env s = { state := s, effects := [], fault := none } := by
      unfold figure_next
      rw [if_pos hc]
    rw [he]
    by_cases h : s.m_standard_requests = [] <;> simp [poll_complete_count, h]
  · unfold figure_next at hf ⊢
    rw [if_neg hc] at hf ⊢
    dsimp only at hf ⊢
    have hl := figure_next_loop_reads env (s.m_meta_requests.length + 1)
      { s with m_active := true, m_current_request := none } PollAction.POLLING_READ false
    revert hl hf
    generalize figure_next_loop env (s.m_meta_requests.length + 1)
      { s with m_active := true, m_current_request := none } PollAction.POLLING_READ false = l
    intro hf hl
    cases hlf : l.out.fault with
    | some f => rw [hlf] at hf; simp at hf
    | none =>
      simp only [hlf]
      obtain ⟨h0, h | h⟩ := hl hlf
      · dsimp only at h
        rw [poll_complete_count_append, h0, h.2, h.1]
        by_cases hq : s.m_standard_requests = [] <;> simp [poll_complete_count, hq]
      · obtain ⟨⟨front, hfr⟩, he⟩ := h
        dsimp only at hfr
        rw [poll_complete_count_append, h0, he, hfr]
        by_cases hq : l.out.state.m_standard_requests = [] <;>
          simp [poll_complete_count, is_polling_complete, hq]

theorem andThen_figure_next_poll_complete (env : Env) (o : Outcome)
    (reads : List (Option Nat)) (hr : o.state.m_standard_requests = reads)
    (h0 : poll_complete_count o.effects = 0)
    (hf : (Outcome.andThen o (figure_next env)).fault = none) :
    poll_complete_count (Outcome.andThen o (figure_next env)).effects =
      if reads ≠ [] ∧ (Outcome.andThen o (figure_next env)).state.m_standard_requests = []
      then 1 else 0 := by
  unfold Outcome.andThen at hf ⊢
  cases hof : o.fault with
  | some f => rw [hof] at hf; simp only [] at hf; rw [hof] at hf; cases hf
  | none =>
    rw [hof] at hf
    dsimp only at hf ⊢
    rw [poll_complete_count_append, h0, Nat.zero_add, ← hr]
    exact figure_next_poll_complete env o.state hf

theorem emit_register_set_poll_complete (node : Nat) (vs : List Nat) :
    ∀ reg, poll_complete_count (emit_register_set node reg vs) = 0 := by
  induction vs with
  | nil => intro reg; simp [emit_register_set, poll_complete_count]
  | cons v vs ih =>
    intro reg
    have h := ih ((reg + 1) % 65536)
    simp only [poll_complete_count] at h
    simp [emit_register_set, poll_complete_count, is_polling_complete, h]

theorem poll_response_metadata_poll_complete (env : Env) (s : Scheduler) :
    poll_complete_count (poll_response_metadata env s).effects = 0 := by
  unfold poll_response_metadata
  split
  · dsimp only
    split
    · simp [poll_complete_count]
    · split
      · simp [poll_complete_count]
      · split <;> simp [poll_complete_count, is_polling_complete]
  · simp [poll_complete_count]

theorem modbus_on_data_poll_complete (env : Env) (s : Scheduler)
    (hf : (modbus_on_data env s).fault = none) :
    poll_complete_count (modbus_on_data env s).effects =
      if s.m_standard_requests ≠ [] ∧ (modbus_on_data env s).state.m_standard_requests = []
      then 1 else 0 := by
  unfold modbus_on_data at hf ⊢
  dsimp only at hf ⊢
  split at hf
  · rename_i hnone
    simp only [hnone] at hf ⊢
    exact andThen_figure_next_poll_complete env _ _ rfl (by simp [poll_complete_count]) hf
  · rename_i t ht
    simp only [ht] at hf ⊢
    split at hf
    · rename_i hm
      rw [if_pos hm]
      have hp := poll_response_metadata_fields env
        { s with m_modbus_timer := s.m_modbus_timer.stop,
                 m_poll_count := (s.m_poll_count + 1) % 2 ^ 64,
                 m_active := false,
                 m_polling_thread := some t }
      refine andThen_figure_next_poll_complete env _ _ hp.2.2.1 ?_ hf
      have h0 := poll_response_metadata_poll_complete env
        { s with m_modbus_timer := s.m_modbus_timer.stop,
                 m_poll_count := (s.m_poll_count + 1) % 2 ^ 64,
                 m_active := false,
                 m_polling_thread := some t }
      refine (poll_complete_count_append [_] _).trans ?_
      rw [h0]
      simp [poll_complete_count, is_polling_complete]
    · rename_i hm
      rw [if_neg hm]
      split at hf
      · rename_i hr
        rw [if_pos hr]
        exact andThen_figure_next_poll_complete env _ _ rfl
          (emit_register_set_poll_complete _ _ _) hf
      · rename_i hr
        rw [if_neg hr]
        exact andThen_figure_next_poll_complete env _ _ rfl
          (by simp [poll_complete_count, is_polling_complete]) hf

theorem modbus_on_error_poll_complete (env : Env) (s : Scheduler) (error_code : Int)
    (hf : (modbus_on_error env s error_code).fault = none) :
    poll_complete_count (modbus_on_error env s error_code).effects =
      if s.m_standard_requests ≠ [] ∧
         (modbus_on_error env s error_code).state.m_standard_requests = []
      then 1 else 0 := by
  unfold modbus_on_error at hf ⊢
  dsimp only at hf ⊢
  split at hf
  · rename_i hm
    rw [if_pos hm]
    split at hf
    · simp at hf
    · rename_i c rest hq
      exact andThen_figure_next_poll_complete env _ _ rfl
        (by simp [poll_complete_count, is_polling_complete]) hf
  · rename_i hm
    rw [if_neg hm]
    exact andThen_figure_next_poll_complete env _ _ rfl
      (by simp [poll_complete_count, is_polling_complete]) hf

theorem step_poll_complete (env : Env) (s : Scheduler) (op : Op)
    (hq : s.m_polling_thread = none → s.m_standard_requests = [])
    (hf : (step env s op).fault = none) :
    poll_complete_count (step env s op).effects =
      if read_queue_entering s op ≠ [] ∧ (step env s op).state.m_standard_requests = []
      then 1 else 0 := by
  cases op with
  | start_modbus engine timeout =>
    simp only [step, start_modbus, read_queue_entering] at hf ⊢
    split at hf
    · simp at hf
    · rename_i hn
      simp only [if_neg hn]
      have hn2 : s.m_polling_thread = none := by simpa using hn
      simp [poll_complete_count, is_polling_complete, hq hn2]
  | stop_modbus =>
    simp only [step, stop_modbus, read_queue_entering]
    split
    · by_cases h : s.m_standard_requests = [] <;>
        simp [poll_complete_count, is_polling_complete, h, List.length_pos]
    · rename_i hn
      have hn2 : s.m_polling_thread = none := by simpa using hn
      simp [poll_complete_count, hq hn2]
  | enqueue_request source =>
    simp only [step, enqueue_request, read_queue_entering] at hf ⊢
    split at hf
    · rename_i hc
      simp only [if_pos hc]
      exact figure_next_poll_complete env _ hf
    · rename_i hc
      simp only [if_neg hc]
      have hn2 : s.m_polling_thread = none := by simpa using hc
      simp [poll_complete_count, hq hn2]
  | modbus_on_write_request request =>
    simp only [step, modbus_on_write_request, read_queue_entering] at hf ⊢
    split at hf
    · rename_i hc
      simp only [if_pos hc]
      exact figure_next_poll_complete env _ hf
    · rename_i hc
      simp only [if_neg hc]
      have hn2 : s.m_polling_thread = none := by simpa using hc
      simp [poll_complete_count, hq hn2]
  | modbus_on_poll_meta request_sequence =>
    simp only [step, modbus_on_poll_meta, read_queue_entering] at hf ⊢
    split at hf
    · rename_i hc
      simp only [if_pos hc]
      exact figure_next_poll_complete env _ hf
    · rename_i hc
      simp only [if_neg hc]
      have hn2 : s.m_polling_thread = none := by simpa using hc
      simp [poll_complete_count, hq hn2]
  | remove_reference screen =>
    simp only [step, remove_reference, read_queue_entering]
    by_cases h : s.m_standard_requests = []
    · simp [poll_complete_count, h]
    · by_cases h2 : s.m_standard_requests.filter (fun i => decide (i ≠ screen)) = []
      · have h3 : ¬ (0 = s.m_standard_requests.length) := by
          intro e; exact h (List.length_eq_zero.mp e.symm)
        simp only [h2, List.length_nil, true_and, ne_eq, h3, not_false_eq_true, if_true, h]
        simp [poll_complete_count, is_polling_complete]
      · have h4 : ¬ ((s.m_standard_requests.filter (fun i => decide (i ≠ screen))).length = 0) := by
          intro e; exact h2 (List.length_eq_zero.mp e)
        simp only [h4, false_and, if_false, h2, and_false]
        simp [poll_complete_count]
  | complete regs =>
    have h := modbus_on_data_poll_complete env (worker_store s regs) hf
    have hw : (worker_store s regs).m_standard_requests = s.m_standard_requests := by
      unfold worker_store
      split <;> rfl
    rw [hw] at h
    exact h
  | modbus_error error_code => exact modbus_on_error_poll_complete env s error_code hf
  | timer_expired =>
    simp only [step, modbus_on_timer_expired, read_queue_entering] at hf ⊢
    split at hf
    · rename_i ha
      simp only [if_pos ha]
      exact modbus_on_error_poll_complete env s 11 hf
    · rename_i ha
      simp only [if_neg ha]
      by_cases h : s.m_standard_requests = [] <;> simp [poll_complete_count, h]

/-- C22. Emission of `polling_complete` by an operation that returns normally,
from a state whose read queue is empty while disconnected (every state
reached from the constructor is such a state, third part). The read queue the
operation works on is the queue it finds, with the new entry appended for
`enqueue_request` on a connected scheduler. If that queue is non-empty and the
operation leaves the read queue empty, `polling_complete` is emitted exactly
once; if the operation leaves the read queue non-empty, or leaves it as it
was, `polling_complete` is not emitted. For the arbitration pass alone (second
part): it emits `polling_complete` once when it found the read queue non-empty
and left it empty, and not at all otherwise. -/
theorem polling_complete_when_reads_run_out (env : Env) :
    (∀ s op, (s.m_polling_thread = none → s.m_standard_requests = []) →
      (step env s op).fault = none →
      (read_queue_entering s op ≠ [] → (step env s op).state.m_standard_requests = [] →
        poll_complete_count (step env s op).effects = 1) ∧
      ((step env s op).state.m_standard_requests ≠ [] →
        poll_complete_count (step env s op).effects = 0) ∧
      ((step env s op).state.m_standard_requests = read_queue_entering s op →
        poll_complete_count (step env s op).effects = 0)) ∧
    (∀ s, (figure_next env s).fault = none →
      poll_complete_count (figure_next env s).effects =
        if s.m_standard_requests ≠ [] ∧ (figure_next env s).state.m_standard_requests = []
        then 1 else 0) ∧
    (∀ ops op, (run env Scheduler.init ops).fault = none →
      (step env (run env Scheduler.init ops).state op).fault = none →
      poll_complete_count (step env (run env Scheduler.init ops).state op).effects =
        if read_queue_entering (run env Scheduler.init ops).state op ≠ [] ∧
           (step env (run env Scheduler.init ops).state op).state.m_standard_requests = []
        then 1 else 0) := by
  have hinit : consistent Scheduler.init := by
    refine ⟨fun e => ?_, by decide, fun _ => ⟨rfl, rfl⟩, fun _ => ⟨rfl, rfl, rfl⟩⟩
    simp [Scheduler.init] at e
  refine ⟨fun s op hq hf => ?_, fun s hf => figure_next_poll_complete env s hf,
    fun ops op hr hf => ?_⟩
  · have h := step_poll_complete env s op hq hf
    refine ⟨fun h1 h2 => ?_, fun h1 => ?_, fun h1 => ?_⟩
    · rw [h, if_pos ⟨h1, h2⟩]
    · rw [h, if_neg (fun c => h1 c.2)]
    · rw [h, if_neg (fun c => c.1 (h1 ▸ c.2))]
  · exact step_poll_complete env _ op
      (fun e => ((run_consistent env ops Scheduler.init hinit hr).2.2.2 e).1) hf

/-- Witness of C22: the read demand of window 1 submitted to a connected idle
scheduler with empty queues is dispatched in the same call, which empties the
read queue and emits `polling_complete` once. -/
theorem polling_complete_when_reads_run_out_witness :
    read_queue_entering demo_connected (Op.enqueue_request (some 1)) = [some 1] ∧
    (step demo_env demo_connected (Op.enqueue_request (some 1))).state.m_standard_requests
      = [] ∧
    poll_complete_count (step demo_env demo_connected (Op.enqueue_request (some 1))).effects
      = 1 :=
  ⟨by decide, by decide,
   ((polling_complete_when_reads_run_out demo_env).1 demo_connected
      (Op.enqueue_request (some 1)) (by decide) (by decide)).1 (by decide) (by decide)⟩

/-- Witness of C28: the state after connecting satisfies the invariant, and so
does the state after the scenario of a connect, one read demand and its
completion. -/
theorem scheduler_invariant_witness :
    consistent (step demo_env Scheduler.init (Op.start_modbus demo_thread 100)).state ∧
    (run demo_env Scheduler.init (read_scenario demo_thread 100 1)).state.m_current_action ≠
      PollAction.POLLING_DEVID :=
  ⟨(scheduler_invariant demo_env).2.1 Scheduler.init (Op.start_modbus demo_thread 100)
     (scheduler_invariant demo_env).1 (by decide),
   ((scheduler_invariant demo_env).2.2.1 (read_scenario demo_thread 100 1) (by decide)).2.1⟩

/-! ### Read demand is served first-in first-out -/

theorem polled_append (a b : List Effect) : polled (a ++ b) = polled a ++ polled b := by
  simp [polled, List.filterMap_append]

theorem polled_emit_register_set (node : Nat) (vs : List Nat) :
    ∀ reg, polled (emit_register_set node reg vs) = [] := by
  induction vs with
  | nil => intro reg; simp [emit_register_set, polled]
  | cons v vs ih =>
    intro reg
    have h := ih ((reg + 1) % 65536)
    simp only [polled] at h
    simp [emit_register_set, polled, h]

theorem figure_next_read_front (env : Env) (s : Scheduler) (t : ModbusThread) (k : Nat)
    (more : List (Option Nat)) (d : RegisterDisplay)
    (hconn : s.m_polling_thread = some t) (hidle : s.m_active = false)
    (hw : s.m_write_requests = []) (hm : s.m_meta_requests = [])
    (hr : s.m_standard_requests = some k :: more) (hd : env.dialog k = some d) :
    figure_next env s =
      { state := { s with
          m_active := true,
          m_current_request := some k,
          m_standard_requests := more,
          m_polling_thread := some (t.modbus_request_read d.m_starting_register d.m_count
            (d.m_node_select % 256).toNat),
          m_current_action := PollAction.POLLING_READ },
        effects :=
          [Effect.poll_register_set k,
           Effect.modbus_request (Request.read d.m_starting_register d.m_count
             (d.m_node_select % 256).toNat)] ++
          (if more = [] then [Effect.polling_complete] else []),
        fault := none } := by
  simp [figure_next, figure_next_loop, select_action, hconn, hidle, hw, hm, hr,
    poll_read_request, hd]

theorem andThen_figure_next_read_front (env : Env) (o : Outcome) (r : Nat) (q : List Nat)
    (d : RegisterDisplay) (hof : o.fault = none) (hp : polled o.effects = [])
    (hidle : o.state.m_active = false) (hconn : o.state.m_polling_thread ≠ none)
    (hw : o.state.m_write_requests = []) (hm : o.state.m_meta_requests = [])
    (hr : o.state.m_standard_requests = (r :: q).map some) (hd : env.dialog r = some d) :
    (Outcome.andThen o (figure_next env)).fault = none ∧
    polled (Outcome.andThen o (figure_next env)).effects = [r] ∧
    (Outcome.andThen o (figure_next env)).state.m_current_request = some r ∧
    reading q (Outcome.andThen o (figure_next env)).state := by
  cases ht : o.state.m_polling_thread with
  | none => exact absurd ht hconn
  | some t =>
    have h := figure_next_read_front env o.state t r (q.map some) d ht hidle hw hm
      (by rw [hr]; rfl) hd
    unfold Outcome.andThen
    rw [hof]
    dsimp only
    rw [h]
    refine ⟨rfl, ?_, rfl, rfl, by simp, hw, hm, by simp, rfl⟩
    dsimp only
    rw [polled_append, hp]
    by_cases hq : q.map some = [] <;> simp [polled, hq]

theorem modbus_on_data_read_front (env : Env) (s : Scheduler) (r : Nat) (q : List Nat)
    (d : RegisterDisplay) (h : reading (r :: q) s) (hd : env.dialog r = some d) :
    (modbus_on_data env s).fault = none ∧
    polled (modbus_on_data env s).effects = [r] ∧
    (modbus_on_data env s).state.m_current_request = some r ∧
    reading q (modbus_on_data env s).state := by
  obtain ⟨_, hc, hw, hm, hact, hr⟩ := h
  unfold modbus_on_data
  dsimp only
  split
  · rename_i hnone
    exact absurd hnone hc
  · rename_i t ht
    rw [if_neg hact]
    split
    · exact andThen_figure_next_read_front env _ r q d rfl (polled_emit_register_set _ _ _)
        rfl (by simp) hw hm hr hd
    · exact andThen_figure_next_read_front env _ r q d rfl rfl
        rfl hc hw hm hr hd

theorem modbus_on_error_read_front (env : Env) (s : Scheduler) (error_code : Int) (r : Nat)
    (q : List Nat) (d : RegisterDisplay) (h : reading (r :: q) s)
    (hd : env.dialog r = some d) :
    (modbus_on_error env s error_code).fault = none ∧
    polled (modbus_on_error env s error_code).effects = [r] ∧
    (modbus_on_error env s error_code).state.m_current_request = some r ∧
    reading q (modbus_on_error env s error_code).state := by
  obtain ⟨_, hc, hw, hm, hact, hr⟩ := h
  unfold modbus_on_error
  dsimp only
  rw [if_neg hact]
  exact andThen_figure_next_read_front env _ r q d rfl rfl rfl hc hw hm hr hd

theorem worker_store_reading (s : Scheduler) (regs : List Nat) (q : List Nat)
    (h : reading q s) : reading q (worker_store s regs) := by
  unfold worker_store
  split
  · exact ⟨h.1, by simp, h.2.2.1, h.2.2.2.1, h.2.2.2.2.1, h.2.2.2.2.2⟩
  · exact h

theorem signal_read_front (env : Env) (s : Scheduler) (op : Op) (r : Nat) (q : List Nat)
    (d : RegisterDisplay) (h : reading (r :: q) s) (hd : env.dialog r = some d)
    (hop : is_worker_signal op = true) :
    (step env s op).fault = none ∧
    polled (step env s op).effects = [r] ∧
    (step env s op).state.m_current_request = some r ∧
    reading q (step env s op).state := by
  cases op with
  | complete regs =>
    exact modbus_on_data_read_front env _ r q d (worker_store_reading s regs _ h) hd
  | modbus_error error_code => exact modbus_on_error_read_front env s error_code r q d h hd
  | start_modbus engine timeout => simp [is_worker_signal] at hop
  | stop_modbus => simp [is_worker_signal] at hop
  | enqueue_request source => simp [is_worker_signal] at hop
  | modbus_on_write_request request => simp [is_worker_signal] at hop
  | modbus_on_poll_meta request_sequence => simp [is_worker_signal] at hop
  | remove_reference screen => simp [is_worker_signal] at hop
  | timer_expired => simp [is_worker_signal] at hop

theorem enqueue_while_reading (env : Env) (s : Scheduler) (r : Nat) (q : List Nat)
    (h : reading q s) :
    (step env s (Op.enqueue_request (some r))).fault = none ∧
    (step env s (Op.enqueue_request (some r))).effects = [] ∧
    reading (q ++ [r]) (step env s (Op.enqueue_request (some r))).state := by
  obtain ⟨ha, hc, hw, hm, hact, hr⟩ := h
  simp only [step, enqueue_request]
  rw [if_pos hc]
  have he : figure_next env { s with m_standard_requests := s.m_standard_requests ++ [some r] } =
      { state := { s with m_standard_requests := s.m_standard_requests ++ [some r] },
        effects := [], fault := none } := by
    unfold figure_next
    rw [if_pos (Or.inl ha)]
  rw [he]
  exact ⟨rfl, rfl, ha, hc, hw, hm, hact, by simp [hr]⟩

theorem signals_dispatch_in_order (env : Env) :
    ∀ (sigs : List Op) (q : List Nat) (s : Scheduler), reading q s →
      (∀ r ∈ q, env.dialog r ≠ none) → (∀ op ∈ sigs, is_worker_signal op = true) →
      sigs.length ≤ q.length →
      (run env s sigs).fault = none ∧
      polled (run env s sigs).effects = q.take sigs.length ∧
      reading (q.drop sigs.length) (run env s sigs).state := by
  intro sigs
  induction sigs with
  | nil =>
    intro q s h _ _ _
    exact ⟨rfl, by simp [run, polled], by simpa [run] using h⟩
  | cons op sigs ih =>
    intro q s h hwin hsig hlen
    cases q with
    | nil => simp at hlen
    | cons r q =>
      cases hd : env.dialog r with
      | none => exact absurd hd (hwin r (by simp))
      | some d =>
        have hb := signal_read_front env s op r q d h hd (hsig op (by simp))
        have hc := run_cons_of_no_fault env s op sigs hb.1
        have hi := ih q (step env s op).state hb.2.2.2
          (fun x hx => hwin x (List.mem_cons_of_mem _ hx))
          (fun x hx => hsig x (List.mem_cons_of_mem _ hx))
          (by simpa using hlen)
        refine ⟨by rw [hc.1]; exact hi.1, ?_, ?_⟩
        · rw [hc.2.2, polled_append, hb.2.1, hi.2.1]
          simp
        · rw [hc.2.1]
          simpa using hi.2.2

theorem enqueues_then_signals (env : Env) (sigs : List Op)
    (hsig : ∀ op ∈ sigs, is_worker_signal op = true) :
    ∀ (rs q : List Nat) (s : Scheduler), reading q s →
      (∀ r ∈ q ++ rs, env.dialog r ≠ none) → sigs.length ≤ (q ++ rs).length →
      (run env s (enqueue_all rs ++ sigs)).fault = none ∧
      polled (run env s (enqueue_all rs ++ sigs)).effects = (q ++ rs).take sigs.length ∧
      reading ((q ++ rs).drop sigs.length) (run env s (enqueue_all rs ++ sigs)).state := by
  intro rs
  induction rs with
  | nil =>
    intro q s h hwin hlen
    simp only [enqueue_all, List.map_nil, List.nil_append, List.append_nil] at hwin hlen ⊢
    exact signals_dispatch_in_order env sigs q s h hwin hsig hlen
  | cons r rs ih =>
    intro q s h hwin hlen
    have he := enqueue_while_reading env s r q h
    have hc := run_cons_of_no_fault env s (Op.enqueue_request (some r))
      (enqueue_all rs ++ sigs) he.1
    have hi := ih (q ++ [r]) (step env s (Op.enqueue_request (some r))).state he.2.2
      (by simpa using hwin) (by simpa using hlen)
    have hl : q ++ [r] ++ rs = q ++ r :: rs := by simp
    rw [hl] at hi
    have hrun : enqueue_all (r :: rs) ++ sigs =
        Op.enqueue_request (some r) :: (enqueue_all rs ++ sigs) := rfl
    rw [hrun]
    refine ⟨by rw [hc.1]; exact hi.1, ?_, ?_⟩
    · rw [hc.2.2, he.2.1]
      exact hi.2.1
    · rw [hc.2.1]
      exact hi.2.2

theorem enqueues_while_reading (env : Env) :
    ∀ (rs q : List Nat) (s : Scheduler), reading q s →
      (run env s (enqueue_all rs)).fault = none ∧
      (run env s (enqueue_all rs)).effects = [] ∧
      reading (q ++ rs) (run env s (enqueue_all rs)).state := by
  intro rs
  induction rs with
  | nil =>
    intro q s h
    exact ⟨rfl, rfl, by simpa [enqueue_all, run] using h⟩
  | cons r rs ih =>
    intro q s h
    have he := enqueue_while_reading env s r q h
    have hc := run_cons_of_no_fault env s (Op.enqueue_request (some r)) (enqueue_all rs) he.1
    have hi := ih (q ++ [r]) (step env s (Op.enqueue_request (some r))).state he.2.2
    have hl : q ++ [r] ++ rs = q ++ r :: rs := by simp
    rw [hl] at hi
    have hrun : enqueue_all (r :: rs) =
        Op.enqueue_request (some r) :: enqueue_all rs := rfl
    rw [hrun]
    refine ⟨by rw [hc.1]; exact hi.1, ?_, ?_⟩
    · rw [hc.2.2, he.2.1, hi.2.1]
      rfl
    · rw [hc.2.1]
      exact hi.2.2

/-- C23. A transaction that is not a metadata step is in flight on a connected
scheduler with no write and no metadata sequence queued, and the read queue
holds the polling windows `q`. The windows `rs` (repetitions allowed) are then
enqueued with `enqueue_request`, and after that `j` worker signals (completions
or errors) arrive, `j` at most the number of entries queued. Then nothing is
thrown, the enqueues dispatch nothing, and the `j` passes after the signals call
`poll_register_set` on the first `j` entries of `q ++ rs` in that order, one per
pass, leaving the other entries in the read queue in their order; with `q`
empty and `j` the length of `rs`, the calls are on `r1, ..., rk` in that order
and the read queue ends empty. -/
theorem read_demand_fifo (env : Env) (s : Scheduler) (q rs : List Nat) (sigs : List Op)
    (hs : reading q s) (hwin : ∀ r ∈ q ++ rs, env.dialog r ≠ none)
    (hsig : ∀ op ∈ sigs, is_worker_signal op = true)
    (hlen : sigs.length ≤ (q ++ rs).length) :
    (run env s (enqueue_all rs)).effects = [] ∧
    (run env s (enqueue_all rs)).state.m_standard_requests = (q ++ rs).map some ∧
    (run env s (enqueue_all rs ++ sigs)).fault = none ∧
    polled (run env s (enqueue_all rs ++ sigs)).effects = (q ++ rs).take sigs.length ∧
    (run env s (enqueue_all rs ++ sigs)).state.m_standard_requests =
      ((q ++ rs).drop sigs.length).map some ∧
    (q = [] → sigs.length = rs.length →
      polled (run env s (enqueue_all rs ++ sigs)).effects = rs ∧
      (run env s (enqueue_all rs ++ sigs)).state.m_standard_requests = []) := by
  have h0 := enqueues_while_reading env rs q s hs
  have h := enqueues_then_signals env sigs hsig rs q s hs hwin hlen
  refine ⟨h0.2.1, h0.2.2.2.2.2.2.2, h.1, h.2.1, h.2.2.2.2.2.2.2, ?_⟩
  · intro hq hl
    subst hq
    rw [h.2.1, h.2.2.2.2.2.2.2, hl]
    simp

/-- Witness of C23: while the read of `demo_read_done` is in flight window 1 is
enqueued twice; the completion and the error that follow each dispatch one
read of window 1. -/
theorem read_demand_fifo_witness :
    reading [] demo_read_done ∧
    polled (run demo_env demo_read_done
      (enqueue_all [1, 1] ++ [Op.complete [10, 20, 30, 40], Op.modbus_error 2])).effects =
      [1, 1] ∧
    (run demo_env demo_read_done
      (enqueue_all [1, 1] ++ [Op.complete [10, 20, 30, 40], Op.modbus_error 2])).state.m_standard_requests =
      [] :=
  have hs : reading [] demo_read_done := ⟨rfl, by decide, rfl, rfl, by decide, rfl⟩
  ⟨hs, (read_demand_fifo demo_env demo_read_done [] [1, 1]
    [Op.complete [10, 20, 30, 40], Op.modbus_error 2] hs (by simp [demo_env])
    (by simp [is_worker_signal]) (by decide)).2.2.2.2.2 rfl rfl⟩

/-! ### The CSV import loses, duplicates and reorders nothing -/

theorem expand_from_append (node : Nat) (vs : List Nat) (v : Nat) :
    ∀ reg, expand_from node reg (vs ++ [v]) =
      expand_from node reg vs ++ [(reg + vs.length, v, node)] := by
  induction vs with
  | nil => intro reg; simp [expand_from]
  | cons x vs ih =>
    intro reg
    have h := ih (reg + 1)
    have e : reg + 1 + vs.length = reg + (vs.length + 1) := by omega
    rw [e] at h
    show (reg, x, node) :: expand_from node (reg + 1) (vs ++ [v]) = _
    rw [h]
    rfl

theorem expand_all_append (a b : List WriteRequest) :
    expand_all (a ++ b) = expand_all a ++ expand_all b := by
  induction a with
  | nil => rfl
  | cons x a ih => simp [expand_all, ih]

theorem append_write_expand (wr : WriteRequest) (reg value node : Nat)
    (h : within_code_cap wr) :
    expand_all (submitted_writes (append_write wr reg value node).2) ++
      (append_write wr reg value node).1.expand = wr.expand ++ [(reg, value, node)] := by
  unfold append_write
  by_cases hlen : wr.values.length > 0
  · have hne : wr.values ≠ [] := fun e => by rw [e] at hlen; exact absurd hlen (by decide)
    rcases h with h | ⟨hfirst, hcap⟩
    · exact absurd h hne
    · simp only [hlen, if_true]
      by_cases hflush : reg ≠ (wr.first_register + wr.values.length) % 65536 ∨
          node ≠ wr.node ∨ wr.values.length ≥ (if reg < 10000 then 2000 else 127)
      · simp only [hflush, if_true]
        simp [submitted_writes, expand_all, WriteRequest.expand, WriteRequest.empty,
          expand_from]
      · simp only [hflush, if_false]
        simp only [not_or, not_not, ge_iff_le, not_le] at hflush
        obtain ⟨hnext, hnode, _⟩ := hflush
        have hsum : wr.first_register + wr.values.length < 65536 := by
          unfold code_cap at hcap
          split at hcap <;> omega
        rw [Nat.mod_eq_of_lt hsum] at hnext
        simp only [submitted_writes, expand_all, List.nil_append, WriteRequest.expand]
        rw [expand_from_append, hnext, hnode]
  · simp only [hlen, if_false]
    have hnil : wr.values = [] := by
      cases hv : wr.values with
      | nil => rfl
      | cons a l => rw [hv] at hlen; simp at hlen
    simp [submitted_writes, expand_all, WriteRequest.expand, hnil, expand_from]

theorem load_csv_rows_expand (node_index fixed_node : Int) (rows : List CsvRow) :
    ∀ writes, within_code_cap writes →
      expand_all (submitted_writes (load_csv_rows node_index fixed_node writes rows).2) ++
        (load_csv_rows node_index fixed_node writes rows).1.expand =
      writes.expand ++ (rows.filter writable).map (row_triple node_index fixed_node) := by
  induction rows with
  | nil =>
    intro writes _
    simp [load_csv_rows, submitted_writes, expand_all]
  | cons row rows ih =>
    intro writes h
    unfold load_csv_rows
    dsimp only
    split
    · rename_i hw
      have hwr : writable row = true := by simpa [writable] using hw
      have hc := append_write_within_cap writes (to_quint16 row.regnum) (to_quint16 row.value)
        (to_quint8 (if node_index < 0 then fixed_node else row.node))
        (writable_to_quint16 row.regnum hw) h
      have ha := append_write_expand writes (to_quint16 row.regnum) (to_quint16 row.value)
        (to_quint8 (if node_index < 0 then fixed_node else row.node)) h
      have hi := ih _ hc.1
      have hs : submitted_writes
          (CsvEffect.new_register_data (to_quint16 row.regnum) (to_quint16 row.value)
              (to_quint8 (if node_index < 0 then fixed_node else row.node)) ::
            (append_write writes (to_quint16 row.regnum) (to_quint16 row.value)
              (to_quint8 (if node_index < 0 then fixed_node else row.node))).2 ++
            (load_csv_rows node_index fixed_node
              (append_write writes (to_quint16 row.regnum) (to_quint16 row.value)
                (to_quint8 (if node_index < 0 then fixed_node else row.node))).1 rows).2) =
          submitted_writes
            (append_write writes (to_quint16 row.regnum) (to_quint16 row.value)
              (to_quint8 (if node_index < 0 then fixed_node else row.node))).2 ++
          submitted_writes
            (load_csv_rows node_index fixed_node
              (append_write writes (to_quint16 row.regnum) (to_quint16 row.value)
                (to_quint8 (if node_index < 0 then fixed_node else row.node))).1 rows).2 :=
        submitted_writes_append _ _
      rw [hs, expand_all_append, List.append_assoc, hi, ← List.append_assoc, ha,
        List.filter_cons_of_pos hwr, List.map_cons, List.append_assoc]
      rfl
    · rename_i hw
      have hwr : writable row = false := by simpa [writable] using hw
      have hi := ih writes h
      rw [List.filter_cons_of_neg (by simp [hwr])]
      exact hi

/-- C25. For every file (with a first row when the first row is to be skipped)
and every choice of node column or fixed node, the write requests `load_csv_data` submits, in submission order, each expanded to
the triples `(first_register + i, values[i], node)`, concatenate to exactly the
rows the loop visits whose register is in 1..9999 or 40001..49999, in file
order, each row as the triple `append_write` is called with (its register, its
value as a `quint16` and its node as a `quint8`); a write request being a first
register, a list of values and one node, the registers within a request are
consecutive and its rows share the node. Every submitted request is non-empty,
and the register of a row that passes the test is the cell itself. -/
theorem csv_import_preserves_rows (all_data : List CsvRow) (node_index : Int)
    (skip_first_row : Bool) (_hfile : skip_first_row = true → all_data ≠ []) :
    expand_all (submitted_writes (load_csv_data all_data node_index skip_first_row)) =
      ((data_rows all_data skip_first_row).filter writable).map
        (row_triple node_index (fixed_node_of node_index)) ∧
    (∀ wr ∈ submitted_writes (load_csv_data all_data node_index skip_first_row),
      wr.values ≠ []) ∧
    (∀ row ∈ (data_rows all_data skip_first_row).filter writable,
      ((to_quint16 row.regnum : Nat) : Int) = row.regnum) := by
  have hempty : within_code_cap WriteRequest.empty := Or.inl rfl
  have hx := load_csv_rows_expand node_index (fixed_node_of node_index)
    (data_rows all_data skip_first_row) WriteRequest.empty hempty
  have hc := load_csv_rows_within_cap node_index (fixed_node_of node_index)
    (data_rows all_data skip_first_row) WriteRequest.empty hempty
  have hd : load_csv_data all_data node_index skip_first_row =
      (load_csv_rows node_index (fixed_node_of node_index) WriteRequest.empty
        (data_rows all_data skip_first_row)).2 ++
      (if (load_csv_rows node_index (fixed_node_of node_index) WriteRequest.empty
            (data_rows all_data skip_first_row)).1.values.length > 0
       then [CsvEffect.modbus_on_write_request
         (load_csv_rows node_index (fixed_node_of node_index) WriteRequest.empty
            (data_rows all_data skip_first_row)).1]
       else []) := rfl
  rw [hd]
  revert hx hc
  generalize load_csv_rows node_index (fixed_node_of node_index) WriteRequest.empty
    (data_rows all_data skip_first_row) = r
  intro hx hc
  have he : WriteRequest.empty.expand = [] := rfl
  rw [he, List.nil_append] at hx
  refine ⟨?_, ?_, ?_⟩
  · rw [submitted_writes_append, expand_all_append, ← hx]
    by_cases hl : r.1.values.length > 0
    · simp [hl, submitted_writes, expand_all]
    · have hnil : r.1.values = [] := by
        cases hv : r.1.values with
        | nil => rfl
        | cons a l => rw [hv] at hl; simp at hl
      simp [hl, submitted_writes, expand_all, WriteRequest.expand, hnil, expand_from]
  · intro wr hwr
    rw [submitted_writes_append, List.mem_append] at hwr
    rcases hwr with hwr | hwr
    · exact (hc.2 wr hwr).1
    · by_cases hl : r.1.values.length > 0
      · simp only [hl, if_true, submitted_writes, List.mem_singleton] at hwr
        rw [hwr]
        intro e
        rw [e] at hl
        simp at hl
      · simp [hl, submitted_writes] at hwr
  · intro row hrow
    have hw := (List.mem_filter.mp hrow).2
    simp only [writable, decide_eq_true_eq] at hw
    unfold to_quint16
    rcases hw with hw | hw
    · have : row.regnum % 65536 = row.regnum := Int.emod_eq_of_lt (by omega) (by omega)
      rw [this]
      omega
    · have : row.regnum % 65536 = row.regnum := Int.emod_eq_of_lt (by omega) (by omega)
      rw [this]
      omega

/-- Witness of C25: the file `demo_csv` with its header row skipped and the node
read from a column is imported as three write requests, the coils 1..3 of node
1, the holding registers 40001..40002 of node 1 and the holding register 40003
of node 2; the read-only register 30001 is not written. -/
theorem csv_import_preserves_rows_witness :
    submitted_writes (load_csv_data demo_csv 2 true) =
      [{ requester := none, node := 1, first_register := 1, values := [1, 0, 1] },
       { requester := none, node := 1, first_register := 40001, values := [10, 20] },
       { requester := none, node := 2, first_register := 40003, values := [30] }] ∧
    expand_all (submitted_writes (load_csv_data demo_csv 2 true)) =
      [(1, 1, 1), (2, 0, 1), (3, 1, 1), (40001, 10, 1), (40002, 20, 1), (40003, 30, 2)] :=
  ⟨by decide,
   (csv_import_preserves_rows demo_csv 2 true (by decide)).1.trans (by decide)⟩

/-! ### The current action outlives the metadata queue -/

/-- C27. The claim fails on the code. A metadata step is dispatched, then
`stop_modbus` and `start_modbus` clear the metadata queue but leave
`m_current_action` at Metadata: nothing has been thrown so far, the scheduler is
connected and not active, and the metadata queue is empty. An error signal
delivered in that state makes `modbus_on_error` call `pop_front` on the empty
queue. The same happens when the signal arrives after `stop_modbus` alone. -/
theorem modbus_on_error_pops_empty_queue :
    (run demo_env Scheduler.init stale_metadata_ops).fault = none ∧
    (run demo_env Scheduler.init stale_metadata_ops).state.m_current_action =
      PollAction.POLLING_METADATA ∧
    (run demo_env Scheduler.init stale_metadata_ops).state.m_meta_requests = [] ∧
    (run demo_env Scheduler.init stale_metadata_ops).state.m_polling_thread ≠ none ∧
    (modbus_on_error demo_env (run demo_env Scheduler.init stale_metadata_ops).state 2).fault =
      some Fault.undefined_behaviour ∧
    (run demo_env Scheduler.init (stale_metadata_ops ++ [Op.modbus_error 2])).fault =
      some Fault.undefined_behaviour ∧
    (run demo_env Scheduler.init (stale_metadata_ops.take 3 ++ [Op.modbus_error 2])).fault =
      some Fault.undefined_behaviour := by
  decide

theorem poll_meta_request_queued (env : Env) (s : Scheduler)
    (h : (poll_meta_request env s).2 = true) :
    (poll_meta_request env s).1.state.m_meta_requests ≠ [] := by
  unfold poll_meta_request at h ⊢
  split
  · rename_i hq
    simp [hq] at h
  · rename_i cur rest hq
    simp only [hq] at h
    split
    · rename_i hc
      rw [if_pos hc] at h
      split
      · rename_i hn
        simp [hn] at h
      · dsimp only
        split <;> simp
    · rename_i hc
      rw [if_neg hc] at h
      simp at h

theorem figure_next_loop_queued (env : Env) (fuel : Nat) :
    ∀ (s : Scheduler) (na : PollAction) (epc : Bool),
      (figure_next_loop env fuel s na epc).out.fault = none →
      (figure_next_loop env fuel s na epc).next_action = PollAction.POLLING_METADATA →
      (figure_next_loop env fuel s na epc).out.state.m_meta_requests ≠ [] := by
  induction fuel with
  | zero => intro s na epc hf; simp [figure_next_loop] at hf
  | succ fuel ih =>
    intro s na epc
    unfold figure_next_loop
    split
    · intro _ h; simp at h
    · dsimp only
      split
      · rename_i hc
        intro hf _
        rcases hc with hc | hc
        · exact absurd hf hc
        · exact poll_meta_request_queued env s hc
      · split
        · intro _ h; simp at h
        · intro hf h
          exact ih (poll_meta_request env s).1.state PollAction.POLLING_METADATA epc hf h
    · intro _ h; simp at h
    · intro _ h; simp at h
    · intro _ h; simp at h

theorem figure_next_queued (env : Env) (s : Scheduler) (h : metadata_step_queued s)
    (hf : (figure_next env s).fault = none) :
    metadata_step_queued (figure_next env s).state := by
  by_cases hc : s.m_active = true ∨ s.m_polling_thread = none
  · have he : figure_next env s = { state := s, effects := [], fault := none } := by
      unfold figure_next
      rw [if_pos hc]
    rw [he]
    exact h
  · unfold figure_next at hf ⊢
    rw [if_neg hc] at hf ⊢
    dsimp only at hf ⊢
    have hl := figure_next_loop_queued env (s.m_meta_requests.length + 1)
      { s with m_active := true, m_current_request := none } PollAction.POLLING_READ false
    revert hl hf
    generalize figure_next_loop env (s.m_meta_requests.length + 1)
      { s with m_active := true, m_current_request := none } PollAction.POLLING_READ false = l
    intro hf hl
    cases hlf : l.out.fault with
    | some f => rw [hlf] at hf; simp at hf
    | none =>
      simp only [hlf]
      intro _ ha
      exact hl hlf ha

theorem andThen_figure_next_queued (env : Env) (o : Outcome)
    (hidle : o.state.m_active = false)
    (hf : (Outcome.andThen o (figure_next env)).fault = none) :
    metadata_step_queued (Outcome.andThen o (figure_next env)).state := by
  unfold Outcome.andThen at hf ⊢
  cases hof : o.fault with
  | some f => rw [hof] at hf; simp only [] at hf; rw [hof] at hf; cases hf
  | none =>
    rw [hof] at hf
    refine figure_next_queued env o.state (fun e => ?_) hf
    rw [hidle] at e
    cases e

theorem step_queued (env : Env) (s : Scheduler) (op : Op) (h : metadata_step_queued s)
    (hf : (step env s op).fault = none) : metadata_step_queued (step env s op).state := by
  cases op with
  | start_modbus engine timeout =>
    simp only [step, start_modbus] at hf ⊢
    split at hf
    · simp at hf
    · rename_i hn
      simp only [if_neg hn]
      intro e
      simp at e
  | stop_modbus =>
    simp only [step, stop_modbus]
    split
    · intro e
      simp at e
    · exact h
  | enqueue_request source =>
    simp only [step, enqueue_request] at hf ⊢
    split at hf
    · rename_i hc
      simp only [if_pos hc]
      exact figure_next_queued env _ h hf
    · rename_i hc
      simp only [if_neg hc]
      exact h
  | modbus_on_write_request request =>
    simp only [step, modbus_on_write_request] at hf ⊢
    split at hf
    · rename_i hc
      simp only [if_pos hc]
      exact figure_next_queued env _ h hf
    · rename_i hc
      simp only [if_neg hc]
      exact h
  | modbus_on_poll_meta request_sequence =>
    simp only [step, modbus_on_poll_meta] at hf ⊢
    split at hf
    · rename_i hc
      simp only [if_pos hc]
      refine figure_next_queued env _ (fun _ _ => ?_) hf
      simp
    · rename_i hc
      simp only [if_neg hc]
      exact h
  | remove_reference screen =>
    simp only [step, remove_reference]
    intro ha hm
    have hq := h ha hm
    simpa using hq
  | complete regs =>
    simp only [step] at hf ⊢
    unfold modbus_on_data at hf ⊢
    dsimp only at hf ⊢
    split at hf
    · rename_i hnone
      simp only [hnone] at hf ⊢
      exact andThen_figure_next_queued env _ rfl hf
    · rename_i t ht
      simp only [ht] at hf ⊢
      split at hf
      · rename_i hm
        simp only [if_pos hm]
        exact andThen_figure_next_queued env _ (poll_response_metadata_active env _).2 hf
      · rename_i hm
        simp only [if_neg hm]
        split at hf
        · rename_i hr
          simp only [if_pos hr]
          exact andThen_figure_next_queued env _ rfl hf
        · rename_i hr
          simp only [if_neg hr]
          exact andThen_figure_next_queued env _ rfl hf
  | modbus_error error_code =>
    simp only [step] at hf ⊢
    unfold modbus_on_error at hf ⊢
    dsimp only at hf ⊢
    split at hf
    · rename_i hm
      simp only [if_pos hm]
      split at hf
      · simp at hf
      · rename_i c rest hq
        exact andThen_figure_next_queued env _ rfl hf
    · rename_i hm
      simp only [if_neg hm]
      exact andThen_figure_next_queued env _ rfl hf
  | timer_expired =>
    simp only [step, modbus_on_timer_expired] at hf ⊢
    split at hf
    · rename_i ha
      simp only [if_pos ha]
      unfold modbus_on_error at hf ⊢
      dsimp only at hf ⊢
      split at hf
      · rename_i hm
        simp only [if_pos hm]
        split at hf
        · simp at hf
        · rename_i c rest hq
          exact andThen_figure_next_queued env _ rfl hf
      · rename_i hm
        simp only [if_neg hm]
        exact andThen_figure_next_queued env _ rfl hf
    · rename_i ha
      simp only [if_neg ha]
      exact h

/-- What does hold of C27: in every state reached from the constructor by
operations that return normally, an engine that is active with the action
Metadata has a non-empty metadata queue, so an error signal for the
transaction in flight, and the expiry of the watchdog, never meet an empty
queue. -/
theorem metadata_step_in_flight_is_queued (env : Env) (ops : List Op) :
    ∀ s, metadata_step_queued s → (run env s ops).fault = none →
      metadata_step_queued (run env s ops).state := by
  induction ops with
  | nil => intro s h _; exact h
  | cons op ops ih =>
    intro s h hf
    unfold run at hf ⊢
    unfold Outcome.andThen at hf ⊢
    cases hof : (step env s op).fault with
    | some f => rw [hof] at hf; simp only [] at hf; rw [hof] at hf; cases hf
    | none =>
      rw [hof] at hf
      exact ih _ (step_queued env s op h hof) hf

/-- The invariant at work: after the connect and the dispatch of a metadata
step the engine is active with the action Metadata and the sequence is at the
front of the metadata queue. -/
theorem metadata_step_in_flight_is_queued_witness :
    (run demo_env Scheduler.init (stale_metadata_ops.take 2)).state.m_active = true ∧
    (run demo_env Scheduler.init (stale_metadata_ops.take 2)).state.m_current_action =
      PollAction.POLLING_METADATA ∧
    (run demo_env Scheduler.init (stale_metadata_ops.take 2)).state.m_meta_requests ≠ [] :=
  ⟨by decide, by decide,
   metadata_step_in_flight_is_queued demo_env (stale_metadata_ops.take 2) Scheduler.init
     (fun e => by simp [Scheduler.init] at e) (by decide) (by decide) (by decide)⟩

/-! ### Display encoding round trip -/

/-- C29. The claim fails on the code for the two byte encodings. In the branches
for signed bytes and for bytes `encode_register` computes `ok` as the conjunction
of two flags that are initialised to `false` and never assigned, so whatever the
library functions do and whatever the text is, it returns the empty list; in
particular it does not return `[v]` for the text `decode_register` produced from
`v`. With a library that prints and parses decimal numbers, the register 258
(bytes 1 and 2) is shown as `1,2`, and `1,2` is encoded as the empty list. -/
theorem byte_encodings_never_encode :
    (∀ (qt : QStringLib) (value : List Char),
      encode_register qt value RegisterEncoding.ENCODING_SIGNED_BYTES = [] ∧
      encode_register qt value RegisterEncoding.ENCODING_BYTES = []) ∧
    (∀ (qt : QStringLib) (v : Nat),
      encode_register qt (decode_register qt v RegisterEncoding.ENCODING_SIGNED_BYTES)
        RegisterEncoding.ENCODING_SIGNED_BYTES ≠ [v] ∧
      encode_register qt (decode_register qt v RegisterEncoding.ENCODING_BYTES)
        RegisterEncoding.ENCODING_BYTES ≠ [v]) ∧
    decode_register demo_qstring 258 RegisterEncoding.ENCODING_BYTES = ['1', ',', '2'] ∧
    (encode_register_switch demo_qstring ['1', ',', '2'] RegisterEncoding.ENCODING_BYTES).1 =
      [258] ∧
    encode_register demo_qstring ['1', ',', '2'] RegisterEncoding.ENCODING_BYTES = [] := by
  have h : ∀ (qt : QStringLib) (value : List Char),
      encode_register qt value RegisterEncoding.ENCODING_SIGNED_BYTES = [] ∧
      encode_register qt value RegisterEncoding.ENCODING_BYTES = [] := by
    intro qt value
    simp [encode_register, encode_register_switch]
  refine ⟨h, fun qt v => ?_, by decide, by decide, by decide⟩
  rw [(h qt _).1, (h qt _).2]
  simp

/-- The round trip of C29 for the other six encodings: when the library parses
back, in the same base, the number it printed for `v` (for the signed encoding,
for `v` read as a `qint16`), `encode_register` returns `[v]` for the text
`decode_register` produced from `v`. -/
theorem word_encodings_round_trip (qt : QStringLib) (v : Nat) (hv : v < 65536)
    (h10 : qt.toInt (qt.number v 10) 10 = ((v : Int), true))
    (h16 : qt.toInt ((['0', 'x'] ++ qt.number v 16).drop 2) 16 = ((v : Int), true))
    (hs : qt.toInt (qt.number (to_qint16 v) 10) 10 = (to_qint16 v, true)) :
    encode_register qt (decode_register qt v RegisterEncoding.ENCODING_NONE)
      RegisterEncoding.ENCODING_NONE = [v] ∧
    encode_register qt (decode_register qt v RegisterEncoding.ENCODING_UINT16)
      RegisterEncoding.ENCODING_UINT16 = [v] ∧
    encode_register qt (decode_register qt v RegisterEncoding.ENCODING_UNKNOWN)
      RegisterEncoding.ENCODING_UNKNOWN = [v] ∧
    encode_register qt (decode_register qt v RegisterEncoding.ENCODING_USER)
      RegisterEncoding.ENCODING_USER = [v] ∧
    encode_register qt (decode_register qt v RegisterEncoding.ENCODING_BITS)
      RegisterEncoding.ENCODING_BITS = [v] ∧
    encode_register qt (decode_register qt v RegisterEncoding.ENCODINT_INT16)
      RegisterEncoding.ENCODINT_INT16 = [v] := by
  have hq : to_quint16 (v : Int) = v := by
    unfold to_quint16
    omega
  have hq2 : to_quint16 (to_qint16 (to_qint16 (v : Int))) = v := by
    unfold to_quint16 to_qint16
    omega
  simp only [encode_register, decode_register, encode_register_switch, h10, h16, hs, hq, hq2,
    if_true, and_self]

/-- The round trip of the six word encodings at the register 65535 with a
library that prints and parses numbers. -/
theorem word_encodings_round_trip_witness :
    decode_register demo_qstring 65535 RegisterEncoding.ENCODING_BITS =
      ['0', 'x', 'f', 'f', 'f', 'f'] ∧
    decode_register demo_qstring 65535 RegisterEncoding.ENCODINT_INT16 = ['-', '1'] ∧
    encode_register demo_qstring ['0', 'x', 'f', 'f', 'f', 'f'] RegisterEncoding.ENCODING_BITS =
      [65535] ∧
    encode_register demo_qstring ['-', '1'] RegisterEncoding.ENCODINT_INT16 = [65535] :=
  have h := word_encodings_round_trip demo_qstring 65535 (by decide) (by decide) (by decide)
    (by decide)
  ⟨by decide, by decide, h.2.2.2.2.1, h.2.2.2.2.2⟩

/-! ### Worker: custom requests -/

set_option maxRecDepth 100000 in
/-- The custom request of function code 65 on two answers of the device. A frame
whose length field counts the unit, the function code and two data bytes ends
the turn with `complete` and the two data bytes as the result. A frame whose
length field is 1 makes `length - index` negative: the resize of `m_regs` throws and
the turn ends without a signal. -/
theorem custom_request_turns :
    (run_iteration (custom_lib [0, 1, 0, 0, 0, 4, 3, 65, 10, 20])
        (worker_with_raw [1, 2] 65 3)).2 =
      [WorkerEffect.call (LibCall.modbus_send_raw_request [3, 65, 1, 2]),
       WorkerEffect.call LibCall.modbus_receive_confirmation,
       WorkerEffect.complete] ∧
    (run_iteration (custom_lib [0, 1, 0, 0, 0, 4, 3, 65, 10, 20])
        (worker_with_raw [1, 2] 65 3)).1.thread.m_regs = [10, 20] ∧
    (run_iteration (custom_lib [0, 1, 0, 0, 0, 1, 3, 65])
        (worker_with_raw [1, 2] 65 3)).2 =
      [WorkerEffect.call (LibCall.modbus_send_raw_request [3, 65, 1, 2]),
       WorkerEffect.call LibCall.modbus_receive_confirmation,
       WorkerEffect.thrown Fault.length_error] := by
  decide

/-! ### A metadata sequence from its first to its last register -/

end QModbusTool
